import Mathlib

/-!
# BiathlonSim: the replay engine and the competitor state machine

A shallow embedding of `simulation.go`, `competitor.go`, `timeutils.go` and
the event descriptions of `event.go`.

Modelling conventions.

* `time.Time` is the number of nanoseconds elapsed since Go's zero instant
  (0001-01-01 00:00:00 UTC), an `Int`; `IsZero` is "equals 0", `Before` is `<`,
  `Sub` is the saturating 64-bit difference of the Go library.
* `time.Duration` is an `Int` number of nanoseconds.
* Go `int` fields are `Int`.  The only arithmetic on them is `+ 1`, `+ 5`,
  `- 1` and `5 - hits`, applied at most once per processed event, so their
  magnitude is bounded by five times the number of events and 64-bit
  wrap-around is out of reach of any slice that fits in memory.  The same
  holds of the sum of the per-lap penalty counters in `CalculatePenaltyStats`;
  its sum of durations and its product with the configured penalty length,
  which the input can make large, wrap around explicitly (`wrapInt64`).
* A `float64` is the rational it denotes; every float64 operation rounds to
  the nearest number with a 53-bit significand (`roundFloat64`).
* The competitor map `map[int]*Competitor` is a function `Int → Option
  Competitor`; a mutation through the pointer is a write-back at the key.
* An index-out-of-range abort is the result `none`.
* A Go `string` is a `String`, read as the list of its characters; a parse
  error is the result `none`.  `time.Duration` arithmetic on parsed fields
  wraps around (`wrapInt64`).
-/

namespace BiathlonSim

/-! ## Time -/

/-- Go time.Time: nanoseconds since 0001-01-01 00:00:00 UTC. -/
abbrev Time := Int

/-- Go time.Duration: a signed nanosecond count. -/
abbrev Duration := Int

def minDuration : Duration := -(2 ^ 63)

def maxDuration : Duration := 2 ^ 63 - 1

def nsPerSecond : Int := 1000000000

def nsPerDay : Int := 86400 * nsPerSecond

/-- Value of `projectEpoch` of timeutils.go: 2000-01-01 00:00:00 UTC, which is
730119 days after the zero instant. -/
def projectEpoch : Time := 730119 * nsPerDay

def Time.IsZero (t : Time) : Bool := decide (t = 0)

def Time.Before (t u : Time) : Bool := decide (t < u)

/-- Go `t.Sub(u)`: the difference, saturated to the range of Duration. -/
def Time.Sub (t u : Time) : Duration :=
  if t - u < minDuration then minDuration
  else if maxDuration < t - u then maxDuration
  else t - u

/-! ### float64

A finite float64 is the rational number it denotes.  An operation of Go on
float64 is the exact operation followed by rounding to the nearest number with
a significand of 53 bits, ties to even.  The exponent is not bounded here: the
quotients and sums computed by competitor.go from 64-bit integers and positive
durations lie between 10^-10 and 10^28 in magnitude or are zero, far from the
overflow and underflow thresholds of float64, and their divisors are not zero. -/

/-- Nearest integer, ties to the even one. -/
def roundHalfEven (x : ℚ) : Int :=
  if x - ⌊x⌋ < 1 / 2 then ⌊x⌋
  else if 1 / 2 < x - ⌊x⌋ then ⌊x⌋ + 1
  else if ⌊x⌋ % 2 = 0 then ⌊x⌋ else ⌊x⌋ + 1

/-- Binary logarithm of `n`, rounded down, computed with `fuel` halvings at
most. -/
def log2Fuel : Nat → Nat → Nat
  | 0, _ => 0
  | fuel + 1, n => if n < 2 then 0 else log2Fuel fuel (n / 2) + 1

/-- Binary logarithm of `n`, rounded down: the position of its leading bit. -/
def floorLog2 (n : Nat) : Nat := log2Fuel n n

/-- Exponent of the last place of the float64 nearest to a non-zero `q`: the
`e` with 2^52 ≤ |q| / 2^e < 2^53. -/
def float64Exponent (q : ℚ) : Int :=
  let k : Int := (floorLog2 q.num.natAbs : Int) - (floorLog2 q.den : Int)
  if (2 : ℚ) ^ k ≤ |q| then k - 52 else k - 53

/-- The float64 nearest to `q` (ties to even), as a rational. -/
def roundFloat64 (q : ℚ) : ℚ :=
  if q = 0 then 0
  else (roundHalfEven (q / 2 ^ float64Exponent q) : ℚ) * 2 ^ float64Exponent q

/-- Go conversion `float64(n)` of an integer. -/
def float64OfInt (n : Int) : ℚ := roundFloat64 (n : ℚ)

/-- Go `x / y` on float64. -/
def float64Div (x y : ℚ) : ℚ := roundFloat64 (x / y)

/-- Go `x + y` on float64. -/
def float64Add (x y : ℚ) : ℚ := roundFloat64 (x + y)

/-- Go `d.Seconds()`: `float64(sec) + float64(nsec)/1e9` for the truncating
quotient and remainder of `d` by a second. -/
def Duration.Seconds (d : Duration) : ℚ :=
  let sec := Int.tdiv d 1000000000
  let nsec := Int.tmod d 1000000000
  float64Add (float64OfInt sec) (float64Div (float64OfInt nsec) 1000000000)

/-- A clock time on the reference date, the only timestamps `ParseTime`
constructs: `projectEpoch` plus a time of day. -/
def Time.isClockTime (t : Time) : Prop := projectEpoch ≤ t ∧ t < projectEpoch + nsPerDay

instance (t : Time) : Decidable (Time.isClockTime t) := by
  unfold Time.isClockTime; infer_instance

/-- Decimal rendering of `n`, left-padded with zeros to width `w` (`%0wd`). -/
def padZero (w : Nat) (n : Nat) : String :=
  String.mk (List.replicate (w - (toString n).length) '0') ++ toString n

/-- FormatTime of timeutils.go: layout `15:04:05.000` of a UTC instant. -/
def FormatTime (t : Time) : String :=
  let ns : Nat := (t % nsPerDay).toNat
  padZero 2 (ns / 3600000000000) ++ ":" ++ padZero 2 (ns % 3600000000000 / 60000000000) ++ ":" ++
    padZero 2 (ns % 60000000000 / 1000000000) ++ "." ++ padZero 3 (ns % 1000000000 / 1000000)

/-- Two's-complement wrap-around of a 64-bit signed result. -/
def wrapInt64 (x : Int) : Int := (x + 2 ^ 63) % 2 ^ 64 - 2 ^ 63

/-! ## Parsing and formatting of times (timeutils.go)

The functions of Go's standard library that timeutils.go calls are modelled
after the library's code, restricted to the arguments that timeutils.go passes:
a one-character separator for `strings.Split` and `strings.Contains`, the two
layouts `15:04:05` and `15:04:05.000` for `time.Parse`, the verb `%0wd` for
`fmt.Sprintf`.  A string is the list of its characters; all of these functions
give a meaning to ASCII characters only. -/


/-- Go `strings.Split(s, sep)` for a separator of one character. -/
def stringsSplit (s : List Char) (sep : Char) : List (List Char) := s.splitOn sep

/-- Go `strings.Contains(s, substr)` for a substring of one character. -/
def stringsContains (s : List Char) (ch : Char) : Bool := s.contains ch

/-- Value of a digit character. -/
def digitVal (ch : Char) : Nat := ch.toNat - 48

/-- Value of a sequence of decimal digits. -/
def digitsValue (cs : List Char) : Nat := cs.foldl (fun n ch => n * 10 + digitVal ch) 0

/-- Go `strconv.Atoi` with a 64-bit int: an optional sign, then one or more
decimal digits and nothing else; a value outside the range of int is an error. -/
def Atoi (s : List Char) : Option Int :=
  let digits := if s.head? = some '-' ∨ s.head? = some '+' then s.tail else s
  if digits = [] ∨ digits.all Char.isDigit = false then none
  else
    let n : Int := if s.head? = some '-' then -(digitsValue digits : Int) else digitsValue digits
    if n < -(2 ^ 63) ∨ 2 ^ 63 - 1 < n then none else some n

/-- Function `getnum` of Go's time package: the number made of the first two
characters when both are digits, of the first alone when the second is not a
digit and `fixed` is false; with the text that follows. -/
def getnum (s : List Char) (fixed : Bool) : Option (Nat × List Char) :=
  match s with
  | [] => none
  | a :: rest =>
    if a.isDigit = false then none
    else
      match rest with
      | [] => if fixed then none else some (digitVal a, rest)
      | b :: rest1 =>
        if b.isDigit = false then (if fixed then none else some (digitVal a, rest))
        else some (digitVal a * 10 + digitVal b, rest1)

/-- Function `atoi` of Go's time package on a text of at most nine characters
(the only ones `parseNanoseconds` passes): an optional sign, then digits only,
none being allowed. -/
def timeAtoi (s : List Char) : Option Int :=
  let digits := if s.head? = some '-' ∨ s.head? = some '+' then s.tail else s
  if digits.all Char.isDigit = false then none
  else some (if s.head? = some '-' then -(digitsValue digits : Int) else digitsValue digits)

/-- Function `parseNanoseconds` of Go's time package: `value` starts with the
separator, `nbytes` is the length of separator and digits. -/
def parseNanoseconds (value : List Char) (nbytes : Nat) : Option Int :=
  if value.head? ≠ some '.' ∧ value.head? ≠ some ',' then none
  else
    let nbytes := min nbytes 10
    match timeAtoi ((value.take nbytes).drop 1) with
    | none => none
    | some ns => if ns < 0 then none else some (ns * 10 ^ (10 - nbytes))

/-- The fractional second that Go's `time.Parse` reads after the seconds field
and the text left after it.  With `.000` in the layout the separator and
exactly three more characters are read; without, a separator followed by a
digit starts a fraction of any number of digits. -/
def parseFraction (frac : Bool) (value : List Char) : Option (Int × List Char) :=
  if frac then
    if value.length < 4 then none
    else (parseNanoseconds value 4).map (fun nsec => (nsec, value.drop 4))
  else if 2 ≤ value.length ∧ (value.head? = some '.' ∨ value.head? = some ',') ∧
      (value.drop 1).head?.any Char.isDigit then
    let n := 2 + ((value.drop 2).takeWhile Char.isDigit).length
    (parseNanoseconds value n).map (fun nsec => (nsec, value.drop n))
  else some (0, value)

/-- Function `skip` of Go's time package for a layout prefix of one character
that is not a blank: the text after that character. -/
def skip (value : List Char) (ch : Char) : Option (List Char) :=
  match value with
  | [] => none
  | c :: rest => if c = ch then some rest else none

/-- Go `time.Parse(layout, value)` for the layouts `15:04:05.000` (`frac` true)
and `15:04:05` (`frac` false): hour, minute, second and nanosecond of the
result.  A field out of range and text left over are errors. -/
def timeParse (frac : Bool) (value : List Char) : Option (Int × Int × Int × Int) :=
  match getnum value false with
  | none => none
  | some (hour, value) =>
    if 24 ≤ hour then none
    else
      match skip value ':' with
      | none => none
      | some value =>
        match getnum value true with
        | none => none
        | some (min, value) =>
          if 60 ≤ min then none
          else
            match skip value ':' with
            | none => none
            | some value =>
              match getnum value true with
              | none => none
              | some (sec, value) =>
                if 60 ≤ sec then none
                else
                  match parseFraction frac value with
                  | none => none
                  | some (nsec, value) =>
                    if value ≠ [] then none else some (hour, min, sec, nsec)

/-- ParseTime of timeutils.go. -/
def ParseTime (timeStr : String) : Option Time :=
  match timeParse (stringsContains timeStr.data '.') timeStr.data with
  | none => none
  | some (hour, min, sec, nsec) =>
    some (projectEpoch + hour * (3600 * nsPerSecond) + min * (60 * nsPerSecond) +
      sec * nsPerSecond + nsec)

/-- ParseDuration of timeutils.go. -/
def ParseDuration (durationStr : String) : Option Duration :=
  match stringsSplit durationStr.data ':' with
  | [p0, p1, p2] =>
    match Atoi p0 with
    | none => none
    | some h =>
      match Atoi p1 with
      | none => none
      | some m =>
        match Atoi ((stringsSplit p2 '.').headD []) with
        | none => none
        | some sec =>
          some (wrapInt64 (wrapInt64 (wrapInt64 (h * (3600 * nsPerSecond)) +
            wrapInt64 (m * (60 * nsPerSecond))) + wrapInt64 (sec * nsPerSecond)))
  | _ => none

/-- Verb `%0wd` of fmt.Sprintf: the sign, if any, counts in the width. -/
def sprintfPad (w : Nat) (i : Int) : String :=
  if i < 0 then "-" ++ padZero (w - 1) i.natAbs else padZero w i.toNat

/-- FormatDuration of timeutils.go. -/
def FormatDuration (d : Duration) : String :=
  let d := if d < 0 then wrapInt64 (-d) else d
  let totalMilliseconds := Int.tdiv d 1000000
  let hours := Int.tdiv totalMilliseconds (1000 * 60 * 60)
  let totalMilliseconds := Int.tmod totalMilliseconds (1000 * 60 * 60)
  let minutes := Int.tdiv totalMilliseconds (1000 * 60)
  let totalMilliseconds := Int.tmod totalMilliseconds (1000 * 60)
  let seconds := Int.tdiv totalMilliseconds 1000
  let milliseconds := Int.tmod totalMilliseconds 1000
  sprintfPad 2 hours ++ ":" ++ sprintfPad 2 minutes ++ ":" ++ sprintfPad 2 seconds ++ "." ++
    sprintfPad 3 milliseconds

/-! ## Events -/

abbrev EventID := Int

def EventRegistered : EventID := 1
def EventStartTimeSet : EventID := 2
def EventOnStartLine : EventID := 3
def EventStarted : EventID := 4
def EventOnFiringRange : EventID := 5
def EventTargetHit : EventID := 6
def EventLeftFiringRange : EventID := 7
def EventEnteredPenaltyLaps : EventID := 8
def EventLeftPenaltyLaps : EventID := 9
def EventEndedMainLap : EventID := 10
def EventCannotContinue : EventID := 11
def EventDisqualified : EventID := 32
def EventFinished : EventID := 33

structure Event where
  Timestamp : Time := 0
  ID : EventID := 0
  CompetitorID : Int := 0
  ExtraParamsStr : String := ""
  Line : String := ""
  ScheduledStartTime : Time := 0
  FiringRange : Int := 0
  Target : Int := 0
  Comment : String := ""
  deriving DecidableEq

/-- GetEventDescription of event.go. -/
def GetEventDescription (event : Event) : String :=
  if event.ID = EventRegistered then
    "The competitor(" ++ toString event.CompetitorID ++ ") registered"
  else if event.ID = EventStartTimeSet then
    "The start time for the competitor(" ++ toString event.CompetitorID ++
      ") was set by a draw to " ++ FormatTime event.ScheduledStartTime
  else if event.ID = EventOnStartLine then
    "The competitor(" ++ toString event.CompetitorID ++ ") is on the start line"
  else if event.ID = EventStarted then
    "The competitor(" ++ toString event.CompetitorID ++ ") has started"
  else if event.ID = EventOnFiringRange then
    "The competitor(" ++ toString event.CompetitorID ++ ") is on the firing range(" ++
      toString event.FiringRange ++ ")"
  else if event.ID = EventTargetHit then
    "The target(" ++ toString event.Target ++ ") has been hit by competitor(" ++
      toString event.CompetitorID ++ ")"
  else if event.ID = EventLeftFiringRange then
    "The competitor(" ++ toString event.CompetitorID ++ ") left the firing range"
  else if event.ID = EventEnteredPenaltyLaps then
    "The competitor(" ++ toString event.CompetitorID ++ ") entered the penalty laps"
  else if event.ID = EventLeftPenaltyLaps then
    "The competitor(" ++ toString event.CompetitorID ++ ") left the penalty laps"
  else if event.ID = EventEndedMainLap then
    "The competitor(" ++ toString event.CompetitorID ++ ") ended the main lap"
  else if event.ID = EventCannotContinue then
    "The competitor(" ++ toString event.CompetitorID ++ ") can't continue: " ++ event.Comment
  else if event.ID = EventDisqualified then
    "The competitor(" ++ toString event.CompetitorID ++ ") is disqualified"
  else if event.ID = EventFinished then
    "The competitor(" ++ toString event.CompetitorID ++ ") has finished"
  else
    "Unknown event " ++ toString event.ID ++ " for competitor " ++ toString event.CompetitorID ++
      " with params '" ++ event.ExtraParamsStr ++ "'"

/-- The narration line of an event: `[%s] %s` of its time and description. -/
def eventLine (event : Event) : String :=
  "[" ++ FormatTime event.Timestamp ++ "] " ++ GetEventDescription event

/-! ## Competitor records -/

inductive CompetitorStatus where
  | Registered
  | Scheduled
  | Racing
  | OnRange
  | InPenalty
  | Completed
  | NotStarted
  | NotFinished
  | Disqualified
  deriving DecidableEq

/-- The string value of a status constant (what `%s` prints). -/
def CompetitorStatus.toString : CompetitorStatus → String
  | .Registered => "Registered"
  | .Scheduled => "Scheduled"
  | .Racing => "Racing"
  | .OnRange => "OnRange"
  | .InPenalty => "InPenalty"
  | .Completed => "Completed"
  | .NotStarted => "NotStarted"
  | .NotFinished => "NotFinished"
  | .Disqualified => "Disqualified"

structure ShootingRecord where
  RangeID : Int := 0
  EntryTime : Time := 0
  ExitTime : Time := 0
  Hits : Int := 0
  Shots : Int := 0
  PenaltiesIncurred : Int := 0
  deriving DecidableEq

structure LapRecord where
  LapNumber : Int := 0
  StartTime : Time := 0
  EndTime : Time := 0
  ShootingData : List ShootingRecord := []
  PenaltyEntryTime : Time := 0
  PenaltyExitTime : Time := 0
  PenaltiesServed : Int := 0
  LapDuration : Duration := 0
  AverageSpeed : ℚ := 0
  deriving DecidableEq

/-- The anonymous struct `CurrentLapTempData` of Competitor. -/
structure LapTempData where
  LapStartTime : Time := 0
  RangeEntryTime : Time := 0
  ShotsInSession : Int := 0
  HitsInSession : Int := 0
  PenaltiesToServe : Int := 0
  PenaltyEntryTime : Time := 0
  deriving DecidableEq

structure Competitor where
  ID : Int := 0
  Status : CompetitorStatus
  ScheduledStartTime : Time := 0
  ActualStartTime : Time := 0
  FinishTime : Time := 0
  LastEventTime : Time := 0
  CurrentLapNumber : Int := 0
  LapsData : List LapRecord := []
  CurrentShooting : Option ShootingRecord := none
  CurrentLapTempData : LapTempData := {}
  TotalHits : Int := 0
  TotalShots : Int := 0
  TotalPenaltiesServed : Int := 0
  DNFComment : String := ""
  DisqualificationReason : String := ""
  GeneratedEvents : List Event := []
  deriving DecidableEq

structure PenaltyData where
  TotalTime : Duration := 0
  TotalLaps : Int := 0
  AverageSpeed : ℚ := 0
  deriving DecidableEq

structure Config where
  Laps : Int := 0
  LapLen : Int := 0
  PenaltyLen : Int := 0
  FiringLines : Int := 0
  StartStr : String := ""
  StartDeltaStr : String := ""
  StartTime : Time := 0
  StartDelta : Duration := 0
  deriving DecidableEq

structure Simulation where
  Config : Config
  Competitors : Int → Option Competitor
  OutputLog : List String

def NewSimulation (config : Config) : Simulation :=
  { Config := config, Competitors := fun _ => none, OutputLog := [] }

def NewCompetitor (id : Int) : Competitor :=
  { ID := id, Status := .Registered, LapsData := [], CurrentLapNumber := 0 }

/-- GetOrCreateCompetitor of competitor.go: the record found or created, and
the map with the created record stored. -/
def GetOrCreateCompetitor (id : Int) (competitors : Int → Option Competitor) :
    Competitor × (Int → Option Competitor) :=
  match competitors id with
  | some c => (c, competitors)
  | none =>
    let c := NewCompetitor id
    (c, fun k => if k = id then some c else competitors k)

/-! ## The transition function

Each `case` of the `switch` in processEvent is a function of its own on the
record of the event's competitor; it returns the mutated record and the lines
appended to the log after the event's own line. -/

/-- Branch `case EventRegistered` of processEvent. -/
def caseRegistered (competitor : Competitor) : Competitor × List String :=
  ({ competitor with Status := .Registered }, [])

/-- Branch `case EventStartTimeSet` of processEvent. -/
def caseStartTimeSet (competitor : Competitor) (event : Event) : Competitor × List String :=
  ({ competitor with
    ScheduledStartTime := event.ScheduledStartTime, Status := .Scheduled }, [])

/-- Branch `case EventStarted` of processEvent. -/
def caseStarted (competitor : Competitor) (event : Event) : Competitor × List String :=
  if competitor.Status = .NotStarted ∨ competitor.Status = .Disqualified then
    (competitor, ["Warning: Competitor " ++ toString competitor.ID ++
      " received Start event but is already " ++ competitor.Status.toString ++ "."])
  else
    let competitor := { competitor with
      ActualStartTime := event.Timestamp
      Status := .Racing
      CurrentLapNumber := 1
      CurrentLapTempData := { competitor.CurrentLapTempData with
        LapStartTime := event.Timestamp } }
    if competitor.LapsData.length = 0 then
      let lapData : LapRecord :=
        { LapNumber := competitor.CurrentLapNumber, StartTime := event.Timestamp,
          ShootingData := [] }
      ({ competitor with LapsData := competitor.LapsData ++ [lapData] }, [])
    else
      (competitor, [])

/-- Branch `case EventOnFiringRange` of processEvent. -/
def caseOnFiringRange (competitor : Competitor) (event : Event) : Competitor × List String :=
  ({ competitor with
    Status := .OnRange
    CurrentLapTempData := { competitor.CurrentLapTempData with
      RangeEntryTime := event.Timestamp, ShotsInSession := 0, HitsInSession := 0 } }, [])

/-- Branch `case EventTargetHit` of processEvent. -/
def caseTargetHit (competitor : Competitor) : Competitor × List String :=
  let warning : List String :=
    if competitor.Status ≠ .OnRange then
      ["Warning: Competitor " ++ toString competitor.ID ++ " (" ++ competitor.Status.toString ++
        ") received TargetHit event but is not on firing range."]
    else []
  ({ competitor with
    CurrentLapTempData := { competitor.CurrentLapTempData with
      HitsInSession := competitor.CurrentLapTempData.HitsInSession + 1 }
    TotalHits := competitor.TotalHits + 1 }, warning)

/-- Branch `case EventLeftFiringRange` of processEvent. -/
def caseLeftFiringRange (competitor : Competitor) (event : Event) : Competitor × List String :=
  let warning : List String :=
    if competitor.Status ≠ .OnRange then
      ["Warning: Competitor " ++ toString competitor.ID ++ " (" ++ competitor.Status.toString ++
        ") received LeftFiringRange event but was not on firing range."]
    else []
  let shotsThisSession : Int := 5
  let penalties : Int := shotsThisSession - competitor.CurrentLapTempData.HitsInSession
  let competitor := { competitor with
    TotalShots := competitor.TotalShots + shotsThisSession
    CurrentLapTempData := { competitor.CurrentLapTempData with PenaltiesToServe := penalties } }
  let currentLapIdx : Int := competitor.CurrentLapNumber - 1
  let competitor :=
    if 0 ≤ currentLapIdx ∧ currentLapIdx < (competitor.LapsData.length : Int) then
      let sr : ShootingRecord :=
        { RangeID := event.FiringRange
          EntryTime := competitor.CurrentLapTempData.RangeEntryTime
          ExitTime := event.Timestamp
          Hits := competitor.CurrentLapTempData.HitsInSession
          Shots := shotsThisSession
          PenaltiesIncurred := penalties }
      { competitor with LapsData := (competitor.LapsData.modify
          (fun lap => { lap with ShootingData := lap.ShootingData ++ [sr] }) currentLapIdx.toNat) }
    else competitor
  ({ competitor with Status := .Racing }, warning)

/-- Branch `case EventEnteredPenaltyLaps` of processEvent. -/
def caseEnteredPenaltyLaps (competitor : Competitor) (event : Event) :
    Competitor × List String :=
  ({ competitor with
    Status := .InPenalty
    CurrentLapTempData := { competitor.CurrentLapTempData with
      PenaltyEntryTime := event.Timestamp } }, [])

/-- Branch `case EventLeftPenaltyLaps` of processEvent. -/
def caseLeftPenaltyLaps (competitor : Competitor) (event : Event) : Competitor × List String :=
  let competitor := { competitor with Status := .Racing }
  let lapIdx : Int := competitor.CurrentLapNumber - 1
  let competitor :=
    if 0 ≤ lapIdx ∧ lapIdx < (competitor.LapsData.length : Int) then
      { competitor with
        LapsData := (competitor.LapsData.modify
          (fun lap => { lap with
            PenaltyEntryTime := competitor.CurrentLapTempData.PenaltyEntryTime
            PenaltyExitTime := event.Timestamp
            PenaltiesServed := competitor.CurrentLapTempData.PenaltiesToServe }) lapIdx.toNat)
        TotalPenaltiesServed :=
          competitor.TotalPenaltiesServed + competitor.CurrentLapTempData.PenaltiesToServe }
    else competitor
  ({ competitor with
    CurrentLapTempData := { competitor.CurrentLapTempData with PenaltiesToServe := 0 } }, [])

/-- Branch `case EventEndedMainLap` of processEvent.  The result is `none`
when the unguarded index `LapsData[CurrentLapNumber-1]` of the last branch is
out of range. -/
def caseEndedMainLap (config : Config) (competitor : Competitor) (event : Event) :
    Option (Competitor × List String) :=
  let lapIdx : Int := competitor.CurrentLapNumber - 1
  let competitor :=
    if 0 ≤ lapIdx ∧ lapIdx < (competitor.LapsData.length : Int) then
      { competitor with LapsData := (competitor.LapsData.modify
          (fun lap => { lap with EndTime := event.Timestamp }) lapIdx.toNat) }
    else competitor
  if competitor.CurrentLapNumber = config.Laps then
    let finishEvent : Event :=
      { Timestamp := event.Timestamp, ID := EventFinished, CompetitorID := competitor.ID }
    some ({ competitor with
      Status := .Completed
      FinishTime := event.Timestamp
      GeneratedEvents := competitor.GeneratedEvents ++ [finishEvent] }, [eventLine finishEvent])
  else
    let competitor := { competitor with
      CurrentLapNumber := competitor.CurrentLapNumber + 1
      Status := .Racing
      CurrentLapTempData := { competitor.CurrentLapTempData with
        LapStartTime := event.Timestamp } }
    if (competitor.LapsData.length : Int) < competitor.CurrentLapNumber then
      let newLapData : LapRecord :=
        { LapNumber := competitor.CurrentLapNumber, StartTime := event.Timestamp,
          ShootingData := [] }
      some ({ competitor with LapsData := competitor.LapsData ++ [newLapData] }, [])
    else if 0 ≤ competitor.CurrentLapNumber - 1 ∧
        competitor.CurrentLapNumber - 1 < (competitor.LapsData.length : Int) then
      some ({ competitor with LapsData := (competitor.LapsData.modify
        (fun lap => { lap with StartTime := event.Timestamp })
        (competitor.CurrentLapNumber - 1).toNat) }, [])
    else
      none

/-- Branch `case EventCannotContinue` of processEvent. -/
def caseCannotContinue (competitor : Competitor) (event : Event) : Competitor × List String :=
  ({ competitor with Status := .NotFinished, DNFComment := event.Comment }, [])

/-- The `switch event.ID` of processEvent, applied to the record of the
event's competitor (whose LastEventTime is already set). -/
def applyEvent (config : Config) (competitor : Competitor) (event : Event) :
    Option (Competitor × List String) :=
  if event.ID = EventRegistered then some (caseRegistered competitor)
  else if event.ID = EventStartTimeSet then some (caseStartTimeSet competitor event)
  else if event.ID = EventOnStartLine then some (competitor, [])
  else if event.ID = EventStarted then some (caseStarted competitor event)
  else if event.ID = EventOnFiringRange then some (caseOnFiringRange competitor event)
  else if event.ID = EventTargetHit then some (caseTargetHit competitor)
  else if event.ID = EventLeftFiringRange then some (caseLeftFiringRange competitor event)
  else if event.ID = EventEnteredPenaltyLaps then some (caseEnteredPenaltyLaps competitor event)
  else if event.ID = EventLeftPenaltyLaps then some (caseLeftPenaltyLaps competitor event)
  else if event.ID = EventEndedMainLap then caseEndedMainLap config competitor event
  else if event.ID = EventCannotContinue then some (caseCannotContinue competitor event)
  else some (competitor, [])

/-- Method processEvent of simulation.go. -/
def processEvent (s : Simulation) (event : Event) : Option Simulation :=
  let outputLog := s.OutputLog ++ [eventLine event]
  let (competitor, competitors) := GetOrCreateCompetitor event.CompetitorID s.Competitors
  let competitor := { competitor with LastEventTime := event.Timestamp }
  match applyEvent s.Config competitor event with
  | none => none
  | some (competitor, extra) =>
    some { s with
      Competitors := fun k => if k = event.CompetitorID then some competitor else competitors k
      OutputLog := outputLog ++ extra }

/-- The `for` loop of Run: the events are processed one after the other. -/
def processEvents (s : Simulation) : List Event → Option Simulation
  | [] => some s
  | event :: rest =>
    match processEvent s event with
    | none => none
    | some s1 => processEvents s1 rest

/-- The comparison under which `sort.SliceStable` leaves two neighbours in
place: the second is not before the first. -/
def timeLE (a b : Event) : Prop := Time.Before b.Timestamp a.Timestamp = false

instance : DecidableRel timeLE := fun a b => by
  unfold timeLE; infer_instance

/-- The stable sort of Run, `sort.SliceStable` by `Timestamp.Before`. -/
def sortEvents (incomingEvents : List Event) : List Event :=
  List.insertionSort timeLE incomingEvents

/-- Body of the loop of checkForNotStarted on one record. -/
def checkNotStarted (c : Competitor) : Competitor :=
  if Time.IsZero c.ActualStartTime = true ∧ (c.Status = .Registered ∨ c.Status = .Scheduled) then
    { c with Status := .NotStarted }
  else c

def checkForNotStarted (s : Simulation) : Simulation :=
  { s with Competitors := fun k => (s.Competitors k).map checkNotStarted }

/-- Method Run of simulation.go. -/
def Run (s : Simulation) (incomingEvents : List Event) : Option Simulation :=
  (processEvents s (sortEvents incomingEvents)).map checkForNotStarted

/-- Body of the loop of CalculateResults on one lap. -/
def calculateLap (config : Config) (lap : LapRecord) : LapRecord :=
  if Time.IsZero lap.StartTime = false ∧ Time.IsZero lap.EndTime = false then
    let lap := { lap with LapDuration := Time.Sub lap.EndTime lap.StartTime }
    if lap.LapDuration > 0 then
      { lap with AverageSpeed :=
          float64Div (float64OfInt config.LapLen) (Duration.Seconds lap.LapDuration) }
    else lap
  else lap

/-- Method CalculateResults of competitor.go. -/
def CalculateResults (c : Competitor) (config : Config) : Competitor :=
  { c with LapsData := c.LapsData.map (calculateLap config) }

/-- Body of the loop of CalculatePenaltyStats: the running totals
(totalPenaltyDuration, totalPenaltyLapsRun) after one more lap.  The sum of
durations wraps around; the sum of the PenaltiesServed counters is bounded by
the square of the number of events and is left unbounded. -/
def penaltyStep (totals : Duration × Int) (lap : LapRecord) : Duration × Int :=
  if Time.IsZero lap.PenaltyEntryTime = false ∧ Time.IsZero lap.PenaltyExitTime = false then
    let duration := Time.Sub lap.PenaltyExitTime lap.PenaltyEntryTime
    (wrapInt64 (totals.1 + duration), totals.2 + lap.PenaltiesServed)
  else totals

/-- Method CalculatePenaltyStats of competitor.go. -/
def CalculatePenaltyStats (c : Competitor) (config : Config) : PenaltyData :=
  let totals := c.LapsData.foldl penaltyStep (0, 0)
  let totalPenaltyDuration := totals.1
  let totalPenaltyLapsRun := totals.2
  let avgSpeed : ℚ :=
    if totalPenaltyDuration > 0 ∧ totalPenaltyLapsRun > 0 ∧ config.PenaltyLen > 0 then
      float64Div (float64OfInt (wrapInt64 (totalPenaltyLapsRun * config.PenaltyLen)))
        (Duration.Seconds totalPenaltyDuration)
    else 0
  { TotalTime := totalPenaltyDuration, TotalLaps := totalPenaltyLapsRun,
    AverageSpeed := avgSpeed }

/-- Body of the loop of FinalizeResults on one record. -/
def finalizeCompetitor (config : Config) (competitor : Competitor) : Competitor :=
  let competitor := CalculateResults competitor config
  let competitor :=
    if Time.IsZero competitor.ScheduledStartTime = false ∧
        Time.IsZero competitor.ActualStartTime = true ∧
        competitor.Status ≠ .Disqualified ∧ competitor.Status ≠ .NotFinished then
      { competitor with Status := .NotStarted }
    else competitor
  if Time.IsZero competitor.ScheduledStartTime = true ∧
      Time.IsZero competitor.ActualStartTime = true ∧ competitor.Status = .Registered then
    { competitor with Status := .NotStarted }
  else competitor

/-- Method FinalizeResults of simulation.go. -/
def FinalizeResults (s : Simulation) : Simulation :=
  { s with Competitors := fun k => (s.Competitors k).map (finalizeCompetitor s.Config) }

/-- What `main` does with a configuration and the decoded events:
NewSimulation, Run, FinalizeResults. -/
def simulate (config : Config) (incomingEvents : List Event) : Option Simulation :=
  (Run (NewSimulation config) incomingEvents).map FinalizeResults

/-! ## Auxiliary definitions for the proofs -/

/-- Lap bookkeeping invariant of a competitor record: the current lap number
is not negative, there are at least that many lap records, and the records
are numbered 1, 2, 3, ... -/
def LapsInv (c : Competitor) : Prop :=
  0 ≤ c.CurrentLapNumber ∧ c.CurrentLapNumber ≤ (c.LapsData.length : Int) ∧
    ∀ (i : Nat) (lap : LapRecord), c.LapsData[i]? = some lap → lap.LapNumber = (i : Int) + 1

/-- The session record that `case EventLeftFiringRange` stores. -/
def sessionRecord (c : Competitor) (e : Event) : ShootingRecord :=
  { RangeID := e.FiringRange
    EntryTime := c.CurrentLapTempData.RangeEntryTime
    ExitTime := e.Timestamp
    Hits := c.CurrentLapTempData.HitsInSession
    Shots := 5
    PenaltiesIncurred := 5 - c.CurrentLapTempData.HitsInSession }

/-- The lap records after the first statement of `case EventEndedMainLap`. -/
def closeLap (c : Competitor) (e : Event) : List LapRecord :=
  if 0 ≤ c.CurrentLapNumber - 1 ∧ c.CurrentLapNumber - 1 < (c.LapsData.length : Int) then
    c.LapsData.modify (fun lap => { lap with EndTime := e.Timestamp })
      (c.CurrentLapNumber - 1).toNat
  else c.LapsData

/-- The record processEvent works on for competitor `id`: the stored one, or a
new one. -/
def currentRecord (s : Simulation) (id : Int) : Competitor :=
  (GetOrCreateCompetitor id s.Competitors).1

/-- One event applied to one record: LastEventTime is set, then the `switch`. -/
def stepCompetitor (config : Config) (c : Competitor) (e : Event) :
    Option (Competitor × List String) :=
  applyEvent config { c with LastEventTime := e.Timestamp } e

/-- The events of one competitor applied to its record, one after the other. -/
def replay (config : Config) (c : Competitor) : List Event → Option Competitor
  | [] => some c
  | e :: es =>
    match stepCompetitor config c e with
    | none => none
    | some r => replay config r.1 es

/-- The events addressed to competitor `id`, in the order in which Run
processes them. -/
def eventsOf (id : Int) (incomingEvents : List Event) : List Event :=
  (sortEvents incomingEvents).filter (fun e => e.CompetitorID = id)

/-- What Run followed by FinalizeResults leave of a record that the event loop
produced. -/
def finalRecord (config : Config) (c : Competitor) : Competitor :=
  finalizeCompetitor config (checkNotStarted c)

/-- Status that FinalizeResults leaves on a record. -/
def finalStatus (c : Competitor) : CompetitorStatus :=
  if Time.IsZero c.ScheduledStartTime = false ∧ Time.IsZero c.ActualStartTime = true ∧
      c.Status ≠ .Disqualified ∧ c.Status ≠ .NotFinished then .NotStarted
  else if Time.IsZero c.ScheduledStartTime = true ∧ Time.IsZero c.ActualStartTime = true ∧
      c.Status = .Registered then .NotStarted
  else c.Status

/-- Number of shooting-session records stored in a list of laps. -/
def sessions (laps : List LapRecord) : Int :=
  ((laps.map (fun l => l.ShootingData.length)).sum : Nat)

/-- Number of shooting-session records stored across all laps of a competitor. -/
def sessionCount (c : Competitor) : Int := sessions c.LapsData

/-- Invariant of the event loop: the lap bookkeeping invariant, and a status
that is neither NotStarted nor Disqualified (no event assigns those). -/
def LoopInv (c : Competitor) : Prop :=
  LapsInv c ∧ c.Status ≠ .NotStarted ∧ c.Status ≠ .Disqualified

/-- The shot total is five times the number of stored sessions. -/
def ShotsInv (c : Competitor) : Prop :=
  LoopInv c ∧ c.TotalShots = 5 * sessionCount c

/-- Start and end time of each lap record of a competitor. -/
def lapTimes (c : Competitor) : List (Time × Time) :=
  c.LapsData.map (fun l => (l.StartTime, l.EndTime))

instance : IsTotal Event timeLE :=
  ⟨fun a b => by
    unfold timeLE Time.Before
    simp only [decide_eq_false_iff_not, not_lt]
    exact le_total _ _⟩

instance : IsTrans Event timeLE :=
  ⟨fun a b c => by
    unfold timeLE Time.Before
    simp only [decide_eq_false_iff_not, not_lt]
    exact le_trans⟩

/-- Every stored session record has five shots and as many penalties as
misses. -/
def SessionsInv (c : Competitor) : Prop :=
  ∀ lap ∈ c.LapsData, ∀ sr ∈ lap.ShootingData,
    sr.Shots = 5 ∧ sr.PenaltiesIncurred = sr.Shots - sr.Hits

/-- The hit counter of the session in progress is never negative, and every
stored session record has a non-negative hit count and 5 - Hits penalties. -/
def HitsInv (c : Competitor) : Prop :=
  LapsInv c ∧ 0 ≤ c.CurrentLapTempData.HitsInSession ∧
    ∀ lap ∈ c.LapsData, ∀ sr ∈ lap.ShootingData,
      0 ≤ sr.Hits ∧ sr.PenaltiesIncurred = 5 - sr.Hits

/-- The lap records with a penalty-loop count other than zero have both
penalty-loop times set. -/
def PenaltyInv (c : Competitor) : Prop :=
  LapsInv c ∧ ∀ lap ∈ c.LapsData, lap.PenaltiesServed = 0 ∨
    (Time.IsZero lap.PenaltyEntryTime = false ∧ Time.IsZero lap.PenaltyExitTime = false)

/-- A log line is a warning line when its first character is the letter W, as
in the three warning templates of processEvent; the line of an event starts
with an opening bracket. -/
def isWarningLine (line : String) : Bool := decide (line.data.head? = some 'W')

/-- Number of Finished events generated for competitor `id`. -/
def generatedCount (s : Simulation) (id : Int) : Nat :=
  match s.Competitors id with
  | some c => c.GeneratedEvents.length
  | none => 0

/-- Total number of generated Finished events, over the competitors that the
events are addressed to. -/
def totalGenerated (s : Simulation) (incomingEvents : List Event) : Nat :=
  (((incomingEvents.map (fun e => e.CompetitorID)).dedup).map (generatedCount s)).sum

/-- An event of a kind for which the `switch` of processEvent changes nothing
on a record that is still as NewCompetitor built it. -/
def changesNoState (e : Event) : Prop :=
  e.ID ≠ EventStartTimeSet ∧ e.ID ≠ EventStarted ∧ e.ID ≠ EventOnFiringRange ∧
    e.ID ≠ EventTargetHit ∧ e.ID ≠ EventLeftFiringRange ∧ e.ID ≠ EventEnteredPenaltyLaps ∧
    e.ID ≠ EventLeftPenaltyLaps ∧ e.ID ≠ EventEndedMainLap ∧ e.ID ≠ EventCannotContinue

instance (e : Event) : Decidable (changesNoState e) := by
  unfold changesNoState; infer_instance

/-- The thirteen event kinds of event.go. -/
def recognisedKinds : List EventID :=
  [EventRegistered, EventStartTimeSet, EventOnStartLine, EventStarted, EventOnFiringRange,
   EventTargetHit, EventLeftFiringRange, EventEnteredPenaltyLaps, EventLeftPenaltyLaps,
   EventEndedMainLap, EventCannotContinue, EventDisqualified, EventFinished]

/-- A text is a decimal integer of value `v`: one or more decimal digits,
possibly after one sign. -/
def decimalInteger (cs : List Char) (v : Int) : Prop :=
  ∃ digits : List Char, digits ≠ [] ∧ (∀ ch ∈ digits, ch.isDigit = true) ∧
    ((cs = digits ∧ v = (digitsValue digits : Int)) ∨
      (cs = '+' :: digits ∧ v = (digitsValue digits : Int)) ∨
      (cs = '-' :: digits ∧ v = -(digitsValue digits : Int)))

/-- A value in the range of a 64-bit signed integer. -/
def inInt64 (v : Int) : Prop := -(2 ^ 63) ≤ v ∧ v ≤ 2 ^ 63 - 1

/-- A text is a duration text with fields h, m and sec: three decimal integers
separated by colons, the third followed by nothing or by a point and a suffix
without colon. -/
def durationText (cs : List Char) (h m sec : Int) : Prop :=
  ∃ a b c rest : List Char, cs = a ++ ':' :: (b ++ ':' :: (c ++ rest)) ∧
    decimalInteger a h ∧ decimalInteger b m ∧ decimalInteger c sec ∧
    (rest = [] ∨ rest.head? = some '.') ∧ ':' ∉ rest

/-! ## Lemmas on the transition function -/

/-- Case analysis on the kind of the event, as the `switch` of processEvent does it. -/
theorem applyEvent_cases {motive : Option (Competitor × List String) → Prop}
    (config : Config) (c : Competitor) (e : Event)
    (hreg : e.ID = EventRegistered → motive (some (caseRegistered c)))
    (hset : e.ID = EventStartTimeSet → motive (some (caseStartTimeSet c e)))
    (hstart : e.ID = EventStarted → motive (some (caseStarted c e)))
    (hrange : e.ID = EventOnFiringRange → motive (some (caseOnFiringRange c e)))
    (hhit : e.ID = EventTargetHit → motive (some (caseTargetHit c)))
    (hleft : e.ID = EventLeftFiringRange → motive (some (caseLeftFiringRange c e)))
    (hpen : e.ID = EventEnteredPenaltyLaps → motive (some (caseEnteredPenaltyLaps c e)))
    (hpenl : e.ID = EventLeftPenaltyLaps → motive (some (caseLeftPenaltyLaps c e)))
    (hlap : e.ID = EventEndedMainLap → motive (caseEndedMainLap config c e))
    (hdnf : e.ID = EventCannotContinue → motive (some (caseCannotContinue c e)))
    (hskip : e.ID ≠ EventRegistered → e.ID ≠ EventStartTimeSet → e.ID ≠ EventStarted →
      e.ID ≠ EventOnFiringRange → e.ID ≠ EventTargetHit → e.ID ≠ EventLeftFiringRange →
      e.ID ≠ EventEnteredPenaltyLaps → e.ID ≠ EventLeftPenaltyLaps → e.ID ≠ EventEndedMainLap →
      e.ID ≠ EventCannotContinue → motive (some (c, []))) :
    motive (applyEvent config c e) := by
  unfold applyEvent
  by_cases h1 : e.ID = EventRegistered
  · rw [if_pos h1]; exact hreg h1
  rw [if_neg h1]
  by_cases h2 : e.ID = EventStartTimeSet
  · rw [if_pos h2]; exact hset h2
  rw [if_neg h2]
  by_cases h4 : e.ID = EventStarted
  · have h3 : e.ID ≠ EventOnStartLine := by rw [h4]; decide
    rw [if_neg h3, if_pos h4]; exact hstart h4
  by_cases h5 : e.ID = EventOnFiringRange
  · have h3 : e.ID ≠ EventOnStartLine := by rw [h5]; decide
    rw [if_neg h3, if_neg h4, if_pos h5]; exact hrange h5
  by_cases h6 : e.ID = EventTargetHit
  · have h3 : e.ID ≠ EventOnStartLine := by rw [h6]; decide
    rw [if_neg h3, if_neg h4, if_neg h5, if_pos h6]; exact hhit h6
  by_cases h7 : e.ID = EventLeftFiringRange
  · have h3 : e.ID ≠ EventOnStartLine := by rw [h7]; decide
    rw [if_neg h3, if_neg h4, if_neg h5, if_neg h6, if_pos h7]; exact hleft h7
  by_cases h8 : e.ID = EventEnteredPenaltyLaps
  · have h3 : e.ID ≠ EventOnStartLine := by rw [h8]; decide
    rw [if_neg h3, if_neg h4, if_neg h5, if_neg h6, if_neg h7, if_pos h8]; exact hpen h8
  by_cases h9 : e.ID = EventLeftPenaltyLaps
  · have h3 : e.ID ≠ EventOnStartLine := by rw [h9]; decide
    rw [if_neg h3, if_neg h4, if_neg h5, if_neg h6, if_neg h7, if_neg h8, if_pos h9]
    exact hpenl h9
  by_cases h10 : e.ID = EventEndedMainLap
  · have h3 : e.ID ≠ EventOnStartLine := by rw [h10]; decide
    rw [if_neg h3, if_neg h4, if_neg h5, if_neg h6, if_neg h7, if_neg h8, if_neg h9, if_pos h10]
    exact hlap h10
  by_cases h11 : e.ID = EventCannotContinue
  · have h3 : e.ID ≠ EventOnStartLine := by rw [h11]; decide
    rw [if_neg h3, if_neg h4, if_neg h5, if_neg h6, if_neg h7, if_neg h8, if_neg h9, if_neg h10,
      if_pos h11]
    exact hdnf h11
  have hs := hskip h1 h2 h4 h5 h6 h7 h8 h9 h10 h11
  by_cases h3 : e.ID = EventOnStartLine
  · rw [if_pos h3]; exact hs
  · rw [if_neg h3, if_neg h4, if_neg h5, if_neg h6, if_neg h7, if_neg h8, if_neg h9, if_neg h10,
      if_neg h11]
    exact hs

theorem lapNumber_modify (f : LapRecord → LapRecord) (hf : ∀ l, (f l).LapNumber = l.LapNumber)
    (laps : List LapRecord) (n : Nat)
    (h : ∀ (i : Nat) (lap : LapRecord), laps[i]? = some lap → lap.LapNumber = (i : Int) + 1) :
    ∀ (i : Nat) (lap : LapRecord), (laps.modify f n)[i]? = some lap →
      lap.LapNumber = (i : Int) + 1 := by
  intro i lap hl
  rw [List.getElem?_modify] at hl
  cases hi : laps[i]? with
  | none => simp [hi] at hl
  | some l0 =>
    rw [hi] at hl
    simp only [Option.map_eq_map, Option.map_some', Option.some.injEq] at hl
    subst hl
    split_ifs
    · rw [hf]; exact h i l0 hi
    · exact h i l0 hi

theorem lapNumber_append (laps : List LapRecord) (l : LapRecord)
    (hl : l.LapNumber = (laps.length : Int) + 1)
    (h : ∀ (i : Nat) (lap : LapRecord), laps[i]? = some lap → lap.LapNumber = (i : Int) + 1) :
    ∀ (i : Nat) (lap : LapRecord), (laps ++ [l])[i]? = some lap →
      lap.LapNumber = (i : Int) + 1 := by
  intro i lap hi
  rcases Nat.lt_trichotomy i laps.length with hlt | heq | hgt
  · rw [List.getElem?_append_left hlt] at hi; exact h i lap hi
  · subst heq
    simp at hi
    subst hi; exact hl
  · rw [List.getElem?_append_right (by omega)] at hi
    have : i - laps.length ≠ 0 := by omega
    obtain ⟨m, hm⟩ := Nat.exists_eq_succ_of_ne_zero this
    simp [hm] at hi

/-! ### The cases in flat form -/

theorem caseStarted_fst (c : Competitor) (e : Event) :
    (caseStarted c e).1 =
      if c.Status = .NotStarted ∨ c.Status = .Disqualified then c
      else { c with
        ActualStartTime := e.Timestamp
        Status := .Racing
        CurrentLapNumber := 1
        CurrentLapTempData := { c.CurrentLapTempData with LapStartTime := e.Timestamp }
        LapsData :=
          if c.LapsData.length = 0 then
            c.LapsData ++ [{ LapNumber := 1, StartTime := e.Timestamp, ShootingData := [] }]
          else c.LapsData } := by
  unfold caseStarted
  dsimp only
  split_ifs <;> rfl

theorem caseLeftFiringRange_fst (c : Competitor) (e : Event) :
    (caseLeftFiringRange c e).1 =
      { c with
        TotalShots := c.TotalShots + 5
        CurrentLapTempData := { c.CurrentLapTempData with
          PenaltiesToServe := 5 - c.CurrentLapTempData.HitsInSession }
        Status := .Racing
        LapsData :=
          if 0 ≤ c.CurrentLapNumber - 1 ∧ c.CurrentLapNumber - 1 < (c.LapsData.length : Int) then
            c.LapsData.modify
              (fun lap => { lap with ShootingData := lap.ShootingData ++ [sessionRecord c e] })
              (c.CurrentLapNumber - 1).toNat
          else c.LapsData } := by
  unfold caseLeftFiringRange sessionRecord
  dsimp only
  split_ifs <;> rfl

theorem caseLeftPenaltyLaps_fst (c : Competitor) (e : Event) :
    (caseLeftPenaltyLaps c e).1 =
      { c with
        Status := .Racing
        CurrentLapTempData := { c.CurrentLapTempData with PenaltiesToServe := 0 }
        TotalPenaltiesServed :=
          if 0 ≤ c.CurrentLapNumber - 1 ∧ c.CurrentLapNumber - 1 < (c.LapsData.length : Int) then
            c.TotalPenaltiesServed + c.CurrentLapTempData.PenaltiesToServe
          else c.TotalPenaltiesServed
        LapsData :=
          if 0 ≤ c.CurrentLapNumber - 1 ∧ c.CurrentLapNumber - 1 < (c.LapsData.length : Int) then
            c.LapsData.modify
              (fun lap => { lap with
                PenaltyEntryTime := c.CurrentLapTempData.PenaltyEntryTime
                PenaltyExitTime := e.Timestamp
                PenaltiesServed := c.CurrentLapTempData.PenaltiesToServe })
              (c.CurrentLapNumber - 1).toNat
          else c.LapsData } := by
  unfold caseLeftPenaltyLaps
  dsimp only
  split_ifs <;> rfl

theorem length_closeLap (c : Competitor) (e : Event) :
    (closeLap c e).length = c.LapsData.length := by
  unfold closeLap; split_ifs <;> simp

theorem caseEndedMainLap_last (config : Config) (c : Competitor) (e : Event)
    (h : c.CurrentLapNumber = config.Laps) :
    caseEndedMainLap config c e =
      some ({ c with
        LapsData := closeLap c e
        Status := .Completed
        FinishTime := e.Timestamp
        GeneratedEvents := c.GeneratedEvents ++
          [{ Timestamp := e.Timestamp, ID := EventFinished, CompetitorID := c.ID }] },
        [eventLine { Timestamp := e.Timestamp, ID := EventFinished, CompetitorID := c.ID }]) := by
  unfold caseEndedMainLap closeLap
  dsimp only
  split_ifs <;> rfl

theorem caseEndedMainLap_next (config : Config) (c : Competitor) (e : Event)
    (h : c.CurrentLapNumber ≠ config.Laps) (h0 : 0 ≤ c.CurrentLapNumber)
    (h1 : c.CurrentLapNumber ≤ (c.LapsData.length : Int)) :
    caseEndedMainLap config c e =
      some ({ c with
        CurrentLapNumber := c.CurrentLapNumber + 1
        Status := .Racing
        CurrentLapTempData := { c.CurrentLapTempData with LapStartTime := e.Timestamp }
        LapsData :=
          if (c.LapsData.length : Int) < c.CurrentLapNumber + 1 then
            closeLap c e ++ [{ LapNumber := c.CurrentLapNumber + 1, StartTime := e.Timestamp }]
          else
            (closeLap c e).modify (fun lap => { lap with StartTime := e.Timestamp })
              (c.CurrentLapNumber + 1 - 1).toNat }, []) := by
  unfold caseEndedMainLap closeLap
  dsimp only
  split_ifs <;> first | rfl | (exfalso; simp only [List.length_modify] at *; omega)

theorem lapNumber_closeLap (c : Competitor) (e : Event)
    (h : ∀ (i : Nat) (lap : LapRecord), c.LapsData[i]? = some lap → lap.LapNumber = (i : Int) + 1) :
    ∀ (i : Nat) (lap : LapRecord), (closeLap c e)[i]? = some lap →
      lap.LapNumber = (i : Int) + 1 := by
  unfold closeLap
  split_ifs
  · exact lapNumber_modify _ (by intro l; rfl) _ _ h
  · exact h

theorem caseStarted_lapsInv (c : Competitor) (e : Event) (h : LapsInv c) :
    LapsInv (caseStarted c e).1 := by
  obtain ⟨h0, h1, h2⟩ := h
  rw [caseStarted_fst]
  by_cases hs : c.Status = .NotStarted ∨ c.Status = .Disqualified
  · rw [if_pos hs]; exact ⟨h0, h1, h2⟩
  · rw [if_neg hs]
    by_cases hl : c.LapsData.length = 0
    · refine ⟨by simp, by simp [hl], ?_⟩
      simp only [hl, if_true]
      exact lapNumber_append _ _ (by simp [hl]) h2
    · refine ⟨by simp, ?_, ?_⟩
      · simp only [hl, if_false]; omega
      · simp only [hl, if_false]; exact h2

theorem caseLeftFiringRange_lapsInv (c : Competitor) (e : Event) (h : LapsInv c) :
    LapsInv (caseLeftFiringRange c e).1 := by
  obtain ⟨h0, h1, h2⟩ := h
  rw [caseLeftFiringRange_fst]
  refine ⟨h0, ?_, ?_⟩
  · dsimp only; split_ifs
    · simpa using h1
    · exact h1
  · dsimp only; split_ifs
    · exact lapNumber_modify _ (by intro l; rfl) _ _ h2
    · exact h2

theorem caseLeftPenaltyLaps_lapsInv (c : Competitor) (e : Event) (h : LapsInv c) :
    LapsInv (caseLeftPenaltyLaps c e).1 := by
  obtain ⟨h0, h1, h2⟩ := h
  rw [caseLeftPenaltyLaps_fst]
  refine ⟨h0, ?_, ?_⟩
  · dsimp only; split_ifs
    · simpa using h1
    · exact h1
  · dsimp only; split_ifs
    · exact lapNumber_modify _ (by intro l; rfl) _ _ h2
    · exact h2

theorem caseEndedMainLap_lapsInv (config : Config) (c : Competitor) (e : Event)
    (h : LapsInv c) : ∃ r, caseEndedMainLap config c e = some r ∧ LapsInv r.1 := by
  obtain ⟨h0, h1, h2⟩ := h
  have hlen := length_closeLap c e
  have hnum := lapNumber_closeLap c e h2
  by_cases hc : c.CurrentLapNumber = config.Laps
  · rw [caseEndedMainLap_last config c e hc]
    exact ⟨_, rfl, h0, by dsimp only; rw [hlen]; exact h1, hnum⟩
  · rw [caseEndedMainLap_next config c e hc h0 h1]
    refine ⟨_, rfl, by dsimp only; omega, ?_, ?_⟩
    · dsimp only; split_ifs
      · simp [hlen]; omega
      · simp [hlen]; omega
    · dsimp only; split_ifs
      · refine lapNumber_append _ _ ?_ hnum
        dsimp only; rw [hlen]; omega
      · exact lapNumber_modify _ (by intro l; rfl) _ _ hnum

/-- The lap bookkeeping invariant is kept by every event, and no event aborts
on a record that satisfies it. -/
theorem applyEvent_lapsInv (config : Config) (c : Competitor) (e : Event) (h : LapsInv c) :
    ∃ r, applyEvent config c e = some r ∧ LapsInv r.1 := by
  refine applyEvent_cases (motive := fun o => ∃ r, o = some r ∧ LapsInv r.1)
    config c e ?_ ?_ ?_ ?_ ?_ ?_ ?_ ?_ ?_ ?_ ?_
  · intro _; exact ⟨_, rfl, h⟩
  · intro _; exact ⟨_, rfl, h⟩
  · intro _; exact ⟨_, rfl, caseStarted_lapsInv c e h⟩
  · intro _; exact ⟨_, rfl, h⟩
  · intro _; exact ⟨_, rfl, h⟩
  · intro _; exact ⟨_, rfl, caseLeftFiringRange_lapsInv c e h⟩
  · intro _; exact ⟨_, rfl, h⟩
  · intro _; exact ⟨_, rfl, caseLeftPenaltyLaps_lapsInv c e h⟩
  · intro _; exact caseEndedMainLap_lapsInv config c e h
  · intro _; exact ⟨_, rfl, h⟩
  · intros; exact ⟨_, rfl, h⟩

/-! ### From one record to the whole simulation -/

theorem currentRecord_of_some {s : Simulation} {id : Int} {c : Competitor}
    (h : s.Competitors id = some c) : currentRecord s id = c := by
  simp [currentRecord, GetOrCreateCompetitor, h]

theorem currentRecord_of_none {s : Simulation} {id : Int}
    (h : s.Competitors id = none) : currentRecord s id = NewCompetitor id := by
  simp [currentRecord, GetOrCreateCompetitor, h]

theorem processEvent_eq (s : Simulation) (e : Event) :
    processEvent s e =
      (stepCompetitor s.Config (currentRecord s e.CompetitorID) e).map (fun r =>
        { s with
          Competitors := fun k => if k = e.CompetitorID then some r.1 else s.Competitors k
          OutputLog := s.OutputLog ++ [eventLine e] ++ r.2 }) := by
  unfold processEvent stepCompetitor currentRecord GetOrCreateCompetitor
  cases hc : s.Competitors e.CompetitorID with
  | none =>
    dsimp only
    cases applyEvent s.Config _ e with
    | none => rfl
    | some r =>
      simp only [Option.map_some', Option.some.injEq]
      congr 1
      funext k
      by_cases hk : k = e.CompetitorID <;> simp [hk]
  | some c =>
    dsimp only
    cases applyEvent s.Config _ e with
    | none => rfl
    | some r => rfl

theorem processEvent_some {s s1 : Simulation} {e : Event} (h : processEvent s e = some s1) :
    ∃ r, stepCompetitor s.Config (currentRecord s e.CompetitorID) e = some r ∧
      s1.Config = s.Config ∧ s1.Competitors e.CompetitorID = some r.1 ∧
      (∀ k, k ≠ e.CompetitorID → s1.Competitors k = s.Competitors k) ∧
      s1.OutputLog = s.OutputLog ++ [eventLine e] ++ r.2 := by
  rw [processEvent_eq] at h
  cases hr : stepCompetitor s.Config (currentRecord s e.CompetitorID) e with
  | none => rw [hr] at h; simp at h
  | some r =>
    rw [hr] at h
    simp only [Option.map_some', Option.some.injEq] at h
    subst h
    refine ⟨r, rfl, rfl, by simp, ?_, rfl⟩
    intro k hk; simp [hk]

/-- A property of records that holds of a new record and that every event
keeps, without aborting, holds of every record after any sequence of events. -/
theorem processEvents_invariant (config : Config) (P : Competitor → Prop)
    (hnew : ∀ id, P (NewCompetitor id))
    (hstep : ∀ c e, P c → ∃ r, stepCompetitor config c e = some r ∧ P r.1) :
    ∀ (es : List Event) (s : Simulation), s.Config = config →
      (∀ k c, s.Competitors k = some c → P c) →
      ∃ s1, processEvents s es = some s1 ∧ s1.Config = config ∧
        ∀ k c, s1.Competitors k = some c → P c := by
  intro es
  induction es with
  | nil => intro s hc hs; exact ⟨s, rfl, hc, hs⟩
  | cons e es ih =>
    intro s hc hs
    have hcur : P (currentRecord s e.CompetitorID) := by
      cases hk : s.Competitors e.CompetitorID with
      | none => rw [currentRecord_of_none hk]; exact hnew _
      | some c => rw [currentRecord_of_some hk]; exact hs _ _ hk
    obtain ⟨r, hr, hP⟩ := hstep _ e hcur
    have hpe := processEvent_eq s e
    rw [hc, hr] at hpe
    simp only [Option.map_some'] at hpe
    simp only [processEvents, hpe]
    apply ih
    · rfl
    · intro k c hk
      by_cases hke : k = e.CompetitorID
      · simp only [hke, if_true, Option.some.injEq] at hk
        rw [← hk]; exact hP
      · simp only [hke, if_false] at hk
        exact hs k c hk

theorem lapsInv_new (id : Int) : LapsInv (NewCompetitor id) := by
  refine ⟨by simp [NewCompetitor], by simp [NewCompetitor], ?_⟩
  intro i lap h
  simp [NewCompetitor] at h

theorem stepCompetitor_lapsInv (config : Config) (c : Competitor) (e : Event) (h : LapsInv c) :
    ∃ r, stepCompetitor config c e = some r ∧ LapsInv r.1 :=
  applyEvent_lapsInv config _ e h

/-- What a sequence of events does to the record of one competitor is the
replay of the events addressed to it; the other events do not touch it. -/
theorem processEvents_competitor (id : Int) :
    ∀ (es : List Event) (s s1 : Simulation), processEvents s es = some s1 →
      (es.filter (fun e => e.CompetitorID = id) = [] → s1.Competitors id = s.Competitors id) ∧
      (es.filter (fun e => e.CompetitorID = id) ≠ [] →
        s1.Competitors id =
          replay s.Config (currentRecord s id) (es.filter (fun e => e.CompetitorID = id))) := by
  intro es
  induction es with
  | nil =>
    intro s s1 h
    simp only [processEvents, Option.some.injEq] at h
    subst h
    exact ⟨fun _ => rfl, fun h => absurd rfl h⟩
  | cons e es ih =>
    intro s s1 h
    simp only [processEvents] at h
    cases hpe : processEvent s e with
    | none => rw [hpe] at h; simp at h
    | some s2 =>
      rw [hpe] at h
      dsimp only at h
      obtain ⟨r, hr, hcfg, hid, hother, _⟩ := processEvent_some hpe
      obtain ⟨ih1, ih2⟩ := ih s2 s1 h
      by_cases hke : e.CompetitorID = id
      · have hf : (e :: es).filter (fun e => e.CompetitorID = id) =
            e :: es.filter (fun e => e.CompetitorID = id) := by simp [hke]
        rw [hf]
        refine ⟨fun hh => by simp at hh, fun _ => ?_⟩
        rw [hke] at hr hid
        simp only [replay, hr]
        by_cases hnil : es.filter (fun e => e.CompetitorID = id) = []
        · rw [hnil, ih1 hnil, hid]; rfl
        · rw [ih2 hnil, hcfg, currentRecord_of_some hid]
      · have hf : (e :: es).filter (fun e => e.CompetitorID = id) =
            es.filter (fun e => e.CompetitorID = id) := by simp [hke]
        rw [hf]
        have hsame : s2.Competitors id = s.Competitors id := hother id (fun hh => hke hh.symm)
        have hcur : currentRecord s2 id = currentRecord s id := by
          cases hk : s.Competitors id with
          | none => rw [currentRecord_of_none hk, currentRecord_of_none (hsame.trans hk)]
          | some c => rw [currentRecord_of_some hk, currentRecord_of_some (hsame.trans hk)]
        refine ⟨fun hh => by rw [ih1 hh, hsame], fun hh => ?_⟩
        rw [ih2 hh, hcfg, hcur]

/-- From a fresh simulation every sequence of events is processed to the end,
and the record of each competitor is the replay of its own events on a new
record. -/
theorem processEvents_fresh (config : Config) (es : List Event) :
    ∃ s, processEvents (NewSimulation config) es = some s ∧ s.Config = config ∧
      (∀ k c, s.Competitors k = some c → LapsInv c) ∧
      ∀ id, (es.filter (fun e => e.CompetitorID = id) = [] → s.Competitors id = none) ∧
        (es.filter (fun e => e.CompetitorID = id) ≠ [] →
          s.Competitors id =
            replay config (NewCompetitor id) (es.filter (fun e => e.CompetitorID = id))) := by
  obtain ⟨s, hs, hcfg, hinv⟩ := processEvents_invariant config LapsInv lapsInv_new
    (stepCompetitor_lapsInv config) es (NewSimulation config) rfl
    (by intro k c h; simp [NewSimulation] at h)
  refine ⟨s, hs, hcfg, hinv, fun id => ?_⟩
  obtain ⟨h1, h2⟩ := processEvents_competitor id es _ _ hs
  exact ⟨fun h => by rw [h1 h]; rfl, fun h => by rw [h2 h]; rfl⟩

/-! ### Replay of one competitor's events -/

theorem replay_append (config : Config) :
    ∀ (xs ys : List Event) (c : Competitor),
      replay config c (xs ++ ys) = (replay config c xs).bind (fun c1 => replay config c1 ys) := by
  intro xs
  induction xs with
  | nil => intro ys c; rfl
  | cons e es ih =>
    intro ys c
    simp only [List.cons_append, replay]
    cases stepCompetitor config c e with
    | none => rfl
    | some r => exact ih ys r.1

/-- A property of a record that each event of the list keeps, without
aborting, holds after the replay of the list. -/
theorem replay_invariant (config : Config) (P : Competitor → Prop) :
    ∀ (xs : List Event),
      (∀ c e, e ∈ xs → P c → ∃ r, stepCompetitor config c e = some r ∧ P r.1) →
      ∀ c, P c → ∃ c1, replay config c xs = some c1 ∧ P c1 := by
  intro xs
  induction xs with
  | nil => intro _ c hc; exact ⟨c, rfl, hc⟩
  | cons e es ih =>
    intro hstep c hc
    obtain ⟨r, hr, hP⟩ := hstep c e (List.mem_cons_self _ _) hc
    simp only [replay, hr]
    exact ih (fun c1 e1 he1 => hstep c1 e1 (List.mem_cons_of_mem _ he1)) r.1 hP

theorem replay_lapsInv (config : Config) (xs : List Event) (c : Competitor) (h : LapsInv c) :
    ∃ c1, replay config c xs = some c1 ∧ LapsInv c1 :=
  replay_invariant config LapsInv xs (fun c e _ hc => stepCompetitor_lapsInv config c e hc) c h

theorem mem_eventsOf {id : Int} {evs : List Event} {e : Event} :
    e ∈ eventsOf id evs ↔ e ∈ evs ∧ e.CompetitorID = id := by
  unfold eventsOf sortEvents
  rw [List.mem_filter, (List.perm_insertionSort timeLE evs).mem_iff]
  simp

/-! ### Run and FinalizeResults on one record -/

/-- Run never aborts on a fresh simulation.  It yields the event loop's state
with checkForNotStarted applied; each record of the loop's state satisfies the
lap bookkeeping invariant and is the replay of the competitor's own events. -/
theorem run_fresh (config : Config) (evs : List Event) :
    ∃ s0, processEvents (NewSimulation config) (sortEvents evs) = some s0 ∧
      s0.Config = config ∧
      Run (NewSimulation config) evs = some (checkForNotStarted s0) ∧
      simulate config evs = some (FinalizeResults (checkForNotStarted s0)) ∧
      (∀ k c, s0.Competitors k = some c → LapsInv c) ∧
      ∀ id, (eventsOf id evs = [] → s0.Competitors id = none) ∧
        (eventsOf id evs ≠ [] →
          s0.Competitors id = replay config (NewCompetitor id) (eventsOf id evs)) := by
  obtain ⟨s0, h0, hcfg, hinv, hrep⟩ := processEvents_fresh config (sortEvents evs)
  refine ⟨s0, h0, hcfg, ?_, ?_, hinv, hrep⟩
  · simp [Run, h0]
  · simp [simulate, Run, h0]

theorem finalize_check_competitors (s0 : Simulation) (id : Int) :
    (FinalizeResults (checkForNotStarted s0)).Competitors id =
      (s0.Competitors id).map (finalRecord s0.Config) := by
  simp only [FinalizeResults, checkForNotStarted, finalRecord]
  cases s0.Competitors id <;> rfl

/-- The competitor's record after Run and FinalizeResults, for a competitor
that has events: the replay of its events, then the two finishing passes. -/
theorem simulate_competitor (config : Config) (evs : List Event) (id : Int)
    (h : eventsOf id evs ≠ []) :
    ∃ s c0, simulate config evs = some s ∧
      replay config (NewCompetitor id) (eventsOf id evs) = some c0 ∧ LapsInv c0 ∧
      s.Competitors id = some (finalRecord config c0) := by
  obtain ⟨s0, _, hcfg, _, hsim, hinv, hrep⟩ := run_fresh config evs
  obtain ⟨c0, hc0, hl⟩ := replay_lapsInv config (eventsOf id evs) (NewCompetitor id)
    (lapsInv_new id)
  refine ⟨_, c0, hsim, hc0, hl, ?_⟩
  rw [finalize_check_competitors, (hrep id).2 h, hc0, hcfg]
  rfl

/-! ### The two finishing passes in flat form -/

theorem finalizeCompetitor_eq (config : Config) (c : Competitor) :
    finalizeCompetitor config c =
      { c with LapsData := c.LapsData.map (calculateLap config), Status := finalStatus c } := by
  unfold finalizeCompetitor finalStatus CalculateResults
  dsimp only
  split_ifs <;> rfl

theorem checkNotStarted_eq (c : Competitor) :
    checkNotStarted c =
      { c with Status :=
          if Time.IsZero c.ActualStartTime = true ∧
            (c.Status = .Registered ∨ c.Status = .Scheduled) then .NotStarted else c.Status } := by
  unfold checkNotStarted
  split_ifs <;> rfl

/-- Events of the three pre-start kinds keep a record unstarted. -/
theorem stepCompetitor_prestart (config : Config) (c : Competitor) (e : Event)
    (he : e.ID = EventRegistered ∨ e.ID = EventStartTimeSet ∨ e.ID = EventOnStartLine)
    (hc : (c.Status = .Registered ∨ c.Status = .Scheduled) ∧ c.ActualStartTime = 0) :
    ∃ r, stepCompetitor config c e = some r ∧
      ((r.1.Status = .Registered ∨ r.1.Status = .Scheduled) ∧ r.1.ActualStartTime = 0) := by
  unfold stepCompetitor applyEvent
  rcases he with he | he | he
  · rw [if_pos he]; exact ⟨_, rfl, Or.inl rfl, hc.2⟩
  · rw [if_neg (by rw [he]; decide), if_pos he]; exact ⟨_, rfl, Or.inr rfl, hc.2⟩
  · rw [if_neg (by rw [he]; decide), if_neg (by rw [he]; decide), if_pos he]
    exact ⟨_, rfl, hc.1, hc.2⟩

theorem finalRecord_eq (config : Config) (c : Competitor) :
    finalRecord config c =
      { c with
        LapsData := c.LapsData.map (calculateLap config)
        Status := finalStatus (checkNotStarted c) } := by
  rw [finalRecord, finalizeCompetitor_eq, checkNotStarted_eq]

/-- Replay of a list that ends with `last`: the replay of the events before
it, then one step. -/
theorem replay_concat (config : Config) (xs : List Event) (last : Event) (c c1 : Competitor)
    (h : replay config c xs = some c1) :
    replay config c (xs ++ [last]) = (stepCompetitor config c1 last).map (fun r => r.1) := by
  rw [replay_append, h]
  simp only [Option.some_bind, replay]
  cases stepCompetitor config c1 last <;> rfl

theorem stepCompetitor_cannotContinue (config : Config) (c : Competitor) (e : Event)
    (he : e.ID = EventCannotContinue) :
    stepCompetitor config c e =
      some (caseCannotContinue { c with LastEventTime := e.Timestamp } e) := by
  unfold stepCompetitor applyEvent
  simp only [he]
  rfl

/-! ### Effect of single events on a record -/

/-- Events of a kind that the `switch` of processEvent has no `case` for leave
the record as it is, apart from LastEventTime. -/
theorem stepCompetitor_no_case (config : Config) (c : Competitor) (e : Event)
    (h1 : e.ID ≠ EventRegistered) (h2 : e.ID ≠ EventStartTimeSet) (h4 : e.ID ≠ EventStarted)
    (h5 : e.ID ≠ EventOnFiringRange) (h6 : e.ID ≠ EventTargetHit)
    (h7 : e.ID ≠ EventLeftFiringRange) (h8 : e.ID ≠ EventEnteredPenaltyLaps)
    (h9 : e.ID ≠ EventLeftPenaltyLaps) (h10 : e.ID ≠ EventEndedMainLap)
    (h11 : e.ID ≠ EventCannotContinue) :
    stepCompetitor config c e = some ({ c with LastEventTime := e.Timestamp }, []) := by
  unfold stepCompetitor applyEvent
  simp only [h1, h2, h4, h5, h6, h7, h8, h9, h10, h11, if_false, ite_self]

theorem caseStarted_ignored (c : Competitor) (e : Event)
    (hs : c.Status = .NotStarted ∨ c.Status = .Disqualified) : (caseStarted c e).1 = c := by
  rw [caseStarted_fst, if_pos hs]

theorem caseStarted_applied (c : Competitor) (e : Event)
    (hs : ¬ (c.Status = .NotStarted ∨ c.Status = .Disqualified)) :
    (caseStarted c e).1 =
      { c with
        ActualStartTime := e.Timestamp
        Status := .Racing
        CurrentLapNumber := 1
        CurrentLapTempData := { c.CurrentLapTempData with LapStartTime := e.Timestamp }
        LapsData :=
          if c.LapsData.length = 0 then
            c.LapsData ++ [{ LapNumber := 1, StartTime := e.Timestamp, ShootingData := [] }]
          else c.LapsData } := by
  rw [caseStarted_fst, if_neg hs]

theorem caseStarted_lapNumber_le (config : Config) (c : Competitor) (e : Event)
    (hn : 1 ≤ config.Laps) (h : c.CurrentLapNumber ≤ config.Laps) :
    (caseStarted c e).1.CurrentLapNumber ≤ config.Laps := by
  by_cases hs : c.Status = .NotStarted ∨ c.Status = .Disqualified
  · rw [caseStarted_ignored c e hs]; exact h
  · rw [caseStarted_applied c e hs]; exact hn

/-- With a lap count of at least 1, every event keeps the current lap number
within the lap count. -/
theorem stepCompetitor_lapNumber_le (config : Config) (hn : 1 ≤ config.Laps) (c : Competitor)
    (e : Event) (h : LapsInv c ∧ c.CurrentLapNumber ≤ config.Laps) :
    ∃ r, stepCompetitor config c e = some r ∧
      (LapsInv r.1 ∧ r.1.CurrentLapNumber ≤ config.Laps) := by
  obtain ⟨hinv, hle⟩ := h
  unfold stepCompetitor
  generalize hc1 : ({ c with LastEventTime := e.Timestamp } : Competitor) = c1
  have hinv1 : LapsInv c1 := by rw [← hc1]; exact hinv
  have hle1 : c1.CurrentLapNumber ≤ config.Laps := by rw [← hc1]; exact hle
  refine applyEvent_cases
    (motive := fun o => ∃ r, o = some r ∧ (LapsInv r.1 ∧ r.1.CurrentLapNumber ≤ config.Laps))
    config c1 e ?_ ?_ ?_ ?_ ?_ ?_ ?_ ?_ ?_ ?_ ?_
  · intro _; exact ⟨_, rfl, hinv1, hle1⟩
  · intro _; exact ⟨_, rfl, hinv1, hle1⟩
  · intro _
    exact ⟨_, rfl, caseStarted_lapsInv c1 e hinv1, caseStarted_lapNumber_le config c1 e hn hle1⟩
  · intro _; exact ⟨_, rfl, hinv1, hle1⟩
  · intro _; exact ⟨_, rfl, hinv1, hle1⟩
  · intro _
    refine ⟨_, rfl, caseLeftFiringRange_lapsInv c1 e hinv1, ?_⟩
    rw [caseLeftFiringRange_fst]; exact hle1
  · intro _; exact ⟨_, rfl, hinv1, hle1⟩
  · intro _
    refine ⟨_, rfl, caseLeftPenaltyLaps_lapsInv c1 e hinv1, ?_⟩
    rw [caseLeftPenaltyLaps_fst]; exact hle1
  · intro _
    obtain ⟨r, hr, hri⟩ := caseEndedMainLap_lapsInv config c1 e hinv1
    refine ⟨r, hr, hri, ?_⟩
    by_cases hc : c1.CurrentLapNumber = config.Laps
    · rw [caseEndedMainLap_last config c1 e hc] at hr
      simp only [Option.some.injEq] at hr
      rw [← hr]; exact hle1
    · rw [caseEndedMainLap_next config c1 e hc hinv1.1 hinv1.2.1] at hr
      simp only [Option.some.injEq] at hr
      rw [← hr]
      show c1.CurrentLapNumber + 1 ≤ config.Laps
      omega
  · intro _; exact ⟨_, rfl, hinv1, hle1⟩
  · intros; exact ⟨_, rfl, hinv1, hle1⟩

/-- Every event that is not a Started event leaves ActualStartTime as it is. -/
theorem stepCompetitor_actualStart (config : Config) (c : Competitor) (e : Event)
    (he : e.ID ≠ EventStarted) (h : LapsInv c) :
    ∃ r, stepCompetitor config c e = some r ∧ LapsInv r.1 ∧
      r.1.ActualStartTime = c.ActualStartTime := by
  unfold stepCompetitor
  generalize hc1 : ({ c with LastEventTime := e.Timestamp } : Competitor) = c1
  have hinv1 : LapsInv c1 := by rw [← hc1]; exact h
  have ha : c1.ActualStartTime = c.ActualStartTime := by rw [← hc1]
  refine applyEvent_cases
    (motive := fun o => ∃ r, o = some r ∧ LapsInv r.1 ∧ r.1.ActualStartTime = c.ActualStartTime)
    config c1 e ?_ ?_ ?_ ?_ ?_ ?_ ?_ ?_ ?_ ?_ ?_
  · intro _; exact ⟨_, rfl, hinv1, ha⟩
  · intro _; exact ⟨_, rfl, hinv1, ha⟩
  · intro h4; exact absurd h4 he
  · intro _; exact ⟨_, rfl, hinv1, ha⟩
  · intro _; exact ⟨_, rfl, hinv1, ha⟩
  · intro _
    refine ⟨_, rfl, caseLeftFiringRange_lapsInv c1 e hinv1, ?_⟩
    rw [caseLeftFiringRange_fst]; exact ha
  · intro _; exact ⟨_, rfl, hinv1, ha⟩
  · intro _
    refine ⟨_, rfl, caseLeftPenaltyLaps_lapsInv c1 e hinv1, ?_⟩
    rw [caseLeftPenaltyLaps_fst]; exact ha
  · intro _
    obtain ⟨r, hr, hri⟩ := caseEndedMainLap_lapsInv config c1 e hinv1
    refine ⟨r, hr, hri, ?_⟩
    by_cases hc : c1.CurrentLapNumber = config.Laps
    · rw [caseEndedMainLap_last config c1 e hc] at hr
      simp only [Option.some.injEq] at hr
      rw [← hr]; exact ha
    · rw [caseEndedMainLap_next config c1 e hc hinv1.1 hinv1.2.1] at hr
      simp only [Option.some.injEq] at hr
      rw [← hr]; exact ha
  · intro _; exact ⟨_, rfl, hinv1, ha⟩
  · intros; exact ⟨_, rfl, hinv1, ha⟩

/-- A competitor without a Started event has a zero ActualStartTime after the
replay of its events. -/
theorem replay_no_start (config : Config) (xs : List Event) (id : Int)
    (h : ∀ e ∈ xs, e.ID ≠ EventStarted) :
    ∃ c, replay config (NewCompetitor id) xs = some c ∧ c.ActualStartTime = 0 := by
  obtain ⟨c, hc, _, hz⟩ := replay_invariant config (fun c => LapsInv c ∧ c.ActualStartTime = 0) xs
    (fun c e he hc => by
      obtain ⟨r, hr, hi, ha⟩ := stepCompetitor_actualStart config c e (h e he) hc.1
      exact ⟨r, hr, hi, by rw [ha]; exact hc.2⟩)
    (NewCompetitor id) ⟨lapsInv_new id, rfl⟩
  exact ⟨c, hc, hz⟩

theorem finalRecord_actualStart (config : Config) (c : Competitor) :
    (finalRecord config c).ActualStartTime = c.ActualStartTime := by
  rw [finalRecord_eq]

/-- A record that FinalizeResults leaves Registered or Scheduled had that
status, and a non-zero ActualStartTime, at the end of the event loop. -/
theorem finalRecord_initial_status (config : Config) (c : Competitor)
    (h : (finalRecord config c).Status = .Registered ∨ (finalRecord config c).Status = .Scheduled) :
    c.ActualStartTime ≠ 0 := by
  rw [finalRecord_eq, checkNotStarted_eq] at h
  intro hz
  have hz1 : Time.IsZero c.ActualStartTime = true := by simp [Time.IsZero, hz]
  simp only [finalStatus, hz1, true_and] at h
  by_cases hs : c.Status = .Registered ∨ c.Status = .Scheduled
  · simp [hs] at h
  · simp only [hs, if_false] at h
    split_ifs at h <;> simp_all


/-! ### Stored shooting sessions -/

theorem map_modify_comm {α β : Type} (g : α → β) (f : α → α) (f1 : β → β)
    (h : ∀ a, g (f a) = f1 (g a)) :
    ∀ (l : List α) (n : Nat), (l.modify f n).map g = (l.map g).modify f1 n := by
  intro l
  induction l with
  | nil => intro n; cases n <;> rfl
  | cons a l ih =>
    intro n
    cases n with
    | zero => simp [List.modify_zero_cons, h]
    | succ n => simp [List.modify_succ_cons, ih]

theorem modify_id {β : Type} : ∀ (l : List β) (n : Nat), l.modify (fun b => b) n = l := by
  intro l
  induction l with
  | nil => intro n; cases n <;> rfl
  | cons a l ih =>
    intro n
    cases n with
    | zero => rfl
    | succ n => simp [List.modify_succ_cons, ih]

theorem map_modify_same {α β : Type} (g : α → β) (f : α → α) (h : ∀ a, g (f a) = g a)
    (l : List α) (n : Nat) : (l.modify f n).map g = l.map g := by
  rw [map_modify_comm g f (fun b => b) h, modify_id]

theorem sessions_modify_same (f : LapRecord → LapRecord)
    (h : ∀ l, (f l).ShootingData = l.ShootingData) (laps : List LapRecord) (n : Nat) :
    sessions (laps.modify f n) = sessions laps := by
  unfold sessions
  rw [map_modify_same _ f (by intro a; simp only [h]) laps n]

theorem sum_modify_succ : ∀ (l : List Nat) (n : Nat), n < l.length →
    (l.modify (fun b => b + 1) n).sum = l.sum + 1 := by
  intro l
  induction l with
  | nil => intro n h; simp at h
  | cons a l ih =>
    intro n h
    cases n with
    | zero => simp [List.modify_zero_cons]; omega
    | succ n =>
      simp only [List.length_cons, Nat.add_lt_add_iff_right] at h
      simp [List.modify_succ_cons, ih n h]; omega

theorem sessions_modify_add (sr : ShootingRecord) (laps : List LapRecord) (n : Nat)
    (h : n < laps.length) :
    sessions (laps.modify (fun lap => { lap with ShootingData := lap.ShootingData ++ [sr] }) n) =
      sessions laps + 1 := by
  unfold sessions
  rw [map_modify_comm _ _ (fun b => b + 1) (by intro a; simp), sum_modify_succ _ _ (by simpa using h)]
  push_cast; ring

theorem sessions_append_new (laps : List LapRecord) (l : LapRecord) (h : l.ShootingData = []) :
    sessions (laps ++ [l]) = sessions laps := by
  unfold sessions
  simp [h]

theorem sessions_closeLap (c : Competitor) (e : Event) :
    sessions (closeLap c e) = sessions c.LapsData := by
  unfold closeLap
  split_ifs
  · exact sessions_modify_same _ (by intro l; rfl) _ _
  · rfl

/-! ### The invariant of the event loop -/

theorem loopInv_new (id : Int) : LoopInv (NewCompetitor id) :=
  ⟨lapsInv_new id, by simp [NewCompetitor], by simp [NewCompetitor]⟩

theorem caseStarted_of_loopInv (c : Competitor) (e : Event) (h : LoopInv c) :
    (caseStarted c e).1 =
      { c with
        ActualStartTime := e.Timestamp
        Status := .Racing
        CurrentLapNumber := 1
        CurrentLapTempData := { c.CurrentLapTempData with LapStartTime := e.Timestamp }
        LapsData :=
          if c.LapsData.length = 0 then
            c.LapsData ++ [{ LapNumber := 1, StartTime := e.Timestamp, ShootingData := [] }]
          else c.LapsData } :=
  caseStarted_applied c e (by intro hs; rcases hs with hs | hs; exact h.2.1 hs; exact h.2.2 hs)

/-- Every event keeps the loop invariant and does not abort. -/
theorem stepCompetitor_loopInv (config : Config) (c : Competitor) (e : Event) (h : LoopInv c) :
    ∃ r, stepCompetitor config c e = some r ∧ LoopInv r.1 := by
  unfold stepCompetitor
  generalize hc1 : ({ c with LastEventTime := e.Timestamp } : Competitor) = c1
  have h1 : LoopInv c1 := by rw [← hc1]; exact h
  obtain ⟨hinv1, hns, hnd⟩ := h1
  refine applyEvent_cases (motive := fun o => ∃ r, o = some r ∧ LoopInv r.1)
    config c1 e ?_ ?_ ?_ ?_ ?_ ?_ ?_ ?_ ?_ ?_ ?_
  · intro _; exact ⟨_, rfl, hinv1, by simp [caseRegistered], by simp [caseRegistered]⟩
  · intro _; exact ⟨_, rfl, hinv1, by simp [caseStartTimeSet], by simp [caseStartTimeSet]⟩
  · intro _
    refine ⟨_, rfl, caseStarted_lapsInv c1 e hinv1, ?_⟩
    rw [caseStarted_of_loopInv c1 e ⟨hinv1, hns, hnd⟩]
    exact ⟨by simp, by simp⟩
  · intro _; exact ⟨_, rfl, hinv1, by simp [caseOnFiringRange], by simp [caseOnFiringRange]⟩
  · intro _; exact ⟨_, rfl, hinv1, hns, hnd⟩
  · intro _
    refine ⟨_, rfl, caseLeftFiringRange_lapsInv c1 e hinv1, ?_⟩
    rw [caseLeftFiringRange_fst]
    exact ⟨by simp, by simp⟩
  · intro _
    exact ⟨_, rfl, hinv1, by simp [caseEnteredPenaltyLaps], by simp [caseEnteredPenaltyLaps]⟩
  · intro _
    refine ⟨_, rfl, caseLeftPenaltyLaps_lapsInv c1 e hinv1, ?_⟩
    rw [caseLeftPenaltyLaps_fst]
    exact ⟨by simp, by simp⟩
  · intro _
    obtain ⟨r, hr, hri⟩ := caseEndedMainLap_lapsInv config c1 e hinv1
    refine ⟨r, hr, hri, ?_⟩
    by_cases hc : c1.CurrentLapNumber = config.Laps
    · rw [caseEndedMainLap_last config c1 e hc] at hr
      simp only [Option.some.injEq] at hr
      rw [← hr]; exact ⟨by simp, by simp⟩
    · rw [caseEndedMainLap_next config c1 e hc hinv1.1 hinv1.2.1] at hr
      simp only [Option.some.injEq] at hr
      rw [← hr]; exact ⟨by simp, by simp⟩
  · intro _; exact ⟨_, rfl, hinv1, by simp [caseCannotContinue], by simp [caseCannotContinue]⟩
  · intros; exact ⟨_, rfl, hinv1, hns, hnd⟩

/-- Effect of one event on the shot total and on the stored sessions: both
stay as they are, except at a LeftFiringRange event, which adds five shots
and, when the competitor is on a lap, one session.  The current lap number
never drops from at least 1 to below 1, and a Started event makes it 1. -/
theorem stepCompetitor_shots (config : Config) (c : Competitor) (e : Event) (h : LoopInv c) :
    ∃ r, stepCompetitor config c e = some r ∧ LoopInv r.1 ∧
      (1 ≤ c.CurrentLapNumber → 1 ≤ r.1.CurrentLapNumber) ∧
      (e.ID = EventStarted → 1 ≤ r.1.CurrentLapNumber) ∧
      (e.ID ≠ EventLeftFiringRange →
        r.1.TotalShots = c.TotalShots ∧ sessionCount r.1 = sessionCount c) ∧
      (e.ID = EventLeftFiringRange →
        r.1.TotalShots = c.TotalShots + 5 ∧
        (1 ≤ c.CurrentLapNumber → sessionCount r.1 = sessionCount c + 1)) := by
  obtain ⟨r, hr, hri⟩ := stepCompetitor_loopInv config c e h
  refine ⟨r, hr, hri, ?_⟩
  unfold stepCompetitor at hr
  generalize hc1 : ({ c with LastEventTime := e.Timestamp } : Competitor) = c1 at hr
  have h1 : LoopInv c1 := by rw [← hc1]; exact h
  have hcur : c.CurrentLapNumber = c1.CurrentLapNumber := by rw [← hc1]
  have hshots : c.TotalShots = c1.TotalShots := by rw [← hc1]
  have hsess : sessionCount c = sessionCount c1 := by rw [← hc1]; rfl
  rw [hcur, hshots, hsess]
  clear hcur hshots hsess hc1 h
  revert hr
  refine applyEvent_cases (motive := fun o => o = some r →
      (1 ≤ c1.CurrentLapNumber → 1 ≤ r.1.CurrentLapNumber) ∧
      (e.ID = EventStarted → 1 ≤ r.1.CurrentLapNumber) ∧
      (e.ID ≠ EventLeftFiringRange →
        r.1.TotalShots = c1.TotalShots ∧ sessionCount r.1 = sessionCount c1) ∧
      (e.ID = EventLeftFiringRange →
        r.1.TotalShots = c1.TotalShots + 5 ∧
        (1 ≤ c1.CurrentLapNumber → sessionCount r.1 = sessionCount c1 + 1)))
    config c1 e ?_ ?_ ?_ ?_ ?_ ?_ ?_ ?_ ?_ ?_ ?_
  · intro he hr
    simp only [Option.some.injEq] at hr; subst hr
    exact ⟨fun x => x, fun x => by rw [he] at x; exact absurd x (by decide),
      fun _ => ⟨rfl, rfl⟩, fun x => by rw [he] at x; exact absurd x (by decide)⟩
  · intro he hr
    simp only [Option.some.injEq] at hr; subst hr
    exact ⟨fun x => x, fun x => by rw [he] at x; exact absurd x (by decide),
      fun _ => ⟨rfl, rfl⟩, fun x => by rw [he] at x; exact absurd x (by decide)⟩
  · intro he hr
    simp only [Option.some.injEq] at hr; subst hr
    rw [caseStarted_of_loopInv c1 e h1]
    refine ⟨fun _ => le_refl _, fun _ => le_refl _, fun _ => ⟨rfl, ?_⟩,
      fun x => by rw [he] at x; exact absurd x (by decide)⟩
    unfold sessionCount
    dsimp only
    split_ifs
    · exact sessions_append_new _ _ rfl
    · rfl
  · intro he hr
    simp only [Option.some.injEq] at hr; subst hr
    exact ⟨fun x => x, fun x => by rw [he] at x; exact absurd x (by decide),
      fun _ => ⟨rfl, rfl⟩, fun x => by rw [he] at x; exact absurd x (by decide)⟩
  · intro he hr
    simp only [Option.some.injEq] at hr; subst hr
    exact ⟨fun x => x, fun x => by rw [he] at x; exact absurd x (by decide),
      fun _ => ⟨rfl, rfl⟩, fun x => by rw [he] at x; exact absurd x (by decide)⟩
  · intro he hr
    simp only [Option.some.injEq] at hr; subst hr
    rw [caseLeftFiringRange_fst]
    refine ⟨fun x => x, fun x => by rw [he] at x; exact absurd x (by decide),
      fun x => absurd he x, fun _ => ⟨rfl, fun hpos => ?_⟩⟩
    have hlen := h1.1.2.1
    unfold sessionCount
    dsimp only
    rw [if_pos ⟨by omega, by omega⟩]
    exact sessions_modify_add _ _ _ (by omega)
  · intro he hr
    simp only [Option.some.injEq] at hr; subst hr
    exact ⟨fun x => x, fun x => by rw [he] at x; exact absurd x (by decide),
      fun _ => ⟨rfl, rfl⟩, fun x => by rw [he] at x; exact absurd x (by decide)⟩
  · intro he hr
    simp only [Option.some.injEq] at hr; subst hr
    rw [caseLeftPenaltyLaps_fst]
    refine ⟨fun x => x, fun x => by rw [he] at x; exact absurd x (by decide),
      fun _ => ⟨rfl, ?_⟩, fun x => by rw [he] at x; exact absurd x (by decide)⟩
    unfold sessionCount
    dsimp only
    split_ifs
    · exact sessions_modify_same _ (by intro l; rfl) _ _
    · rfl
  · intro he hr
    by_cases hc : c1.CurrentLapNumber = config.Laps
    · rw [caseEndedMainLap_last config c1 e hc] at hr
      simp only [Option.some.injEq] at hr; subst hr
      exact ⟨fun x => x, fun x => by rw [he] at x; exact absurd x (by decide),
        fun _ => ⟨rfl, sessions_closeLap c1 e⟩,
        fun x => by rw [he] at x; exact absurd x (by decide)⟩
    · rw [caseEndedMainLap_next config c1 e hc h1.1.1 h1.1.2.1] at hr
      simp only [Option.some.injEq] at hr; subst hr
      refine ⟨fun x => by dsimp only; omega,
        fun x => by rw [he] at x; exact absurd x (by decide),
        fun _ => ⟨rfl, ?_⟩, fun x => by rw [he] at x; exact absurd x (by decide)⟩
      unfold sessionCount
      dsimp only
      split_ifs
      · rw [sessions_append_new _ _ rfl, sessions_closeLap]
      · rw [sessions_modify_same _ (by intro l; rfl), sessions_closeLap]
  · intro he hr
    simp only [Option.some.injEq] at hr; subst hr
    exact ⟨fun x => x, fun x => by rw [he] at x; exact absurd x (by decide),
      fun _ => ⟨rfl, rfl⟩, fun x => by rw [he] at x; exact absurd x (by decide)⟩
  · intro _ _ h4 _ _ h7 _ _ _ _ hr
    simp only [Option.some.injEq] at hr; subst hr
    exact ⟨fun x => x, fun x => absurd x h4, fun _ => ⟨rfl, rfl⟩, fun x => absurd x h7⟩

theorem shotsInv_new (id : Int) : ShotsInv (NewCompetitor id) :=
  ⟨loopInv_new id, by simp [NewCompetitor, sessionCount, sessions]⟩

/-- Replay keeps the shot total at five times the stored sessions when the
competitor is on a lap, or when no LeftFiringRange event comes before the
first Started event of the list. -/
theorem replay_shotsInv (config : Config) :
    ∀ (xs : List Event) (c : Competitor), ShotsInv c →
      (1 ≤ c.CurrentLapNumber ∨
        ∀ e ∈ xs.takeWhile (fun e => e.ID ≠ EventStarted), e.ID ≠ EventLeftFiringRange) →
      ∃ c1, replay config c xs = some c1 ∧ ShotsInv c1 := by
  intro xs
  induction xs with
  | nil => intro c hc _; exact ⟨c, rfl, hc⟩
  | cons e es ih =>
    intro c hc hpos
    obtain ⟨r, hr, hri, hkeep, hstart, hother, hleft⟩ := stepCompetitor_shots config c e hc.1
    simp only [replay, hr]
    by_cases h7 : e.ID = EventLeftFiringRange
    · have h4 : e.ID ≠ EventStarted := by rw [h7]; decide
      have hcur : 1 ≤ c.CurrentLapNumber := by
        rcases hpos with hp | hp
        · exact hp
        · exact absurd h7 (hp e (by simp [List.takeWhile_cons, h4]))
      obtain ⟨hs, hn⟩ := hleft h7
      exact ih r.1 ⟨hri, by rw [hs, hn hcur, hc.2]; ring⟩ (Or.inl (hkeep hcur))
    · obtain ⟨hs, hn⟩ := hother h7
      refine ih r.1 ⟨hri, by rw [hs, hn, hc.2]⟩ ?_
      rcases hpos with hp | hp
      · exact Or.inl (hkeep hp)
      · by_cases h4 : e.ID = EventStarted
        · exact Or.inl (hstart h4)
        · refine Or.inr (fun e1 he1 => hp e1 ?_)
          have htw : (e :: es).takeWhile (fun e => e.ID ≠ EventStarted) =
              e :: es.takeWhile (fun e => e.ID ≠ EventStarted) := by
            simp [List.takeWhile_cons, h4]
          rw [htw]
          exact List.mem_cons_of_mem _ he1

theorem checkNotStarted_shots (c : Competitor) :
    (checkNotStarted c).TotalShots = c.TotalShots ∧
      sessionCount (checkNotStarted c) = sessionCount c := by
  rw [checkNotStarted_eq]
  exact ⟨rfl, rfl⟩


/-! ### Lap numbers and lap times -/

theorem length_lapTimes (c : Competitor) : (lapTimes c).length = c.LapsData.length := by
  simp [lapTimes]

theorem lapTimes_closeLap (c : Competitor) (e : Event) :
    (closeLap c e).map (fun l => (l.StartTime, l.EndTime)) =
      if 0 ≤ c.CurrentLapNumber - 1 ∧ c.CurrentLapNumber - 1 < (c.LapsData.length : Int) then
        (lapTimes c).modify (fun p => (p.1, e.Timestamp)) (c.CurrentLapNumber - 1).toNat
      else lapTimes c := by
  unfold closeLap lapTimes
  split_ifs
  · exact map_modify_comm _ _ _ (by intro a; rfl) _ _
  · rfl

/-- Effect of one event on the current lap number and on the start and end
times of the lap records. -/
theorem stepCompetitor_laps (config : Config) (c : Competitor) (e : Event) (h : LoopInv c) :
    ∃ r, stepCompetitor config c e = some r ∧ LoopInv r.1 ∧
      (e.ID ≠ EventStarted → e.ID ≠ EventEndedMainLap →
        r.1.CurrentLapNumber = c.CurrentLapNumber ∧ lapTimes r.1 = lapTimes c) ∧
      (e.ID = EventStarted →
        r.1.CurrentLapNumber = 1 ∧ r.1.ActualStartTime = e.Timestamp ∧
        lapTimes r.1 = if c.LapsData.length = 0 then [(e.Timestamp, 0)] else lapTimes c) ∧
      (e.ID = EventEndedMainLap → c.CurrentLapNumber = config.Laps →
        r.1.CurrentLapNumber = c.CurrentLapNumber ∧ r.1.Status = .Completed ∧
        r.1.FinishTime = e.Timestamp ∧
        lapTimes r.1 = (closeLap c e).map (fun l => (l.StartTime, l.EndTime))) ∧
      (e.ID = EventEndedMainLap → c.CurrentLapNumber ≠ config.Laps →
        r.1.CurrentLapNumber = c.CurrentLapNumber + 1 ∧
        lapTimes r.1 =
          if (c.LapsData.length : Int) < c.CurrentLapNumber + 1 then
            (closeLap c e).map (fun l => (l.StartTime, l.EndTime)) ++ [(e.Timestamp, 0)]
          else
            ((closeLap c e).map (fun l => (l.StartTime, l.EndTime))).modify
              (fun p => (e.Timestamp, p.2)) (c.CurrentLapNumber + 1 - 1).toNat) := by
  obtain ⟨r, hr, hri⟩ := stepCompetitor_loopInv config c e h
  refine ⟨r, hr, hri, ?_⟩
  unfold stepCompetitor at hr
  generalize hc1 : ({ c with LastEventTime := e.Timestamp } : Competitor) = c1 at hr
  have h1 : LoopInv c1 := by rw [← hc1]; exact h
  have hcur : c.CurrentLapNumber = c1.CurrentLapNumber := by rw [← hc1]
  have hlaps : c.LapsData = c1.LapsData := by rw [← hc1]
  have htimes : lapTimes c = lapTimes c1 := by rw [← hc1]; rfl
  have hclose : closeLap c e = closeLap c1 e := by rw [← hc1]; rfl
  rw [hcur, hlaps, htimes, hclose]
  clear hcur hlaps htimes hclose hc1 h
  revert hr
  refine applyEvent_cases (motive := fun o => o = some r →
      (e.ID ≠ EventStarted → e.ID ≠ EventEndedMainLap →
        r.1.CurrentLapNumber = c1.CurrentLapNumber ∧ lapTimes r.1 = lapTimes c1) ∧
      (e.ID = EventStarted →
        r.1.CurrentLapNumber = 1 ∧ r.1.ActualStartTime = e.Timestamp ∧
        lapTimes r.1 = if c1.LapsData.length = 0 then [(e.Timestamp, 0)] else lapTimes c1) ∧
      (e.ID = EventEndedMainLap → c1.CurrentLapNumber = config.Laps →
        r.1.CurrentLapNumber = c1.CurrentLapNumber ∧ r.1.Status = .Completed ∧
        r.1.FinishTime = e.Timestamp ∧
        lapTimes r.1 = (closeLap c1 e).map (fun l => (l.StartTime, l.EndTime))) ∧
      (e.ID = EventEndedMainLap → c1.CurrentLapNumber ≠ config.Laps →
        r.1.CurrentLapNumber = c1.CurrentLapNumber + 1 ∧
        lapTimes r.1 =
          if (c1.LapsData.length : Int) < c1.CurrentLapNumber + 1 then
            (closeLap c1 e).map (fun l => (l.StartTime, l.EndTime)) ++ [(e.Timestamp, 0)]
          else
            ((closeLap c1 e).map (fun l => (l.StartTime, l.EndTime))).modify
              (fun p => (e.Timestamp, p.2)) (c1.CurrentLapNumber + 1 - 1).toNat))
    config c1 e ?_ ?_ ?_ ?_ ?_ ?_ ?_ ?_ ?_ ?_ ?_
  · intro he hr
    simp only [Option.some.injEq] at hr; subst hr
    exact ⟨fun _ _ => ⟨rfl, rfl⟩, fun x => by rw [he] at x; exact absurd x (by decide),
      fun x => by rw [he] at x; exact absurd x (by decide),
      fun x => by rw [he] at x; exact absurd x (by decide)⟩
  · intro he hr
    simp only [Option.some.injEq] at hr; subst hr
    exact ⟨fun _ _ => ⟨rfl, rfl⟩, fun x => by rw [he] at x; exact absurd x (by decide),
      fun x => by rw [he] at x; exact absurd x (by decide),
      fun x => by rw [he] at x; exact absurd x (by decide)⟩
  · intro he hr
    simp only [Option.some.injEq] at hr; subst hr
    rw [caseStarted_of_loopInv c1 e h1]
    refine ⟨fun x => absurd he x, fun _ => ⟨rfl, rfl, ?_⟩,
      fun x => by rw [he] at x; exact absurd x (by decide),
      fun x => by rw [he] at x; exact absurd x (by decide)⟩
    unfold lapTimes
    dsimp only
    by_cases hl : c1.LapsData.length = 0
    · rw [if_pos hl, if_pos hl, List.length_eq_zero.1 hl]; rfl
    · rw [if_neg hl, if_neg hl]
  · intro he hr
    simp only [Option.some.injEq] at hr; subst hr
    exact ⟨fun _ _ => ⟨rfl, rfl⟩, fun x => by rw [he] at x; exact absurd x (by decide),
      fun x => by rw [he] at x; exact absurd x (by decide),
      fun x => by rw [he] at x; exact absurd x (by decide)⟩
  · intro he hr
    simp only [Option.some.injEq] at hr; subst hr
    exact ⟨fun _ _ => ⟨rfl, rfl⟩, fun x => by rw [he] at x; exact absurd x (by decide),
      fun x => by rw [he] at x; exact absurd x (by decide),
      fun x => by rw [he] at x; exact absurd x (by decide)⟩
  · intro he hr
    simp only [Option.some.injEq] at hr; subst hr
    rw [caseLeftFiringRange_fst]
    refine ⟨fun _ _ => ⟨rfl, ?_⟩, fun x => by rw [he] at x; exact absurd x (by decide),
      fun x => by rw [he] at x; exact absurd x (by decide),
      fun x => by rw [he] at x; exact absurd x (by decide)⟩
    unfold lapTimes
    dsimp only
    split_ifs
    · exact map_modify_same _ _ (by intro a; rfl) _ _
    · rfl
  · intro he hr
    simp only [Option.some.injEq] at hr; subst hr
    exact ⟨fun _ _ => ⟨rfl, rfl⟩, fun x => by rw [he] at x; exact absurd x (by decide),
      fun x => by rw [he] at x; exact absurd x (by decide),
      fun x => by rw [he] at x; exact absurd x (by decide)⟩
  · intro he hr
    simp only [Option.some.injEq] at hr; subst hr
    rw [caseLeftPenaltyLaps_fst]
    refine ⟨fun _ _ => ⟨rfl, ?_⟩, fun x => by rw [he] at x; exact absurd x (by decide),
      fun x => by rw [he] at x; exact absurd x (by decide),
      fun x => by rw [he] at x; exact absurd x (by decide)⟩
    unfold lapTimes
    dsimp only
    split_ifs
    · exact map_modify_same _ _ (by intro a; rfl) _ _
    · rfl
  · intro he hr
    refine ⟨fun _ x => absurd he x, fun x => by rw [he] at x; exact absurd x (by decide),
      fun _ hc => ?_, fun _ hc => ?_⟩
    · rw [caseEndedMainLap_last config c1 e hc] at hr
      simp only [Option.some.injEq] at hr; subst hr
      exact ⟨rfl, rfl, rfl, rfl⟩
    · rw [caseEndedMainLap_next config c1 e hc h1.1.1 h1.1.2.1] at hr
      simp only [Option.some.injEq] at hr; subst hr
      refine ⟨rfl, ?_⟩
      unfold lapTimes
      dsimp only
      split_ifs
      · simp
      · exact map_modify_comm _ _ _ (by intro a; rfl) _ _
  · intro he hr
    simp only [Option.some.injEq] at hr; subst hr
    exact ⟨fun _ _ => ⟨rfl, rfl⟩, fun x => by rw [he] at x; exact absurd x (by decide),
      fun x => by rw [he] at x; exact absurd x (by decide),
      fun x => by rw [he] at x; exact absurd x (by decide)⟩
  · intro _ _ h4 _ _ _ _ _ h10 _ hr
    simp only [Option.some.injEq] at hr; subst hr
    exact ⟨fun _ _ => ⟨rfl, rfl⟩, fun x => absurd x h4, fun x => absurd x h10,
      fun x => absurd x h10⟩

/-- Replay of a list in which no Started event comes after a LapCompleted
event: the lap records never outnumber the current lap number. -/
theorem replay_lap_count (config : Config) :
    ∀ (xs : List Event) (c : Competitor), LoopInv c →
      (c.LapsData.length : Int) ≤ c.CurrentLapNumber →
      (c.LapsData.length ≤ 1 ∨ ∀ b ∈ xs, b.ID ≠ EventStarted) →
      xs.Pairwise (fun a b => ¬ (a.ID = EventEndedMainLap ∧ b.ID = EventStarted)) →
      ∃ c1, replay config c xs = some c1 ∧ (c1.LapsData.length : Int) ≤ c1.CurrentLapNumber := by
  intro xs
  induction xs with
  | nil => intro c _ hle _ _; exact ⟨c, rfl, hle⟩
  | cons e es ih =>
    intro c hc hle hflag hpair
    obtain ⟨r, hr, hri, hother, hstart, hlast, hnext⟩ := stepCompetitor_laps config c e hc
    rw [List.pairwise_cons] at hpair
    obtain ⟨hhead, htail⟩ := hpair
    simp only [replay, hr]
    have hlen : ∀ c : Competitor, c.LapsData.length = (lapTimes c).length :=
      fun c => (length_lapTimes c).symm
    have hge := hc.1.2.1
    by_cases h4 : e.ID = EventStarted
    · obtain ⟨hcur, _, ht⟩ := hstart h4
      have hsmall : c.LapsData.length ≤ 1 := by
        rcases hflag with hf | hf
        · exact hf
        · exact absurd h4 (hf e (List.mem_cons_self _ _))
      have hl1 : r.1.LapsData.length = 1 := by
        rw [hlen, ht]
        by_cases hl : c.LapsData.length = 0
        · rw [if_pos hl]; rfl
        · rw [if_neg hl, ← hlen]; omega
      exact ih r.1 hri (by rw [hl1, hcur]; norm_num) (Or.inl (by omega)) htail
    · by_cases h10 : e.ID = EventEndedMainLap
      · have hflag1 : ∀ b ∈ es, b.ID ≠ EventStarted :=
          fun b hb hs => hhead b hb ⟨h10, hs⟩
        have hclose : ((closeLap c e).map (fun l => (l.StartTime, l.EndTime))).length =
            c.LapsData.length := by
          rw [List.length_map, length_closeLap]
        by_cases hc2 : c.CurrentLapNumber = config.Laps
        · obtain ⟨hcur, _, _, ht⟩ := hlast h10 hc2
          refine ih r.1 hri ?_ (Or.inr hflag1) htail
          rw [hlen, ht, hclose, hcur]; exact hle
        · obtain ⟨hcur, ht⟩ := hnext h10 hc2
          refine ih r.1 hri ?_ (Or.inr hflag1) htail
          rw [hlen, ht, hcur, if_pos (by omega), List.length_append, hclose]
          simp only [List.length_singleton]
          push_cast
          omega
      · obtain ⟨hcur, ht⟩ := hother h4 h10
        have hl1 : r.1.LapsData.length = c.LapsData.length := by rw [hlen, ht, ← hlen]
        refine ih r.1 hri (by rw [hl1, hcur]; exact hle) ?_ htail
        rcases hflag with hf | hf
        · exact Or.inl (by rw [hl1]; exact hf)
        · exact Or.inr (fun b hb => hf b (List.mem_cons_of_mem _ hb))

/-- The events of one competitor among the first k sorted events are the
first events of that competitor. -/
theorem filter_take_isPrefix (evs : List Event) (k : Nat) (X : Int) :
    ((sortEvents evs).take k).filter (fun e => e.CompetitorID = X) <+: eventsOf X evs :=
  (List.take_prefix k (sortEvents evs)).filter _

theorem stepCompetitor_onFiringRange (config : Config) (c : Competitor) (e : Event)
    (he : e.ID = EventOnFiringRange) :
    stepCompetitor config c e =
      some (caseOnFiringRange { c with LastEventTime := e.Timestamp } e) := by
  unfold stepCompetitor applyEvent
  simp only [he]
  rfl

theorem stepCompetitor_targetHit (config : Config) (c : Competitor) (e : Event)
    (he : e.ID = EventTargetHit) :
    stepCompetitor config c e = some (caseTargetHit { c with LastEventTime := e.Timestamp }) := by
  unfold stepCompetitor applyEvent
  simp only [he]
  rfl

theorem stepCompetitor_leftFiringRange (config : Config) (c : Competitor) (e : Event)
    (he : e.ID = EventLeftFiringRange) :
    stepCompetitor config c e =
      some (caseLeftFiringRange { c with LastEventTime := e.Timestamp } e) := by
  unfold stepCompetitor applyEvent
  simp only [he]
  rfl

theorem stepCompetitor_enteredPenaltyLaps (config : Config) (c : Competitor) (e : Event)
    (he : e.ID = EventEnteredPenaltyLaps) :
    stepCompetitor config c e =
      some (caseEnteredPenaltyLaps { c with LastEventTime := e.Timestamp } e) := by
  unfold stepCompetitor applyEvent
  simp only [he]
  rfl

theorem stepCompetitor_leftPenaltyLaps (config : Config) (c : Competitor) (e : Event)
    (he : e.ID = EventLeftPenaltyLaps) :
    stepCompetitor config c e =
      some (caseLeftPenaltyLaps { c with LastEventTime := e.Timestamp } e) := by
  unfold stepCompetitor applyEvent
  simp only [he]
  rfl

theorem replay_cons_of_step (config : Config) (c : Competitor) (e : Event) (es : List Event)
    (r : Competitor × List String) (h : stepCompetitor config c e = some r) :
    replay config c (e :: es) = replay config r.1 es := by
  simp only [replay, h]

/-- Replay of TargetHit events: each adds one to the hits of the session in
progress; lap number, lap records and served penalties stay as they are. -/
theorem replay_targetHits (config : Config) :
    ∀ (hits : List Event) (c : Competitor), (∀ e ∈ hits, e.ID = EventTargetHit) →
      ∃ c1, replay config c hits = some c1 ∧
        c1.CurrentLapNumber = c.CurrentLapNumber ∧ c1.LapsData = c.LapsData ∧
        c1.TotalPenaltiesServed = c.TotalPenaltiesServed ∧
        c1.CurrentLapTempData.HitsInSession =
          c.CurrentLapTempData.HitsInSession + (hits.length : Int) := by
  intro hits
  induction hits with
  | nil => intro c _; exact ⟨c, rfl, rfl, rfl, rfl, by simp⟩
  | cons e es ih =>
    intro c h
    obtain ⟨c1, hc1, h1, h2, h3, h4⟩ :=
      ih (caseTargetHit { c with LastEventTime := e.Timestamp }).1
        (fun e1 he1 => h e1 (List.mem_cons_of_mem _ he1))
    simp only [replay, stepCompetitor_targetHit config c e (h e (List.mem_cons_self _ _))]
    refine ⟨c1, hc1, h1, h2, h3, ?_⟩
    rw [h4]
    simp only [caseTargetHit, List.length_cons]
    push_cast
    ring

theorem getElem?_modify_self {α : Type} (f : α → α) (l : List α) (n : Nat)
    (h : n < l.length) : ∃ a, l[n]? = some a ∧ (l.modify f n)[n]? = some (f a) := by
  refine ⟨l[n], List.getElem?_eq_getElem h, ?_⟩
  rw [List.getElem?_modify_eq, List.getElem?_eq_getElem h]
  rfl

/-! ### Clock times and lap durations -/

theorem clock_bounds {t : Time} (h : Time.isClockTime t) :
    @LE.le Int _ 63082281600000000000 t ∧ @LT.lt Int _ t 63082368000000000000 := by
  obtain ⟨h1, h2⟩ := h
  unfold projectEpoch nsPerDay nsPerSecond at h1 h2
  norm_num at h1 h2
  exact ⟨h1, h2⟩

theorem isClockTime_not_zero {t : Time} (h : Time.isClockTime t) : Time.IsZero t = false := by
  have hb := clock_bounds h
  unfold Time.IsZero
  simp only [decide_eq_false_iff_not]
  intro h0
  have h4 : @Eq Int t 0 := h0
  omega

theorem sub_of_isClockTime {t u : Time} (ht : Time.isClockTime t) (hu : Time.isClockTime u) :
    Time.Sub t u = t - u := by
  have hb := clock_bounds ht
  have hc := clock_bounds hu
  have h5 : ¬ (@LT.lt Int _ (@HSub.hSub Int Int Int _ t u) (-(2 ^ 63))) := by norm_num; omega
  have h6 : ¬ (@LT.lt Int _ (2 ^ 63 - 1) (@HSub.hSub Int Int Int _ t u)) := by norm_num; omega
  unfold Time.Sub minDuration maxDuration
  rw [if_neg h5, if_neg h6]

/-- CalculateResults on a lap whose start and end are clock times of the
reference date: the duration is the exact difference. -/
theorem calculateLap_times (config : Config) (lap : LapRecord)
    (hs : Time.isClockTime lap.StartTime) (he : Time.isClockTime lap.EndTime) :
    ((calculateLap config lap).StartTime, (calculateLap config lap).EndTime,
      (calculateLap config lap).LapDuration) =
      (lap.StartTime, lap.EndTime, lap.EndTime - lap.StartTime) := by
  unfold calculateLap
  rw [if_pos ⟨isClockTime_not_zero hs, isClockTime_not_zero he⟩]
  dsimp only
  rw [sub_of_isClockTime he hs]
  split_ifs <;> rfl

theorem map_calculateLap_times (config : Config) (laps : List LapRecord)
    (h : ∀ p ∈ laps.map (fun l => (l.StartTime, l.EndTime)),
      Time.isClockTime p.1 ∧ Time.isClockTime p.2) :
    (laps.map (calculateLap config)).map (fun l => (l.StartTime, l.EndTime, l.LapDuration)) =
      (laps.map (fun l => (l.StartTime, l.EndTime))).map (fun p => (p.1, p.2, p.2 - p.1)) := by
  rw [List.map_map, List.map_map]
  apply List.map_congr_left
  intro l hl
  have hp := h (l.StartTime, l.EndTime) (List.mem_map_of_mem _ hl)
  exact calculateLap_times config l hp.1 hp.2

theorem modify_append_last {α : Type} (f : α → α) (l : List α) (a : α) :
    (l ++ [a]).modify f l.length = l ++ [f a] := by
  induction l with
  | nil => rfl
  | cons b l ih => simp [List.modify_succ_cons, ih]

/-- Replay of the events that follow the Started event of a competitor that
is started only once: each LapCompleted event closes the open lap, and the
one that completes the configured number of laps finishes the race. -/
theorem replay_race (config : Config) (t0 : Time) (finish : Event)
    (hfinish : finish.ID = EventEndedMainLap) :
    ∀ (ys : List Event) (c : Competitor) (closed : List (Time × Time)) (t : Time),
      LoopInv c → lapTimes c = closed ++ [(t, 0)] →
      c.CurrentLapNumber = (closed.length : Int) + 1 →
      c.ActualStartTime = t0 →
      (∀ e ∈ ys, e.ID ≠ EventStarted) →
      ys.getLast? = some finish →
      (closed.length : Int) + ((ys.filter (fun e => e.ID = EventEndedMainLap)).length : Int) =
        config.Laps →
      ∃ c1, replay config c ys = some c1 ∧ LoopInv c1 ∧ c1.Status = .Completed ∧
        c1.FinishTime = finish.Timestamp ∧ c1.ActualStartTime = t0 ∧
        lapTimes c1 = closed ++
          List.zip
            (t :: (ys.filter (fun e => e.ID = EventEndedMainLap)).map (fun e => e.Timestamp))
            ((ys.filter (fun e => e.ID = EventEndedMainLap)).map (fun e => e.Timestamp)) := by
  intro ys
  induction ys with
  | nil => intro c closed t _ _ _ _ _ hlast _; simp at hlast
  | cons e es ih =>
    intro c closed t hc htimes hcur hact hns hlast hcount
    obtain ⟨r, hr, hri, hother, _, hfin, hnext⟩ := stepCompetitor_laps config c e hc
    have h4 : e.ID ≠ EventStarted := hns e (List.mem_cons_self _ _)
    obtain ⟨r1, hr1, _, hact1⟩ := stepCompetitor_actualStart config c e h4 hc.1
    rw [hr] at hr1
    simp only [Option.some.injEq] at hr1
    subst hr1
    rw [replay_cons_of_step config c e es r hr]
    have hns1 : ∀ e1 ∈ es, e1.ID ≠ EventStarted :=
      fun e1 he1 => hns e1 (List.mem_cons_of_mem _ he1)
    have hlen : (c.LapsData.length : Int) = (closed.length : Int) + 1 := by
      rw [← length_lapTimes, htimes]; simp
    by_cases h10 : e.ID = EventEndedMainLap
    · -- a LapCompleted event: the open lap is closed
      have hfilter : (e :: es).filter (fun e => e.ID = EventEndedMainLap) =
          e :: es.filter (fun e => e.ID = EventEndedMainLap) := by simp [h10]
      rw [hfilter] at hcount ⊢
      have hclose : (closeLap c e).map (fun l => (l.StartTime, l.EndTime)) =
          closed ++ [(t, e.Timestamp)] := by
        rw [lapTimes_closeLap, if_pos ⟨by omega, by omega⟩, htimes]
        have hidx : (c.CurrentLapNumber - 1).toNat = closed.length := by omega
        rw [hidx, modify_append_last]
      by_cases hc2 : c.CurrentLapNumber = config.Laps
      · -- the last lap
        obtain ⟨_, hst, hft, ht⟩ := hfin h10 hc2
        have hzero : (es.filter (fun e => e.ID = EventEndedMainLap)).length = 0 := by
          simp only [List.length_cons] at hcount
          push_cast at hcount
          omega
        have hes : es = [] := by
          cases es with
          | nil => rfl
          | cons e1 es1 =>
            exfalso
            have hmem : finish ∈ e1 :: es1 := by
              rw [List.getLast?_cons_cons] at hlast
              exact List.mem_of_getLast?_eq_some hlast
            have : finish ∈ (e1 :: es1).filter (fun e => e.ID = EventEndedMainLap) :=
              List.mem_filter.2 ⟨hmem, by simp [hfinish]⟩
            rw [List.length_eq_zero.1 hzero] at this
            simp at this
        subst hes
        simp only [List.getLast?_singleton, Option.some.injEq] at hlast
        subst hlast
        refine ⟨r.1, rfl, hri, hst, hft, by rw [hact1, hact], ?_⟩
        rw [ht, hclose]
        simp
      · -- another lap follows
        obtain ⟨hcur1, ht⟩ := hnext h10 hc2
        rw [if_pos (by omega), hclose] at ht
        cases es with
        | nil =>
          exfalso
          simp only [List.filter_nil, List.length_cons, List.length_nil] at hcount
          push_cast at hcount
          omega
        | cons e1 es1 =>
          rw [List.getLast?_cons_cons] at hlast
          obtain ⟨c1, hc1, hi1, hst1, hft1, hact2, ht1⟩ :=
            ih r.1 (closed ++ [(t, e.Timestamp)]) e.Timestamp hri ht
              (by rw [hcur1, hcur]; simp) (by rw [hact1, hact]) hns1 hlast
              (by
                simp only [List.length_cons] at hcount
                simp only [List.length_append, List.length_singleton]
                push_cast at hcount ⊢
                omega)
          refine ⟨c1, hc1, hi1, hst1, hft1, hact2, ?_⟩
          rw [ht1]
          simp
    · -- any other event: the laps stay as they are
      obtain ⟨hcur1, ht⟩ := hother h4 h10
      have hfilter : (e :: es).filter (fun e => e.ID = EventEndedMainLap) =
          es.filter (fun e => e.ID = EventEndedMainLap) := by simp [h10]
      rw [hfilter] at hcount ⊢
      cases es with
      | nil =>
        exfalso
        simp only [List.getLast?_singleton, Option.some.injEq] at hlast
        rw [hlast] at h10
        exact h10 hfinish
      | cons e1 es1 =>
        rw [List.getLast?_cons_cons] at hlast
        exact ih r.1 closed t hri (by rw [ht, htimes]) (by rw [hcur1, hcur])
          (by rw [hact1, hact]) hns1 hlast hcount

/-- Replay of the events that precede the Started event, none of which is a
Started or LapCompleted event: the competitor stays off the course. -/
theorem replay_before_start (config : Config) (xs : List Event) (id : Int)
    (h : ∀ e ∈ xs, e.ID ≠ EventStarted ∧ e.ID ≠ EventEndedMainLap) :
    ∃ c, replay config (NewCompetitor id) xs = some c ∧ LoopInv c ∧ c.LapsData.length = 0 := by
  obtain ⟨c, hc, hi, ht⟩ := replay_invariant config
    (fun c => LoopInv c ∧ lapTimes c = []) xs
    (fun c e he hc => by
      obtain ⟨r, hr, hri, hother, _⟩ := stepCompetitor_laps config c e hc.1
      exact ⟨r, hr, hri, by rw [(hother (h e he).1 (h e he).2).2]; exact hc.2⟩)
    (NewCompetitor id) ⟨loopInv_new id, rfl⟩
  exact ⟨c, hc, hi, by rw [← length_lapTimes, ht]; rfl⟩

theorem timeLE_iff (a b : Event) : timeLE a b ↔ @LE.le Int _ a.Timestamp b.Timestamp := by
  unfold timeLE Time.Before
  simp only [decide_eq_false_iff_not, not_lt]

theorem sorted_sortEvents (evs : List Event) : (sortEvents evs).Sorted timeLE :=
  List.sorted_insertionSort timeLE evs

theorem perm_sortEvents (evs : List Event) : (sortEvents evs).Perm evs :=
  List.perm_insertionSort timeLE evs

/-- Inserting an event that the filter rejects does not change the filtered list. -/
theorem filter_orderedInsert_of_neg (p : Event → Bool) (a : Event) (h : p a = false) :
    ∀ l : List Event, (l.orderedInsert timeLE a).filter p = l.filter p := by
  intro l
  induction l with
  | nil => simp [h]
  | cons b l ih =>
    rw [List.orderedInsert]
    split_ifs
    · simp [h]
    · simp only [List.filter_cons, ih]

theorem orderedInsert_of_forall_le (a : Event) :
    ∀ l : List Event, (∀ b ∈ l, timeLE a b) → l.orderedInsert timeLE a = a :: l := by
  intro l h
  cases l with
  | nil => rfl
  | cons b l => rw [List.orderedInsert, if_pos (h b (List.mem_cons_self _ _))]

/-- Inserting an event that the filter accepts into a sorted list, then
filtering, is inserting it into the filtered list. -/
theorem filter_orderedInsert_of_pos (p : Event → Bool) (a : Event) (h : p a = true) :
    ∀ l : List Event, l.Sorted timeLE →
      (l.orderedInsert timeLE a).filter p = (l.filter p).orderedInsert timeLE a := by
  intro l
  induction l with
  | nil => intro _; simp [h]
  | cons b l ih =>
    intro hs
    rw [List.orderedInsert]
    by_cases hab : timeLE a b
    · rw [if_pos hab, List.filter_cons_of_pos h]
      symm
      apply orderedInsert_of_forall_le
      intro c hc
      have hc1 := List.mem_of_mem_filter hc
      rcases List.mem_cons.1 hc1 with rfl | hcl
      · exact hab
      · exact IsTrans.trans a b c hab (List.rel_of_sorted_cons hs c hcl)
    · rw [if_neg hab]
      by_cases hb : p b = true
      · rw [List.filter_cons_of_pos hb, List.filter_cons_of_pos hb, ih hs.of_cons,
          List.orderedInsert, if_neg hab]
      · rw [List.filter_cons_of_neg hb, List.filter_cons_of_neg hb, ih hs.of_cons]

/-- The stable sort commutes with filtering. -/
theorem sortEvents_filter (p : Event → Bool) :
    ∀ evs : List Event, (sortEvents evs).filter p = sortEvents (evs.filter p) := by
  intro evs
  induction evs with
  | nil => rfl
  | cons a l ih =>
    unfold sortEvents at ih ⊢
    rw [List.insertionSort]
    by_cases h : p a = true
    · rw [filter_orderedInsert_of_pos p a h _ (List.sorted_insertionSort timeLE l), ih,
        List.filter_cons_of_pos h, List.insertionSort]
    · rw [filter_orderedInsert_of_neg p a (by simpa using h), ih, List.filter_cons_of_neg h]

/-- Events that all carry the same timestamp are left in place by the sort. -/
theorem sortEvents_of_same_time (t : Time) (evs : List Event)
    (h : ∀ e ∈ evs, e.Timestamp = t) : sortEvents evs = evs := by
  apply List.Sorted.insertionSort_eq
  rw [List.Sorted, List.pairwise_iff_forall_sublist]
  intro a b hab
  have ha : a ∈ evs := hab.subset (by simp)
  have hb : b ∈ evs := hab.subset (by simp)
  rw [timeLE_iff, h a ha, h b hb]

/-- Two lists that are permutations of each other and agree, position by
position, on a key that is distinct within them are equal. -/
theorem eq_of_perm_of_map_eq {α β : Type} (f : α → β) :
    ∀ (l1 l2 : List α), l1.Perm l2 → (l1.map f).Nodup → l1.map f = l2.map f → l1 = l2 := by
  intro l1
  induction l1 with
  | nil => intro l2 hp _ _; exact hp.nil_eq
  | cons a t1 ih =>
    intro l2 hp hnd hmap
    cases l2 with
    | nil => simp at hmap
    | cons b t2 =>
      simp only [List.map_cons, List.cons.injEq] at hmap
      have hb : b ∈ a :: t1 := hp.symm.subset (List.mem_cons_self _ _)
      have hab : a = b :=
        List.inj_on_of_nodup_map hnd (List.mem_cons_self _ _) hb hmap.1
      subst hab
      rw [ih t2 (List.Perm.cons_inv hp) (List.nodup_cons.1 hnd).2 hmap.2]

/-- Event lists that are permutations of each other and carry pairwise
distinct timestamps are sorted into the same list. -/
theorem sortEvents_eq_of_perm (evs1 evs2 : List Event) (hperm : evs1.Perm evs2)
    (hdistinct : (evs1.map (fun e => e.Timestamp)).Nodup) :
    sortEvents evs1 = sortEvents evs2 := by
  have hp : (sortEvents evs1).Perm (sortEvents evs2) :=
    ((perm_sortEvents evs1).trans hperm).trans (perm_sortEvents evs2).symm
  have hs : ∀ evs : List Event,
      ((sortEvents evs).map (fun e => (e.Timestamp : Int))).Sorted (· ≤ ·) := by
    intro evs
    rw [List.Sorted, List.pairwise_map]
    exact (sorted_sortEvents evs).imp (fun {a b} h => (timeLE_iff a b).1 h)
  apply eq_of_perm_of_map_eq (fun e => (e.Timestamp : Int)) _ _ hp
  · exact (((perm_sortEvents evs1).map _).nodup_iff).2 hdistinct
  · exact List.eq_of_perm_of_sorted (hp.map _) (hs evs1) (hs evs2)

theorem forall_mem_modify {α : Type} (Q : α → Prop) (f : α → α) (hf : ∀ x, Q x → Q (f x)) :
    ∀ (l : List α) (n : Nat), (∀ x ∈ l, Q x) → ∀ x ∈ l.modify f n, Q x := by
  intro l
  induction l with
  | nil => intro n _ x hx; cases n <;> simp [List.modify] at hx
  | cons a l ih =>
    intro n h x hx
    cases n with
    | zero =>
      rw [List.modify_zero_cons] at hx
      rcases List.mem_cons.1 hx with rfl | hx
      · exact hf a (h a (List.mem_cons_self _ _))
      · exact h x (List.mem_cons_of_mem _ hx)
    | succ n =>
      rw [List.modify_succ_cons] at hx
      rcases List.mem_cons.1 hx with rfl | hx
      · exact h _ (List.mem_cons_self _ _)
      · exact ih n (fun y hy => h y (List.mem_cons_of_mem _ hy)) x hx

theorem forall_mem_append_one {α : Type} (Q : α → Prop) (l : List α) (a : α)
    (h : ∀ x ∈ l, Q x) (ha : Q a) : ∀ x ∈ l ++ [a], Q x := by
  intro x hx
  rcases List.mem_append.1 hx with hx | hx
  · exact h x hx
  · rw [List.mem_singleton.1 hx]; exact ha

/-- A property of lap records is kept by an event when it holds of a newly
opened lap record and is kept by each of the four updates that the event loop
makes to a stored lap record. -/
theorem stepCompetitor_forall_laps (Q : LapRecord → Prop) (config : Config) (c : Competitor)
    (e : Event)
    (hnew : ∀ n : Int, Q { LapNumber := n, StartTime := e.Timestamp, ShootingData := [] })
    (hend : ∀ lap, Q lap → Q { lap with EndTime := e.Timestamp })
    (hstart : ∀ lap, Q lap → Q { lap with StartTime := e.Timestamp })
    (hsess : e.ID = EventLeftFiringRange → ∀ lap, Q lap →
      Q { lap with ShootingData := lap.ShootingData ++ [sessionRecord c e] })
    (hpen : e.ID = EventLeftPenaltyLaps → ∀ lap, Q lap → Q { lap with
      PenaltyEntryTime := c.CurrentLapTempData.PenaltyEntryTime
      PenaltyExitTime := e.Timestamp
      PenaltiesServed := c.CurrentLapTempData.PenaltiesToServe })
    (hinv : LapsInv c) (h : ∀ lap ∈ c.LapsData, Q lap) :
    ∃ r, stepCompetitor config c e = some r ∧ LapsInv r.1 ∧ ∀ lap ∈ r.1.LapsData, Q lap := by
  obtain ⟨r, hr, hri⟩ := stepCompetitor_lapsInv config c e hinv
  refine ⟨r, hr, hri, ?_⟩
  unfold stepCompetitor at hr
  generalize hc1 : ({ c with LastEventTime := e.Timestamp } : Competitor) = c1 at hr
  have hinv1 : LapsInv c1 := by rw [← hc1]; exact hinv
  have h1 : ∀ lap ∈ c1.LapsData, Q lap := by rw [← hc1]; exact h
  have hsess1 : e.ID = EventLeftFiringRange → ∀ lap, Q lap →
      Q { lap with ShootingData := lap.ShootingData ++ [sessionRecord c1 e] } := by
    rw [← hc1]; exact hsess
  have hpen1 : e.ID = EventLeftPenaltyLaps → ∀ lap, Q lap → Q { lap with
      PenaltyEntryTime := c1.CurrentLapTempData.PenaltyEntryTime
      PenaltyExitTime := e.Timestamp
      PenaltiesServed := c1.CurrentLapTempData.PenaltiesToServe } := by
    rw [← hc1]; exact hpen
  clear hc1 h hsess hpen hinv
  have hclose : ∀ lap ∈ closeLap c1 e, Q lap := by
    unfold closeLap
    split_ifs
    · exact forall_mem_modify Q _ hend _ _ h1
    · exact h1
  revert hr
  refine applyEvent_cases (motive := fun o => o = some r → ∀ lap ∈ r.1.LapsData, Q lap)
    config c1 e ?_ ?_ ?_ ?_ ?_ ?_ ?_ ?_ ?_ ?_ ?_
  · intro _ hr; simp only [Option.some.injEq] at hr; subst hr; exact h1
  · intro _ hr; simp only [Option.some.injEq] at hr; subst hr; exact h1
  · intro _ hr
    simp only [Option.some.injEq] at hr; subst hr
    rw [caseStarted_fst]
    split_ifs
    · exact h1
    · exact forall_mem_append_one Q _ _ h1 (hnew 1)
    · exact h1
  · intro _ hr; simp only [Option.some.injEq] at hr; subst hr; exact h1
  · intro _ hr; simp only [Option.some.injEq] at hr; subst hr; exact h1
  · intro he hr
    simp only [Option.some.injEq] at hr; subst hr
    rw [caseLeftFiringRange_fst]
    dsimp only
    split_ifs
    · exact forall_mem_modify Q _ (hsess1 he) _ _ h1
    · exact h1
  · intro _ hr; simp only [Option.some.injEq] at hr; subst hr; exact h1
  · intro he hr
    simp only [Option.some.injEq] at hr; subst hr
    rw [caseLeftPenaltyLaps_fst]
    dsimp only
    split_ifs
    · exact forall_mem_modify Q _ (hpen1 he) _ _ h1
    · exact h1
  · intro _ hr
    by_cases hc : c1.CurrentLapNumber = config.Laps
    · rw [caseEndedMainLap_last config c1 e hc] at hr
      simp only [Option.some.injEq] at hr; subst hr
      exact hclose
    · rw [caseEndedMainLap_next config c1 e hc hinv1.1 hinv1.2.1] at hr
      simp only [Option.some.injEq] at hr; subst hr
      dsimp only
      split_ifs
      · exact forall_mem_append_one Q _ _ hclose (hnew _)
      · exact forall_mem_modify Q _ hstart _ _ hclose
  · intro _ hr; simp only [Option.some.injEq] at hr; subst hr; exact h1
  · intro _ _ _ _ _ _ _ _ _ _ hr
    simp only [Option.some.injEq] at hr; subst hr; exact h1

theorem checkNotStarted_lapsData (c : Competitor) : (checkNotStarted c).LapsData = c.LapsData := by
  rw [checkNotStarted_eq]

theorem checkNotStarted_lapsInv (c : Competitor) (h : LapsInv c) : LapsInv (checkNotStarted c) := by
  rw [checkNotStarted_eq]; exact h

/-- A property of records that holds of a new record and that every event
keeps, without aborting, holds of every record after Run on a fresh
simulation, provided checkForNotStarted keeps it. -/
theorem run_invariant (config : Config) (P : Competitor → Prop)
    (hnew : ∀ id, P (NewCompetitor id))
    (hstep : ∀ c e, P c → ∃ r, stepCompetitor config c e = some r ∧ P r.1)
    (hcheck : ∀ c, P c → P (checkNotStarted c)) (evs : List Event) :
    ∃ s, Run (NewSimulation config) evs = some s ∧ s.Config = config ∧
      ∀ id c, s.Competitors id = some c → P c := by
  obtain ⟨s0, hs0, hcfg, hP⟩ := processEvents_invariant config P hnew hstep (sortEvents evs)
    (NewSimulation config) rfl (by intro k c h; simp [NewSimulation] at h)
  refine ⟨checkForNotStarted s0, by simp [Run, hs0], hcfg, ?_⟩
  intro id c hc
  simp only [checkForNotStarted] at hc
  cases hc0 : s0.Competitors id with
  | none => rw [hc0] at hc; simp at hc
  | some c0 =>
    rw [hc0] at hc
    simp only [Option.map_some', Option.some.injEq] at hc
    rw [← hc]
    exact hcheck c0 (hP id c0 hc0)

theorem stepCompetitor_sessionsInv (config : Config) (c : Competitor) (e : Event)
    (h : LapsInv c ∧ SessionsInv c) :
    ∃ r, stepCompetitor config c e = some r ∧ (LapsInv r.1 ∧ SessionsInv r.1) := by
  obtain ⟨r, hr, hri, hq⟩ := stepCompetitor_forall_laps
    (fun lap => ∀ sr ∈ lap.ShootingData, sr.Shots = 5 ∧ sr.PenaltiesIncurred = sr.Shots - sr.Hits)
    config c e
    (fun _ sr hsr => by simp at hsr)
    (fun _ hl => hl) (fun _ hl => hl)
    (fun _ lap hl sr hsr => by
      rcases List.mem_append.1 hsr with hsr | hsr
      · exact hl sr hsr
      · rw [List.mem_singleton.1 hsr]; exact ⟨rfl, rfl⟩)
    (fun _ _ hl => hl) h.1 h.2
  exact ⟨r, hr, hri, hq⟩

/-- Effect of one event on the hit counter of the session in progress:
OnFiringRange resets it, TargetHit adds one, no other event touches it. -/
theorem stepCompetitor_hits (config : Config) (c : Competitor) (e : Event) (h : LapsInv c) :
    ∃ r, stepCompetitor config c e = some r ∧
      (e.ID = EventOnFiringRange → r.1.CurrentLapTempData.HitsInSession = 0) ∧
      (e.ID = EventTargetHit →
        r.1.CurrentLapTempData.HitsInSession = c.CurrentLapTempData.HitsInSession + 1) ∧
      (e.ID ≠ EventOnFiringRange → e.ID ≠ EventTargetHit →
        r.1.CurrentLapTempData.HitsInSession = c.CurrentLapTempData.HitsInSession) := by
  obtain ⟨r, hr, _⟩ := stepCompetitor_lapsInv config c e h
  refine ⟨r, hr, ?_⟩
  unfold stepCompetitor at hr
  generalize hc1 : ({ c with LastEventTime := e.Timestamp } : Competitor) = c1 at hr
  have hinv1 : LapsInv c1 := by rw [← hc1]; exact h
  have hh : c.CurrentLapTempData = c1.CurrentLapTempData := by rw [← hc1]
  rw [hh]
  clear hc1 h hh
  revert hr
  refine applyEvent_cases (motive := fun o => o = some r →
      (e.ID = EventOnFiringRange → r.1.CurrentLapTempData.HitsInSession = 0) ∧
      (e.ID = EventTargetHit →
        r.1.CurrentLapTempData.HitsInSession = c1.CurrentLapTempData.HitsInSession + 1) ∧
      (e.ID ≠ EventOnFiringRange → e.ID ≠ EventTargetHit →
        r.1.CurrentLapTempData.HitsInSession = c1.CurrentLapTempData.HitsInSession))
    config c1 e ?_ ?_ ?_ ?_ ?_ ?_ ?_ ?_ ?_ ?_ ?_
  · intro he hr
    simp only [Option.some.injEq] at hr; subst hr
    exact ⟨fun x => by rw [he] at x; exact absurd x (by decide),
      fun x => by rw [he] at x; exact absurd x (by decide), fun _ _ => rfl⟩
  · intro he hr
    simp only [Option.some.injEq] at hr; subst hr
    exact ⟨fun x => by rw [he] at x; exact absurd x (by decide),
      fun x => by rw [he] at x; exact absurd x (by decide), fun _ _ => rfl⟩
  · intro he hr
    simp only [Option.some.injEq] at hr; subst hr
    refine ⟨fun x => by rw [he] at x; exact absurd x (by decide),
      fun x => by rw [he] at x; exact absurd x (by decide), fun _ _ => ?_⟩
    rw [caseStarted_fst]
    split_ifs <;> rfl
  · intro he hr
    simp only [Option.some.injEq] at hr; subst hr
    exact ⟨fun _ => rfl, fun x => by rw [he] at x; exact absurd x (by decide),
      fun x => absurd he x⟩
  · intro he hr
    simp only [Option.some.injEq] at hr; subst hr
    exact ⟨fun x => by rw [he] at x; exact absurd x (by decide), fun _ => rfl,
      fun _ x => absurd he x⟩
  · intro he hr
    simp only [Option.some.injEq] at hr; subst hr
    refine ⟨fun x => by rw [he] at x; exact absurd x (by decide),
      fun x => by rw [he] at x; exact absurd x (by decide), fun _ _ => ?_⟩
    rw [caseLeftFiringRange_fst]
  · intro he hr
    simp only [Option.some.injEq] at hr; subst hr
    exact ⟨fun x => by rw [he] at x; exact absurd x (by decide),
      fun x => by rw [he] at x; exact absurd x (by decide), fun _ _ => rfl⟩
  · intro he hr
    simp only [Option.some.injEq] at hr; subst hr
    refine ⟨fun x => by rw [he] at x; exact absurd x (by decide),
      fun x => by rw [he] at x; exact absurd x (by decide), fun _ _ => ?_⟩
    rw [caseLeftPenaltyLaps_fst]
  · intro he hr
    refine ⟨fun x => by rw [he] at x; exact absurd x (by decide),
      fun x => by rw [he] at x; exact absurd x (by decide), fun _ _ => ?_⟩
    by_cases hc : c1.CurrentLapNumber = config.Laps
    · rw [caseEndedMainLap_last config c1 e hc] at hr
      simp only [Option.some.injEq] at hr; subst hr; rfl
    · rw [caseEndedMainLap_next config c1 e hc hinv1.1 hinv1.2.1] at hr
      simp only [Option.some.injEq] at hr; subst hr; rfl
  · intro he hr
    simp only [Option.some.injEq] at hr; subst hr
    exact ⟨fun x => by rw [he] at x; exact absurd x (by decide),
      fun x => by rw [he] at x; exact absurd x (by decide), fun _ _ => rfl⟩
  · intro _ _ _ h5 h6 _ _ _ _ _ hr
    simp only [Option.some.injEq] at hr; subst hr
    exact ⟨fun x => absurd x h5, fun x => absurd x h6, fun _ _ => rfl⟩

theorem stepCompetitor_hitsInv (config : Config) (c : Competitor) (e : Event) (h : HitsInv c) :
    ∃ r, stepCompetitor config c e = some r ∧ HitsInv r.1 := by
  obtain ⟨hinv, hpos, hq⟩ := h
  obtain ⟨r, hr, hri, hq1⟩ := stepCompetitor_forall_laps
    (fun lap => ∀ sr ∈ lap.ShootingData, 0 ≤ sr.Hits ∧ sr.PenaltiesIncurred = 5 - sr.Hits)
    config c e
    (fun _ sr hsr => by simp at hsr)
    (fun _ hl => hl) (fun _ hl => hl)
    (fun _ lap hl sr hsr => by
      rcases List.mem_append.1 hsr with hsr | hsr
      · exact hl sr hsr
      · rw [List.mem_singleton.1 hsr]; exact ⟨hpos, rfl⟩)
    (fun _ _ hl => hl) hinv hq
  obtain ⟨r1, hr1, h5, h6, hother⟩ := stepCompetitor_hits config c e hinv
  rw [hr] at hr1
  simp only [Option.some.injEq] at hr1
  subst hr1
  refine ⟨r, hr, hri, ?_, hq1⟩
  by_cases he5 : e.ID = EventOnFiringRange
  · rw [h5 he5]
  · by_cases he6 : e.ID = EventTargetHit
    · rw [h6 he6]; omega
    · rw [hother he5 he6]; exact hpos

/-- CalculateResults on a lap a second time changes nothing. -/
theorem calculateLap_idem (config : Config) (lap : LapRecord) :
    calculateLap config (calculateLap config lap) = calculateLap config lap := by
  unfold calculateLap
  by_cases h : Time.IsZero lap.StartTime = false ∧ Time.IsZero lap.EndTime = false
  · simp only [h, and_self, if_true]
    by_cases hd : Time.Sub lap.EndTime lap.StartTime > 0
    · simp only [hd, if_true, h, and_self]
    · simp only [hd, if_false, h, and_self, if_true]
  · simp only [h, if_false]

theorem finalStatus_idem (config : Config) (c : Competitor) :
    finalStatus (finalizeCompetitor config c) = finalStatus c := by
  rw [finalizeCompetitor_eq]
  unfold finalStatus
  dsimp only
  cases hs : c.Status <;> split_ifs <;> simp_all

/-- FinalizeResults on one record a second time changes nothing. -/
theorem finalizeCompetitor_idem (config : Config) (c : Competitor) :
    finalizeCompetitor config (finalizeCompetitor config c) = finalizeCompetitor config c := by
  have hs := finalStatus_idem config c
  rw [finalizeCompetitor_eq config (finalizeCompetitor config c), hs]
  rw [finalizeCompetitor_eq config c]
  simp only [List.map_map]
  congr 1
  apply List.map_congr_left
  intro lap _
  exact calculateLap_idem config lap

/-- After checkForNotStarted a record that is still Registered or Scheduled
has its ActualStartTime set. -/
theorem checkNotStarted_initial_status (c0 : Competitor)
    (h : (checkNotStarted c0).Status = .Registered ∨ (checkNotStarted c0).Status = .Scheduled) :
    Time.IsZero (checkNotStarted c0).ActualStartTime = false := by
  rw [checkNotStarted_eq] at h ⊢
  dsimp only at h ⊢
  by_cases hz : Time.IsZero c0.ActualStartTime = true
  · by_cases hs : c0.Status = .Registered ∨ c0.Status = .Scheduled
    · simp [hz, hs] at h
    · simp only [hz, hs, and_false, if_false] at h
  · simpa using hz

/-- Status change that FinalizeResults makes on a record that Run produced:
none, or to NotStarted for a record with a scheduled but no actual start time
that is Racing, OnRange, InPenalty or Completed. -/
theorem finalStatus_after_check (c0 : Competitor)
    (h : finalStatus (checkNotStarted c0) ≠ (checkNotStarted c0).Status) :
    finalStatus (checkNotStarted c0) = .NotStarted ∧
      Time.IsZero (checkNotStarted c0).ScheduledStartTime = false ∧
      Time.IsZero (checkNotStarted c0).ActualStartTime = true ∧
      ((checkNotStarted c0).Status = .Racing ∨ (checkNotStarted c0).Status = .OnRange ∨
        (checkNotStarted c0).Status = .InPenalty ∨ (checkNotStarted c0).Status = .Completed) := by
  have hinit := checkNotStarted_initial_status c0
  generalize checkNotStarted c0 = c at h hinit ⊢
  unfold finalStatus at h ⊢
  by_cases h1 : Time.IsZero c.ScheduledStartTime = false ∧ Time.IsZero c.ActualStartTime = true ∧
      c.Status ≠ .Disqualified ∧ c.Status ≠ .NotFinished
  · rw [if_pos h1] at h ⊢
    refine ⟨rfl, h1.1, h1.2.1, ?_⟩
    obtain ⟨_, hz, hd, hf⟩ := h1
    cases hs : c.Status
    · exact absurd (hinit (Or.inl hs)) (by simp [hz])
    · exact absurd (hinit (Or.inr hs)) (by simp [hz])
    · exact Or.inl rfl
    · exact Or.inr (Or.inl rfl)
    · exact Or.inr (Or.inr (Or.inl rfl))
    · exact Or.inr (Or.inr (Or.inr rfl))
    · exact absurd hs.symm h
    · exact absurd hs hf
    · exact absurd hs hd
  · rw [if_neg h1] at h ⊢
    by_cases h2 : Time.IsZero c.ScheduledStartTime = true ∧ Time.IsZero c.ActualStartTime = true ∧
        c.Status = .Registered
    · exact absurd (hinit (Or.inl h2.2.2)) (by simp [h2.2.1])
    · rw [if_neg h2] at h
      exact absurd rfl h

/-- A property of lap records that holds of a newly opened lap record and is
kept by the four updates of the event loop holds of every lap record after
Run on a fresh simulation. -/
theorem run_forall_laps (Q : LapRecord → Prop) (config : Config) (evs : List Event)
    (hnew : ∀ (n : Int) (t : Time), Q { LapNumber := n, StartTime := t, ShootingData := [] })
    (hend : ∀ lap (t : Time), Q lap → Q { lap with EndTime := t })
    (hstart : ∀ lap (t : Time), Q lap → Q { lap with StartTime := t })
    (hsess : ∀ lap sr, Q lap → Q { lap with ShootingData := lap.ShootingData ++ [sr] })
    (hpen : ∀ lap (a b : Time) (n : Int), Q lap →
      Q { lap with PenaltyEntryTime := a, PenaltyExitTime := b, PenaltiesServed := n }) :
    ∃ s, Run (NewSimulation config) evs = some s ∧ s.Config = config ∧
      ∀ id c, s.Competitors id = some c → LapsInv c ∧ ∀ lap ∈ c.LapsData, Q lap := by
  apply run_invariant config (fun c => LapsInv c ∧ ∀ lap ∈ c.LapsData, Q lap)
  · intro id
    exact ⟨lapsInv_new id, by intro lap hl; simp [NewCompetitor] at hl⟩
  · intro c e hc
    exact stepCompetitor_forall_laps Q config c e (fun n => hnew n _) (fun lap => hend lap _)
      (fun lap => hstart lap _) (fun _ lap => hsess lap _) (fun _ lap => hpen lap _ _ _)
      hc.1 hc.2
  · intro c hc
    exact ⟨checkNotStarted_lapsInv c hc.1, by rw [checkNotStarted_lapsData]; exact hc.2⟩

theorem calculateLap_eq (config : Config) (lap : LapRecord) :
    calculateLap config lap =
      if Time.IsZero lap.StartTime = false ∧ Time.IsZero lap.EndTime = false then
        { lap with
          LapDuration := Time.Sub lap.EndTime lap.StartTime
          AverageSpeed :=
            if Time.Sub lap.EndTime lap.StartTime > 0 then
              float64Div (float64OfInt config.LapLen)
                (Duration.Seconds (Time.Sub lap.EndTime lap.StartTime))
            else lap.AverageSpeed }
      else lap := by
  unfold calculateLap
  dsimp only
  split_ifs <;> rfl

/-- CalculateResults on a lap whose derived fields are still zero. -/
theorem calculateLap_fresh (config : Config) (lap0 : LapRecord)
    (h0 : lap0.LapDuration = 0 ∧ lap0.AverageSpeed = 0)
    (hs : Time.IsZero (calculateLap config lap0).StartTime = false)
    (he : Time.IsZero (calculateLap config lap0).EndTime = false) :
    (calculateLap config lap0).LapDuration =
        Time.Sub (calculateLap config lap0).EndTime (calculateLap config lap0).StartTime ∧
      (0 < (calculateLap config lap0).LapDuration →
        (calculateLap config lap0).AverageSpeed =
          float64Div (float64OfInt config.LapLen)
            (Duration.Seconds (calculateLap config lap0).LapDuration)) ∧
      (¬ 0 < (calculateLap config lap0).LapDuration →
        (calculateLap config lap0).AverageSpeed = 0) := by
  have hst : (calculateLap config lap0).StartTime = lap0.StartTime := by
    rw [calculateLap_eq]; split_ifs <;> rfl
  have hen : (calculateLap config lap0).EndTime = lap0.EndTime := by
    rw [calculateLap_eq]; split_ifs <;> rfl
  rw [hst] at hs
  rw [hen] at he
  rw [hst, hen, calculateLap_eq, if_pos ⟨hs, he⟩]
  dsimp only
  by_cases hd : Time.Sub lap0.EndTime lap0.StartTime > 0
  · rw [if_pos hd]
    exact ⟨rfl, fun _ => rfl, fun hn => absurd hd hn⟩
  · rw [if_neg hd]
    exact ⟨rfl, fun hp => absurd hp hd, fun _ => h0.2⟩

theorem sub_of_in_range (t u : Time)
    (h : @LE.le Int _ minDuration (t - u) ∧ @LE.le Int _ (t - u) maxDuration) :
    Time.Sub t u = t - u := by
  unfold Time.Sub
  rw [if_neg (not_lt.2 h.1), if_neg (not_lt.2 h.2)]

/-- One event changes the pending penalty-loop entry time of the record only
when it is an EnteredPenaltyLaps event, which sets it to the event's time. -/
theorem stepCompetitor_penaltyEntry (config : Config) (c : Competitor) (e : Event)
    (h : LapsInv c) :
    ∃ r, stepCompetitor config c e = some r ∧
      (e.ID = EventEnteredPenaltyLaps →
        r.1.CurrentLapTempData.PenaltyEntryTime = e.Timestamp) ∧
      (e.ID ≠ EventEnteredPenaltyLaps →
        r.1.CurrentLapTempData.PenaltyEntryTime = c.CurrentLapTempData.PenaltyEntryTime) := by
  obtain ⟨r, hr, _⟩ := stepCompetitor_lapsInv config c e h
  refine ⟨r, hr, ?_⟩
  unfold stepCompetitor at hr
  generalize hc1 : ({ c with LastEventTime := e.Timestamp } : Competitor) = c1 at hr
  have hinv1 : LapsInv c1 := by rw [← hc1]; exact h
  have hh : c.CurrentLapTempData = c1.CurrentLapTempData := by rw [← hc1]
  rw [hh]
  clear hc1 h hh
  revert hr
  refine applyEvent_cases (motive := fun o => o = some r →
      (e.ID = EventEnteredPenaltyLaps →
        r.1.CurrentLapTempData.PenaltyEntryTime = e.Timestamp) ∧
      (e.ID ≠ EventEnteredPenaltyLaps →
        r.1.CurrentLapTempData.PenaltyEntryTime = c1.CurrentLapTempData.PenaltyEntryTime))
    config c1 e ?_ ?_ ?_ ?_ ?_ ?_ ?_ ?_ ?_ ?_ ?_
  · intro he hr
    simp only [Option.some.injEq] at hr; subst hr
    exact ⟨fun x => by rw [he] at x; exact absurd x (by decide), fun _ => rfl⟩
  · intro he hr
    simp only [Option.some.injEq] at hr; subst hr
    exact ⟨fun x => by rw [he] at x; exact absurd x (by decide), fun _ => rfl⟩
  · intro he hr
    simp only [Option.some.injEq] at hr; subst hr
    refine ⟨fun x => by rw [he] at x; exact absurd x (by decide), fun _ => ?_⟩
    rw [caseStarted_fst]
    split_ifs <;> rfl
  · intro he hr
    simp only [Option.some.injEq] at hr; subst hr
    exact ⟨fun x => by rw [he] at x; exact absurd x (by decide), fun _ => rfl⟩
  · intro he hr
    simp only [Option.some.injEq] at hr; subst hr
    exact ⟨fun x => by rw [he] at x; exact absurd x (by decide), fun _ => rfl⟩
  · intro he hr
    simp only [Option.some.injEq] at hr; subst hr
    refine ⟨fun x => by rw [he] at x; exact absurd x (by decide), fun _ => ?_⟩
    rw [caseLeftFiringRange_fst]
  · intro he hr
    simp only [Option.some.injEq] at hr; subst hr
    exact ⟨fun _ => rfl, fun x => absurd he x⟩
  · intro he hr
    simp only [Option.some.injEq] at hr; subst hr
    refine ⟨fun x => by rw [he] at x; exact absurd x (by decide), fun _ => ?_⟩
    rw [caseLeftPenaltyLaps_fst]
  · intro he hr
    refine ⟨fun x => by rw [he] at x; exact absurd x (by decide), fun _ => ?_⟩
    by_cases hc : c1.CurrentLapNumber = config.Laps
    · rw [caseEndedMainLap_last config c1 e hc] at hr
      simp only [Option.some.injEq] at hr; subst hr; rfl
    · rw [caseEndedMainLap_next config c1 e hc hinv1.1 hinv1.2.1] at hr
      simp only [Option.some.injEq] at hr; subst hr; rfl
  · intro he hr
    simp only [Option.some.injEq] at hr; subst hr
    exact ⟨fun x => by rw [he] at x; exact absurd x (by decide), fun _ => rfl⟩
  · intro _ _ _ _ _ _ h8 _ _ _ hr
    simp only [Option.some.injEq] at hr; subst hr
    exact ⟨fun x => absurd x h8, fun _ => rfl⟩

/-- One event keeps PenaltyInv when a LeftPenaltyLaps event finds a pending
entry time and carries a time that are both set. -/
theorem stepCompetitor_penaltyInv (config : Config) (c : Competitor) (e : Event)
    (h : PenaltyInv c)
    (hleft : e.ID = EventLeftPenaltyLaps →
      Time.IsZero c.CurrentLapTempData.PenaltyEntryTime = false ∧
        Time.IsZero e.Timestamp = false) :
    ∃ r, stepCompetitor config c e = some r ∧ PenaltyInv r.1 := by
  obtain ⟨r, hr, hri, hq⟩ := stepCompetitor_forall_laps
    (fun lap => lap.PenaltiesServed = 0 ∨
      (Time.IsZero lap.PenaltyEntryTime = false ∧ Time.IsZero lap.PenaltyExitTime = false))
    config c e
    (fun _ => Or.inl rfl)
    (fun _ hl => hl) (fun _ hl => hl) (fun _ _ hl => hl)
    (fun he _ _ => Or.inr (hleft he)) h.1 h.2
  exact ⟨r, hr, hri, hq⟩

/-- Replay keeps PenaltyInv when the penalty-loop events carry set times and
an entry time is pending or no LeftPenaltyLaps event comes before the first
EnteredPenaltyLaps event. -/
theorem replay_penaltyInv (config : Config) :
    ∀ (xs : List Event) (c : Competitor), PenaltyInv c →
      (∀ e ∈ xs, e.ID = EventEnteredPenaltyLaps ∨ e.ID = EventLeftPenaltyLaps →
        Time.IsZero e.Timestamp = false) →
      (Time.IsZero c.CurrentLapTempData.PenaltyEntryTime = false ∨
        ∀ e ∈ xs.takeWhile (fun e => e.ID ≠ EventEnteredPenaltyLaps),
          e.ID ≠ EventLeftPenaltyLaps) →
      ∃ c1, replay config c xs = some c1 ∧ PenaltyInv c1 := by
  intro xs
  induction xs with
  | nil => intro c hc _ _; exact ⟨c, rfl, hc⟩
  | cons e es ih =>
    intro c hc htime hflag
    have htime1 : ∀ e1 ∈ es, e1.ID = EventEnteredPenaltyLaps ∨ e1.ID = EventLeftPenaltyLaps →
        Time.IsZero e1.Timestamp = false :=
      fun e1 he1 => htime e1 (List.mem_cons_of_mem _ he1)
    have hleft : e.ID = EventLeftPenaltyLaps →
        Time.IsZero c.CurrentLapTempData.PenaltyEntryTime = false ∧
          Time.IsZero e.Timestamp = false := by
      intro he
      refine ⟨?_, htime e (List.mem_cons_self _ _) (Or.inr he)⟩
      rcases hflag with hz | hno
      · exact hz
      · have hne : e.ID ≠ EventEnteredPenaltyLaps := by rw [he]; decide
        have hmem : e ∈ (e :: es).takeWhile (fun e => e.ID ≠ EventEnteredPenaltyLaps) := by
          rw [List.takeWhile_cons_of_pos (by simpa using hne)]
          exact List.mem_cons_self _ _
        exact absurd he (hno e hmem)
    obtain ⟨r, hr, hinv⟩ := stepCompetitor_penaltyInv config c e hc hleft
    obtain ⟨r1, hr1, hset, hkeep⟩ := stepCompetitor_penaltyEntry config c e hc.1
    rw [hr] at hr1
    simp only [Option.some.injEq] at hr1
    subst hr1
    rw [replay_cons_of_step config c e es r hr]
    apply ih r.1 hinv htime1
    by_cases he : e.ID = EventEnteredPenaltyLaps
    · left
      rw [hset he]
      exact htime e (List.mem_cons_self _ _) (Or.inl he)
    · rcases hflag with hz | hno
      · left
        rw [hkeep he]
        exact hz
      · right
        intro e1 he1
        apply hno e1
        rw [List.takeWhile_cons_of_pos (by simpa using he)]
        exact List.mem_cons_of_mem _ he1

/-- The loop of CalculatePenaltyStats adds up every PenaltiesServed counter
when the laps with a counter other than zero have both penalty-loop times
set. -/
theorem foldl_penaltyStep_snd :
    ∀ (laps : List LapRecord) (totals : Duration × Int),
      (∀ lap ∈ laps, lap.PenaltiesServed = 0 ∨
        (Time.IsZero lap.PenaltyEntryTime = false ∧ Time.IsZero lap.PenaltyExitTime = false)) →
      (laps.foldl penaltyStep totals).2 =
        totals.2 + (laps.map (fun lap => lap.PenaltiesServed)).sum := by
  intro laps
  induction laps with
  | nil => intro totals _; simp
  | cons lap rest ih =>
    intro totals h
    rw [List.foldl_cons, ih _ (fun l hl => h l (List.mem_cons_of_mem _ hl))]
    simp only [List.map_cons, List.sum_cons]
    have hlap := h lap (List.mem_cons_self _ _)
    unfold penaltyStep
    by_cases hc : Time.IsZero lap.PenaltyEntryTime = false ∧
        Time.IsZero lap.PenaltyExitTime = false
    · rw [if_pos hc]
      dsimp only
      omega
    · rw [if_neg hc]
      rcases hlap with h0 | h1
      · rw [h0]; omega
      · exact absurd h1 hc

/-! ### The lines of the log -/

theorem head_data_append (a b : String) (c : Char) (h : a.data.head? = some c) :
    (a ++ b).data.head? = some c := by
  rw [String.data_append]
  cases ha : a.data with
  | nil => rw [ha] at h; simp at h
  | cons x xs => rw [ha] at h; simpa using h

theorem head_eventLine (e : Event) : (eventLine e).data.head? = some '[' := by
  unfold eventLine
  exact head_data_append _ _ _ (head_data_append _ _ _ (head_data_append _ _ _ rfl))

theorem isWarningLine_eventLine (e : Event) : isWarningLine (eventLine e) = false := by
  unfold isWarningLine
  rw [head_eventLine]
  decide

/-- The three warning templates of processEvent are warning lines. -/
theorem isWarningLine_template (a b c d : String) :
    isWarningLine ("Warning: Competitor " ++ a ++ b ++ c ++ d) = true := by
  have h : ("Warning: Competitor " ++ a ++ b ++ c ++ d).data.head? = some 'W' :=
    head_data_append _ _ _ (head_data_append _ _ _ (head_data_append _ _ _
      (head_data_append _ _ _ rfl)))
  unfold isWarningLine
  rw [h]
  decide

theorem caseStarted_snd (c : Competitor) (e : Event) :
    (caseStarted c e).2 = [] ∨ ∃ w, (caseStarted c e).2 = [w] ∧ isWarningLine w = true := by
  unfold caseStarted
  dsimp only
  split_ifs
  · exact Or.inr ⟨_, rfl, isWarningLine_template _ _ _ _⟩
  · exact Or.inl rfl
  · exact Or.inl rfl

theorem caseTargetHit_snd (c : Competitor) :
    (caseTargetHit c).2 = [] ∨ ∃ w, (caseTargetHit c).2 = [w] ∧ isWarningLine w = true := by
  unfold caseTargetHit
  dsimp only
  split_ifs
  · exact Or.inr ⟨_, rfl, isWarningLine_template _ _ _ _⟩
  · exact Or.inl rfl

theorem caseLeftFiringRange_snd (c : Competitor) (e : Event) :
    (caseLeftFiringRange c e).2 = [] ∨
      ∃ w, (caseLeftFiringRange c e).2 = [w] ∧ isWarningLine w = true := by
  unfold caseLeftFiringRange
  dsimp only
  split_ifs <;>
    first
    | exact Or.inl rfl
    | exact Or.inr ⟨_, rfl, isWarningLine_template _ _ _ _⟩

/-- One event adds to the log, after its own line, either one line for each
Finished event that it generates or at most one warning line. -/
theorem stepCompetitor_generated (config : Config) (c : Competitor) (e : Event)
    (h : LapsInv c) :
    ∃ r, stepCompetitor config c e = some r ∧ LapsInv r.1 ∧
      r.1.GeneratedEvents.length + (r.2.filter isWarningLine).length =
        c.GeneratedEvents.length + r.2.length ∧
      ∀ line ∈ r.2, isWarningLine line = true ∨ line.data.head? = some '[' := by
  obtain ⟨r, hr, hri⟩ := stepCompetitor_lapsInv config c e h
  refine ⟨r, hr, hri, ?_⟩
  unfold stepCompetitor at hr
  generalize hc1 : ({ c with LastEventTime := e.Timestamp } : Competitor) = c1 at hr
  have hinv1 : LapsInv c1 := by rw [← hc1]; exact h
  have hh : c.GeneratedEvents = c1.GeneratedEvents := by rw [← hc1]
  rw [hh]
  clear hc1 h hh hri
  have key : ∀ r : Competitor × List String, r.1.GeneratedEvents = c1.GeneratedEvents →
      (r.2 = [] ∨ ∃ w, r.2 = [w] ∧ isWarningLine w = true) →
      r.1.GeneratedEvents.length + (r.2.filter isWarningLine).length =
        c1.GeneratedEvents.length + r.2.length ∧
      ∀ line ∈ r.2, isWarningLine line = true ∨ line.data.head? = some '[' := by
    intro r hg hw
    rw [hg]
    rcases hw with hw | ⟨w, hw, hww⟩
    · rw [hw]
      exact ⟨rfl, by intro line hl; simp at hl⟩
    · rw [hw]
      refine ⟨by simp [hww], ?_⟩
      intro line hl
      rw [List.mem_singleton.1 hl]
      exact Or.inl hww
  revert hr
  refine applyEvent_cases (motive := fun o => o = some r →
      r.1.GeneratedEvents.length + (r.2.filter isWarningLine).length =
        c1.GeneratedEvents.length + r.2.length ∧
      ∀ line ∈ r.2, isWarningLine line = true ∨ line.data.head? = some '[')
    config c1 e ?_ ?_ ?_ ?_ ?_ ?_ ?_ ?_ ?_ ?_ ?_
  · intro _ hr
    simp only [Option.some.injEq] at hr; subst hr
    exact key _ rfl (Or.inl rfl)
  · intro _ hr
    simp only [Option.some.injEq] at hr; subst hr
    exact key _ rfl (Or.inl rfl)
  · intro _ hr
    simp only [Option.some.injEq] at hr; subst hr
    refine key _ ?_ (caseStarted_snd c1 e)
    rw [caseStarted_fst]
    split_ifs <;> rfl
  · intro _ hr
    simp only [Option.some.injEq] at hr; subst hr
    exact key _ rfl (Or.inl rfl)
  · intro _ hr
    simp only [Option.some.injEq] at hr; subst hr
    exact key _ rfl (caseTargetHit_snd c1)
  · intro _ hr
    simp only [Option.some.injEq] at hr; subst hr
    refine key _ ?_ (caseLeftFiringRange_snd c1 e)
    rw [caseLeftFiringRange_fst]
  · intro _ hr
    simp only [Option.some.injEq] at hr; subst hr
    exact key _ rfl (Or.inl rfl)
  · intro _ hr
    simp only [Option.some.injEq] at hr; subst hr
    refine key _ ?_ (Or.inl rfl)
    rw [caseLeftPenaltyLaps_fst]
  · intro _ hr
    by_cases hc : c1.CurrentLapNumber = config.Laps
    · rw [caseEndedMainLap_last config c1 e hc] at hr
      simp only [Option.some.injEq] at hr; subst hr
      refine ⟨?_, ?_⟩
      · simp [isWarningLine_eventLine]
      · intro line hl
        rw [List.mem_singleton.1 hl]
        exact Or.inr (head_eventLine _)
    · rw [caseEndedMainLap_next config c1 e hc hinv1.1 hinv1.2.1] at hr
      simp only [Option.some.injEq] at hr; subst hr
      exact key _ rfl (Or.inl rfl)
  · intro _ hr
    simp only [Option.some.injEq] at hr; subst hr
    exact key _ rfl (Or.inl rfl)
  · intro _ _ _ _ _ _ _ _ _ _ hr
    simp only [Option.some.injEq] at hr; subst hr
    exact key _ rfl (Or.inl rfl)

/-- A sum over a list without duplicates when the summand changes at one
member of the list only. -/
theorem sum_map_of_eq_off (f g : Int → Nat) (k : Int) :
    ∀ ids : List Int, ids.Nodup → k ∈ ids → (∀ j, j ≠ k → g j = f j) →
      (ids.map g).sum + f k = (ids.map f).sum + g k := by
  intro ids
  induction ids with
  | nil => intro _ hk _; simp at hk
  | cons a l ih =>
    intro hnd hk hoff
    rw [List.nodup_cons] at hnd
    simp only [List.map_cons, List.sum_cons]
    by_cases hka : k = a
    · subst hka
      have hl : l.map g = l.map f := by
        apply List.map_congr_left
        intro j hj
        exact hoff j (fun hjk => hnd.1 (hjk ▸ hj))
      rw [hl]
      omega
    · have hk1 : k ∈ l := by
        rcases List.mem_cons.1 hk with hk | hk
        · exact absurd hk hka
        · exact hk
      have := ih hnd.2 hk1 hoff
      rw [hoff a (fun h => hka h.symm)]
      omega

theorem generatedCount_currentRecord (s : Simulation) (id : Int) :
    (currentRecord s id).GeneratedEvents.length = generatedCount s id := by
  unfold generatedCount
  cases hk : s.Competitors id with
  | none => rw [currentRecord_of_none hk]; rfl
  | some c => rw [currentRecord_of_some hk]

/-- The event loop never aborts on records that satisfy the lap invariant, and
it adds to the log one line for each event, one line for each Finished event
that it generates and the warning lines. -/
theorem processEvents_log (config : Config) (ids : List Int) (hnd : ids.Nodup) :
    ∀ (es : List Event) (s : Simulation), s.Config = config →
      (∀ k c, s.Competitors k = some c → LapsInv c) →
      (∀ e ∈ es, e.CompetitorID ∈ ids) →
      (∀ line ∈ s.OutputLog, isWarningLine line = true ∨ line.data.head? = some '[') →
      ∃ s1, processEvents s es = some s1 ∧
        s1.OutputLog.length + (s.OutputLog.filter isWarningLine).length +
            (ids.map (generatedCount s)).sum =
          s.OutputLog.length + es.length + (ids.map (generatedCount s1)).sum +
            (s1.OutputLog.filter isWarningLine).length ∧
        ∀ line ∈ s1.OutputLog, isWarningLine line = true ∨ line.data.head? = some '[' := by
  intro es
  induction es with
  | nil =>
    intro s _ _ _ hlog
    refine ⟨s, rfl, ?_, hlog⟩
    simp only [List.length_nil]
    omega
  | cons e es ih =>
    intro s hc hs hids hlog
    have hcur : LapsInv (currentRecord s e.CompetitorID) := by
      cases hk : s.Competitors e.CompetitorID with
      | none => rw [currentRecord_of_none hk]; exact lapsInv_new _
      | some c => rw [currentRecord_of_some hk]; exact hs _ _ hk
    obtain ⟨r, hr, hri, hgen, hlines⟩ := stepCompetitor_generated config _ e hcur
    rw [generatedCount_currentRecord] at hgen
    have hpe := processEvent_eq s e
    rw [hc, hr] at hpe
    simp only [Option.map_some'] at hpe
    obtain ⟨s2, hpe⟩ : ∃ s2, processEvent s e = some s2 := ⟨_, hpe⟩
    obtain ⟨r1, hr1, hcfg, hcomp, hoff, hout⟩ := processEvent_some hpe
    rw [hc, hr] at hr1
    simp only [Option.some.injEq] at hr1
    subst hr1
    have hinv2 : ∀ k c1, s2.Competitors k = some c1 → LapsInv c1 := by
      intro k c1 hk
      by_cases hke : k = e.CompetitorID
      · rw [hke, hcomp] at hk
        simp only [Option.some.injEq] at hk
        rw [← hk]; exact hri
      · rw [hoff k hke] at hk
        exact hs k c1 hk
    have hlog2 : ∀ line ∈ s2.OutputLog,
        isWarningLine line = true ∨ line.data.head? = some '[' := by
      intro line hl
      rw [hout] at hl
      rcases List.mem_append.1 hl with hl | hl
      · rcases List.mem_append.1 hl with hl | hl
        · exact hlog line hl
        · rw [List.mem_singleton.1 hl]
          exact Or.inr (head_eventLine e)
      · exact hlines line hl
    obtain ⟨s1, hs1, hcount, hlog1⟩ := ih s2 (hcfg.trans hc) hinv2
      (fun e1 he1 => hids e1 (List.mem_cons_of_mem _ he1)) hlog2
    refine ⟨s1, by simp only [processEvents, hpe]; exact hs1, ?_, hlog1⟩
    have hsum := sum_map_of_eq_off (generatedCount s) (generatedCount s2)
      e.CompetitorID ids hnd (hids e (List.mem_cons_self _ _))
      (by intro j hj; unfold generatedCount; rw [hoff j hj])
    have hnew : generatedCount s2 e.CompetitorID = r.1.GeneratedEvents.length := by
      unfold generatedCount; rw [hcomp]
    rw [hnew] at hsum
    rw [hout] at hcount
    simp only [List.length_append, List.length_singleton, List.filter_append,
      List.filter_singleton, isWarningLine_eventLine, List.length_cons, List.length_nil,
      cond_false] at hcount ⊢
    omega

theorem generatedCount_checkForNotStarted (s : Simulation) (id : Int) :
    generatedCount (checkForNotStarted s) id = generatedCount s id := by
  unfold generatedCount checkForNotStarted
  dsimp only
  cases s.Competitors id with
  | none => rfl
  | some c =>
    simp only [Option.map_some']
    rw [checkNotStarted_eq]

/-- An event that changes no state, applied to a record that is new apart from
LastEventTime, only sets LastEventTime. -/
theorem stepCompetitor_changesNoState (config : Config) (id : Int) (t : Time) (e : Event)
    (h : changesNoState e) :
    stepCompetitor config { NewCompetitor id with LastEventTime := t } e =
      some ({ NewCompetitor id with LastEventTime := e.Timestamp }, []) := by
  obtain ⟨h2, h4, h5, h6, h7, h8, h9, h10, h11⟩ := h
  by_cases h1 : e.ID = EventRegistered
  · unfold stepCompetitor applyEvent
    rw [if_pos h1]
    rfl
  · rw [stepCompetitor_no_case config _ e h1 h2 h4 h5 h6 h7 h8 h9 h10 h11]

/-- The key set of the competitor map after a sequence of events. -/
theorem processEvents_keys (id : Int) :
    ∀ (es : List Event) (s s1 : Simulation), processEvents s es = some s1 →
      ((s1.Competitors id).isSome = true ↔
        (s.Competitors id).isSome = true ∨ ∃ e ∈ es, e.CompetitorID = id) := by
  intro es
  induction es with
  | nil =>
    intro s s1 h
    simp only [processEvents, Option.some.injEq] at h
    subst h
    simp
  | cons e es ih =>
    intro s s1 h
    simp only [processEvents] at h
    cases hpe : processEvent s e with
    | none => rw [hpe] at h; simp at h
    | some s2 =>
      rw [hpe] at h
      dsimp only at h
      obtain ⟨r, _, _, hid, hother, _⟩ := processEvent_some hpe
      rw [ih s2 s1 h]
      by_cases hke : e.CompetitorID = id
      · rw [hke] at hid
        simp [hid, hke]
      · rw [hother id (fun hh => hke hh.symm)]
        simp [hke]

/-- An event keeps a current lap number of at least 1, and a Started event
sets it to 1. -/
theorem stepCompetitor_onLap (config : Config) (c : Competitor) (e : Event) (h : LoopInv c)
    (hlap : 1 ≤ c.CurrentLapNumber ∨ e.ID = EventStarted) :
    ∃ r, stepCompetitor config c e = some r ∧ LoopInv r.1 ∧ 1 ≤ r.1.CurrentLapNumber := by
  obtain ⟨r, hr, hinv, hother, hstart, hlast, hnext⟩ := stepCompetitor_laps config c e h
  refine ⟨r, hr, hinv, ?_⟩
  by_cases h4 : e.ID = EventStarted
  · rw [(hstart h4).1]
  · have h1 : 1 ≤ c.CurrentLapNumber := hlap.resolve_right h4
    by_cases h10 : e.ID = EventEndedMainLap
    · by_cases hl : c.CurrentLapNumber = config.Laps
      · rw [(hlast h10 hl).1]; exact h1
      · rw [(hnext h10 hl).1]; omega
    · rw [(hother h4 h10).1]; exact h1

/-- After the replay of events on a record that is on a lap, or of events one
of which is a Started event, the record is on a lap. -/
theorem replay_onLap (config : Config) :
    ∀ (xs : List Event) (c : Competitor), LoopInv c →
      (1 ≤ c.CurrentLapNumber ∨ ∃ e ∈ xs, e.ID = EventStarted) →
      ∃ c1, replay config c xs = some c1 ∧ LoopInv c1 ∧ 1 ≤ c1.CurrentLapNumber := by
  intro xs
  induction xs with
  | nil =>
    intro c hc h
    rcases h with h | ⟨e, he, _⟩
    · exact ⟨c, rfl, hc, h⟩
    · simp at he
  | cons e es ih =>
    intro c hc h
    by_cases hnow : 1 ≤ c.CurrentLapNumber ∨ e.ID = EventStarted
    · obtain ⟨r, hr, hinv, hlap⟩ := stepCompetitor_onLap config c e hc hnow
      simp only [replay, hr]
      exact ih r.1 hinv (Or.inl hlap)
    · obtain ⟨r, hr, hinv⟩ := stepCompetitor_loopInv config c e hc
      simp only [replay, hr]
      apply ih r.1 hinv
      right
      rcases h with h | ⟨e1, he1, hid⟩
      · exact absurd (Or.inl h) hnow
      · rcases List.mem_cons.1 he1 with rfl | hmem
        · exact absurd (Or.inr hid) hnow
        · exact ⟨e1, hmem, hid⟩

theorem wrapInt64_of_range (x : Int) (h1 : -(2 ^ 63) ≤ x) (h2 : x < 2 ^ 63) :
    wrapInt64 x = x := by
  unfold wrapInt64
  norm_num at h1 h2 ⊢
  omega

theorem sprintfPad_natCast (w n : Nat) : sprintfPad w (n : Int) = padZero w n := by
  unfold sprintfPad
  rw [if_neg (by omega)]
  simp

theorem length_padZero (w n : Nat) (h : (toString n).length ≤ w) : (padZero w n).length = w := by
  unfold padZero
  rw [String.length_append]
  simp only [String.length, List.length_replicate]
  simp only [String.length] at h
  omega

theorem length_padZero_two (n : Nat) (h : n < 100) : (padZero 2 n).length = 2 :=
  length_padZero 2 n (Nat.repr_length n 2 (by decide) (by simpa using h))

theorem length_padZero_three (n : Nat) (h : n < 1000) : (padZero 3 n).length = 3 :=
  length_padZero 3 n (Nat.repr_length n 3 (by decide) (by simpa using h))

/-- FormatDuration of a duration that is not negative, in terms of its whole
milliseconds. -/
theorem formatDuration_natCast (n : Nat) :
    FormatDuration (n : Int) =
      padZero 2 (n / 1000000 / 3600000) ++ ":" ++
        padZero 2 (n / 1000000 % 3600000 / 60000) ++ ":" ++
        padZero 2 (n / 1000000 % 60000 / 1000) ++ "." ++ padZero 3 (n / 1000000 % 1000) := by
  have hn : ¬ @LT.lt Int _ (n : Int) 0 := by omega
  unfold FormatDuration
  rw [if_neg hn]
  have e1 : Int.tdiv (n : Int) 1000000 = ((n / 1000000 : Nat) : Int) := rfl
  have e2 : ((1000 : Int) * 60 * 60) = ((3600000 : Nat) : Int) := by norm_num
  have e3 : ((1000 : Int) * 60) = ((60000 : Nat) : Int) := by norm_num
  have e4 : (1000 : Int) = ((1000 : Nat) : Int) := by norm_num
  dsimp only
  rw [e1, e2, e3, e4]
  simp only [← Int.ofNat_tdiv, ← Int.ofNat_tmod, sprintfPad_natCast]
  have m1 : n / 1000000 % 3600000 % 60000 = n / 1000000 % 60000 :=
    Nat.mod_mod_of_dvd _ (by decide)
  have m2 : n / 1000000 % 60000 % 1000 = n / 1000000 % 1000 :=
    Nat.mod_mod_of_dvd _ (by decide)
  rw [m1, m2]

/-- FormatDuration of any duration other than the least one, in terms of the
whole milliseconds of its absolute value. -/
theorem formatDuration_eq (d : Duration) (hmin : minDuration < d) :
    FormatDuration d =
      padZero 2 (d.natAbs / 1000000 / 3600000) ++ ":" ++
        padZero 2 (d.natAbs / 1000000 % 3600000 / 60000) ++ ":" ++
        padZero 2 (d.natAbs / 1000000 % 60000 / 1000) ++ "." ++
        padZero 3 (d.natAbs / 1000000 % 1000) := by
  have hmin1 : @LT.lt Int _ (-9223372036854775808) d := by
    have h := hmin
    unfold minDuration at h
    norm_num at h
    exact h
  by_cases hd : @LT.lt Int _ d 0
  · have hw : wrapInt64 (-d) = ((d.natAbs : Nat) : Int) := by
      rw [wrapInt64_of_range (-d) (by norm_num; omega) (by norm_num; omega)]
      omega
    have hn : ¬ @LT.lt Int _ ((d.natAbs : Nat) : Int) 0 := by omega
    have hstep : FormatDuration d = FormatDuration ((d.natAbs : Nat) : Int) := by
      conv_lhs => unfold FormatDuration
      conv_rhs => unfold FormatDuration
      rw [if_pos hd, if_neg hn, hw]
    rw [hstep, formatDuration_natCast]
  · have hnat : d = ((d.natAbs : Nat) : Int) := by
      show @Eq Int d _
      omega
    conv_lhs => rw [hnat]
    rw [formatDuration_natCast]

theorem isDigit_ne {a : Char} (ha : a.isDigit = true) (c : Char) (hc : c.isDigit = false) :
    a ≠ c := by
  intro h; rw [h, hc] at ha; exact Bool.noConfusion ha

theorem getnum_two (a b : Char) (rest : List Char) (fixed : Bool)
    (ha : a.isDigit = true) (hb : b.isDigit = true) :
    getnum (a :: b :: rest) fixed = some (digitVal a * 10 + digitVal b, rest) := by
  simp [getnum, ha, hb]

/-- What `getnum` accepts: one digit (when `fixed` is false) or two. -/
theorem getnum_some {s rest : List Char} {fixed : Bool} {n : Nat}
    (h : getnum s fixed = some (n, rest)) :
    (∃ a, s = a :: rest ∧ a.isDigit = true ∧ fixed = false) ∨
      ∃ a b, s = a :: b :: rest ∧ a.isDigit = true ∧ b.isDigit = true := by
  unfold getnum at h
  cases s with
  | nil => simp at h
  | cons a r =>
    dsimp only at h
    by_cases ha : a.isDigit = false
    · rw [if_pos ha] at h; simp at h
    · rw [if_neg ha] at h
      have ha1 : a.isDigit = true := by simpa using ha
      cases r with
      | nil =>
        dsimp only at h
        cases fixed with
        | true => simp at h
        | false =>
          simp only [Bool.false_eq_true, if_false, Option.some.injEq, Prod.mk.injEq] at h
          exact Or.inl ⟨a, by rw [← h.2], ha1, rfl⟩
      | cons b r1 =>
        dsimp only at h
        by_cases hb : b.isDigit = false
        · rw [if_pos hb] at h
          cases fixed with
          | true => simp at h
          | false =>
            simp only [Bool.false_eq_true, if_false, Option.some.injEq, Prod.mk.injEq] at h
            exact Or.inl ⟨a, by rw [← h.2], ha1, rfl⟩
        · rw [if_neg hb] at h
          simp only [Option.some.injEq, Prod.mk.injEq] at h
          exact Or.inr ⟨a, b, by rw [← h.2], ha1, by simpa using hb⟩

/-- A fraction is read only after a point or a comma: when parseFraction
consumes the whole text, the text is empty or starts with one of the two. -/
theorem parseFraction_some {frac : Bool} {value : List Char} {nsec : Int}
    (h : parseFraction frac value = some (nsec, [])) :
    value = [] ∨ value.head? = some '.' ∨ value.head? = some ',' := by
  unfold parseFraction at h
  cases frac with
  | true =>
    simp only [if_true] at h
    by_cases hlen : value.length < 4
    · rw [if_pos hlen] at h; simp at h
    · rw [if_neg hlen] at h
      unfold parseNanoseconds at h
      by_cases hsep : value.head? ≠ some '.' ∧ value.head? ≠ some ','
      · rw [if_pos hsep] at h; simp at h
      · right
        by_contra hno
        exact hsep ⟨fun h1 => hno (Or.inl h1), fun h2 => hno (Or.inr h2)⟩
  | false =>
    simp only [Bool.false_eq_true, if_false] at h
    split_ifs at h with hc
    · exact Or.inr hc.2.1
    · simp only [Option.some.injEq, Prod.mk.injEq] at h
      exact Or.inl h.2

theorem skip_some {value rest : List Char} {ch : Char} (h : skip value ch = some rest) :
    value = ch :: rest := by
  unfold skip at h
  cases value with
  | nil => simp at h
  | cons c r =>
    dsimp only at h
    split_ifs at h with hc
    simp only [Option.some.injEq] at h
    rw [hc, h]

/-- The texts that `time.Parse` accepts for the two layouts start with an hour
of one or two digits, a colon, two digits, a colon and two digits; what follows
is empty or starts with a point or a comma. -/
theorem timeParse_some {frac : Bool} {value : List Char} {r : Int × Int × Int × Int}
    (h : timeParse frac value = some r) :
    ∃ hourDigits c d e f rest, value = hourDigits ++ [':', c, d, ':', e, f] ++ rest ∧
      (hourDigits.length = 1 ∨ hourDigits.length = 2) ∧
      (∀ ch ∈ hourDigits, ch.isDigit = true) ∧
      c.isDigit = true ∧ d.isDigit = true ∧ e.isDigit = true ∧ f.isDigit = true ∧
      (rest = [] ∨ rest.head? = some '.' ∨ rest.head? = some ',') := by
  unfold timeParse at h
  cases h1 : getnum value false with
  | none => rw [h1] at h; simp at h
  | some p1 =>
    obtain ⟨hour, v1⟩ := p1
    rw [h1] at h
    dsimp only at h
    split_ifs at h with hh
    cases hk1 : skip v1 ':' with
    | none => rw [hk1] at h; simp at h
    | some v2 =>
      rw [hk1] at h
      dsimp only at h
      cases h2 : getnum v2 true with
      | none => rw [h2] at h; simp at h
      | some p2 =>
        obtain ⟨min, v3⟩ := p2
        rw [h2] at h
        dsimp only at h
        split_ifs at h with hm
        cases hk2 : skip v3 ':' with
        | none => rw [hk2] at h; simp at h
        | some v4 =>
          rw [hk2] at h
          dsimp only at h
          cases h3 : getnum v4 true with
          | none => rw [h3] at h; simp at h
          | some p3 =>
            obtain ⟨sec, v5⟩ := p3
            rw [h3] at h
            dsimp only at h
            split_ifs at h with hs
            cases h4 : parseFraction frac v5 with
            | none => rw [h4] at h; simp at h
            | some p4 =>
              obtain ⟨nsec, v6⟩ := p4
              rw [h4] at h
              dsimp only at h
              split_ifs at h with hv
              have hv6 : v6 = [] := by simpa using hv
              subst hv6
              have hrest := parseFraction_some h4
              have e1 := skip_some hk1
              have e2 := skip_some hk2
              rcases getnum_some h2 with ⟨_, _, _, hf⟩ | ⟨c, d, hcd, hc, hd⟩
              · exact absurd hf (by decide)
              rcases getnum_some h3 with ⟨_, _, _, hf⟩ | ⟨e, f, hef, he, hf⟩
              · exact absurd hf (by decide)
              rcases getnum_some h1 with ⟨a, ha, hda, _⟩ | ⟨a, b, hab, hda, hdb⟩
              · refine ⟨[a], c, d, e, f, v5, ?_, Or.inl rfl, ?_, hc, hd, he, hf, hrest⟩
                · rw [ha, e1, hcd, e2, hef]; rfl
                · intro ch hch
                  simp only [List.mem_singleton] at hch
                  rw [hch]; exact hda
              · refine ⟨[a, b], c, d, e, f, v5, ?_, Or.inr rfl, ?_, hc, hd, he, hf, hrest⟩
                · rw [hab, e1, hcd, e2, hef]; rfl
                · intro ch hch
                  simp only [List.mem_cons, List.mem_singleton, List.not_mem_nil,
                    or_false] at hch
                  rcases hch with rfl | rfl
                  · exact hda
                  · exact hdb

/-- Go `time.Parse` on two digits, a colon, two digits, a colon, two digits and
a rest. -/
theorem timeParse_clock (frac : Bool) (a b c d e f : Char) (rest : List Char)
    (ha : a.isDigit = true) (hb : b.isDigit = true) (hc : c.isDigit = true)
    (hd : d.isDigit = true) (he : e.isDigit = true) (hf : f.isDigit = true) :
    timeParse frac (a :: b :: ':' :: c :: d :: ':' :: e :: f :: rest) =
      if digitVal a * 10 + digitVal b < 24 ∧ digitVal c * 10 + digitVal d < 60 ∧
          digitVal e * 10 + digitVal f < 60 then
        match parseFraction frac rest with
        | none => none
        | some (nsec, value) =>
          if value ≠ [] then none
          else some (((digitVal a * 10 + digitVal b : Nat) : Int),
            ((digitVal c * 10 + digitVal d : Nat) : Int),
            ((digitVal e * 10 + digitVal f : Nat) : Int), nsec)
      else none := by
  unfold timeParse
  rw [getnum_two a b _ false ha hb]
  dsimp only
  by_cases hh : 24 ≤ digitVal a * 10 + digitVal b
  · rw [if_pos hh, if_neg (by omega)]
  · rw [if_neg hh]
    simp only [skip, if_true]
    rw [getnum_two c d _ true hc hd]
    dsimp only
    by_cases hm : 60 ≤ digitVal c * 10 + digitVal d
    · rw [if_pos hm, if_neg (by omega)]
    · rw [if_neg hm]
      simp only [if_true]
      rw [getnum_two e f _ true he hf]
      dsimp only
      by_cases hs : 60 ≤ digitVal e * 10 + digitVal f
      · rw [if_pos hs, if_neg (by omega)]
      · rw [if_neg hs, if_pos (by omega)]

theorem parseFraction_none_layout : parseFraction false [] = some (0, []) := by decide

/-- The fraction read for the layout with milliseconds from a point and three
digits. -/
theorem parseFraction_millis (g h i : Char) (hg : g.isDigit = true) (hh : h.isDigit = true)
    (hi : i.isDigit = true) :
    parseFraction true ['.', g, h, i] =
      some ((((digitVal g * 100 + digitVal h * 10 + digitVal i : Nat) : Int)) * 1000000, []) := by
  have hgm : g ≠ '-' := isDigit_ne hg _ (by decide)
  have hgp : g ≠ '+' := isDigit_ne hg _ (by decide)
  simp [parseFraction, parseNanoseconds, timeAtoi, hgm, hgp, hg, hh, hi, digitsValue]
  exact ⟨by positivity, by ring⟩

theorem digitVal_le {a : Char} (ha : a.isDigit = true) : digitVal a ≤ 9 := by
  simp only [Char.isDigit, Bool.and_eq_true, decide_eq_true_eq] at ha
  have h2 : a.val.toNat ≤ 57 := ha.2
  unfold digitVal Char.toNat
  omega

/-- ParseTime on a text of the shape DD:DD:DD. -/
theorem parseTime_seconds (s : String) (a b c d e f : Char)
    (hs : s.data = [a, b, ':', c, d, ':', e, f])
    (ha : a.isDigit = true) (hb : b.isDigit = true) (hc : c.isDigit = true)
    (hd : d.isDigit = true) (he : e.isDigit = true) (hf : f.isDigit = true) :
    ParseTime s =
      if digitVal a * 10 + digitVal b < 24 ∧ digitVal c * 10 + digitVal d < 60 ∧
          digitVal e * 10 + digitVal f < 60 then
        some (projectEpoch + ((digitVal a * 10 + digitVal b : Nat) : Int) * (3600 * nsPerSecond) +
          ((digitVal c * 10 + digitVal d : Nat) : Int) * (60 * nsPerSecond) +
          ((digitVal e * 10 + digitVal f : Nat) : Int) * nsPerSecond)
      else none := by
  have hp : ∀ x : Char, x.isDigit = true → x ≠ '.' := fun x hx => isDigit_ne hx _ (by decide)
  have hcont : stringsContains s.data '.' = false := by
    rw [hs]
    simp [stringsContains, (hp a ha).symm, (hp b hb).symm, (hp c hc).symm, (hp d hd).symm,
      (hp e he).symm, (hp f hf).symm]
  unfold ParseTime
  rw [hcont, hs, timeParse_clock false a b c d e f [] ha hb hc hd he hf, parseFraction_none_layout]
  split_ifs
  · simp
  · rfl

/-- ParseTime on a text of the shape DD:DD:DD.DDD. -/
theorem parseTime_millis (s : String) (a b c d e f g h i : Char)
    (hs : s.data = [a, b, ':', c, d, ':', e, f, '.', g, h, i])
    (ha : a.isDigit = true) (hb : b.isDigit = true) (hc : c.isDigit = true)
    (hd : d.isDigit = true) (he : e.isDigit = true) (hf : f.isDigit = true)
    (hg : g.isDigit = true) (hh : h.isDigit = true) (hi : i.isDigit = true) :
    ParseTime s =
      if digitVal a * 10 + digitVal b < 24 ∧ digitVal c * 10 + digitVal d < 60 ∧
          digitVal e * 10 + digitVal f < 60 then
        some (projectEpoch + ((digitVal a * 10 + digitVal b : Nat) : Int) * (3600 * nsPerSecond) +
          ((digitVal c * 10 + digitVal d : Nat) : Int) * (60 * nsPerSecond) +
          ((digitVal e * 10 + digitVal f : Nat) : Int) * nsPerSecond +
          ((digitVal g * 100 + digitVal h * 10 + digitVal i : Nat) : Int) * 1000000)
      else none := by
  have hcont : stringsContains s.data '.' = true := by
    rw [hs]
    simp [stringsContains]
  unfold ParseTime
  rw [hcont, hs, timeParse_clock true a b c d e f _ ha hb hc hd he hf,
    parseFraction_millis g h i hg hh hi]
  split_ifs
  · simp
  · rfl

/-- An instant made of the reference date and a time of day is a clock time. -/
theorem isClockTime_of_fields (h m s ns : Nat) (hh : h < 24) (hm : m < 60) (hs : s < 60)
    (hns : ns < 1000000000) :
    Time.isClockTime (projectEpoch + (h : Int) * (3600 * nsPerSecond) +
      (m : Int) * (60 * nsPerSecond) + (s : Int) * nsPerSecond + (ns : Int)) := by
  unfold Time.isClockTime projectEpoch nsPerDay nsPerSecond
  constructor
  · show @LE.le Int _ _ _
    omega
  · show @LT.lt Int _ _ _
    omega

theorem digitChar_isDigit : ∀ k, k < 10 → (Nat.digitChar k).isDigit = true := by decide

theorem digitVal_digitChar : ∀ k, k < 10 → digitVal (Nat.digitChar k) = k := by decide

set_option maxRecDepth 100000 in
theorem padZero_two_data : ∀ n, n < 100 →
    (padZero 2 n).data = [Nat.digitChar (n / 10), Nat.digitChar (n % 10)] := by decide

set_option maxRecDepth 1000000 in
set_option maxHeartbeats 4000000 in
theorem padZero_three_data : ∀ n, n < 1000 →
    (padZero 3 n).data =
      [Nat.digitChar (n / 100), Nat.digitChar (n / 10 % 10), Nat.digitChar (n % 10)] := by decide

/-- FormatTime of an instant of the reference date, in terms of the fields of
its time of day. -/
theorem formatTime_of_fields (h m s ms : Nat) (hh : h < 24) (hm : m < 60) (hs : s < 60)
    (hms : ms < 1000) :
    FormatTime (projectEpoch + ((h * 3600000000000 + m * 60000000000 + s * 1000000000 +
      ms * 1000000 : Nat) : Int)) =
      padZero 2 h ++ ":" ++ padZero 2 m ++ ":" ++ padZero 2 s ++ "." ++ padZero 3 ms := by
  unfold FormatTime
  have hns : ((projectEpoch + ((h * 3600000000000 + m * 60000000000 + s * 1000000000 +
      ms * 1000000 : Nat) : Int)) % nsPerDay).toNat =
      h * 3600000000000 + m * 60000000000 + s * 1000000000 + ms * 1000000 := by
    unfold projectEpoch nsPerDay nsPerSecond
    show (@HMod.hMod Int Int Int _ _ _).toNat = _
    omega
  rw [hns]
  dsimp only
  have e1 : (h * 3600000000000 + m * 60000000000 + s * 1000000000 + ms * 1000000) /
      3600000000000 = h := by omega
  have e2 : (h * 3600000000000 + m * 60000000000 + s * 1000000000 + ms * 1000000) %
      3600000000000 / 60000000000 = m := by omega
  have e3 : (h * 3600000000000 + m * 60000000000 + s * 1000000000 + ms * 1000000) %
      60000000000 / 1000000000 = s := by omega
  have e4 : (h * 3600000000000 + m * 60000000000 + s * 1000000000 + ms * 1000000) %
      1000000000 / 1000000 = ms := by omega
  rw [e1, e2, e3, e4]

/-- FormatDuration of a time of day, in terms of its fields. -/
theorem formatDuration_of_fields (h m s ms : Nat) (hm : m < 60) (hs : s < 60)
    (hms : ms < 1000) :
    FormatDuration ((h * 3600000000000 + m * 60000000000 + s * 1000000000 +
      ms * 1000000 : Nat) : Int) =
      padZero 2 h ++ ":" ++ padZero 2 m ++ ":" ++ padZero 2 s ++ "." ++ padZero 3 ms := by
  rw [formatDuration_natCast]
  have e0 : (h * 3600000000000 + m * 60000000000 + s * 1000000000 + ms * 1000000) / 1000000 =
      h * 3600000 + m * 60000 + s * 1000 + ms := by omega
  rw [e0]
  have e1 : (h * 3600000 + m * 60000 + s * 1000 + ms) / 3600000 = h := by omega
  have e2 : (h * 3600000 + m * 60000 + s * 1000 + ms) % 3600000 / 60000 = m := by omega
  have e3 : (h * 3600000 + m * 60000 + s * 1000 + ms) % 60000 / 1000 = s := by omega
  have e4 : (h * 3600000 + m * 60000 + s * 1000 + ms) % 1000 = ms := by omega
  rw [e1, e2, e3, e4]

/-- Atoi on a text without sign. -/
theorem atoi_unsigned (cs : List Char) (hm : cs.head? ≠ some '-') (hp : cs.head? ≠ some '+') :
    Atoi cs =
      if cs = [] ∨ cs.all Char.isDigit = false then none
      else if (digitsValue cs : Int) < -(2 ^ 63) ∨ 2 ^ 63 - 1 < (digitsValue cs : Int) then none
      else some (digitsValue cs : Int) := by
  unfold Atoi
  simp only [hm, hp, or_self, if_false]

theorem atoi_plus (r : List Char) :
    Atoi ('+' :: r) =
      if r = [] ∨ r.all Char.isDigit = false then none
      else if (digitsValue r : Int) < -(2 ^ 63) ∨ 2 ^ 63 - 1 < (digitsValue r : Int) then none
      else some (digitsValue r : Int) := by
  unfold Atoi
  have h1 : ¬ ((some '+' : Option Char) = some '-') := by decide
  simp only [List.head?_cons, h1, or_true, if_true, List.tail_cons, if_false]

theorem atoi_minus (r : List Char) :
    Atoi ('-' :: r) =
      if r = [] ∨ r.all Char.isDigit = false then none
      else if -(digitsValue r : Int) < -(2 ^ 63) ∨ 2 ^ 63 - 1 < -(digitsValue r : Int) then none
      else some (-(digitsValue r : Int)) := by
  unfold Atoi
  simp only [List.head?_cons, true_or, if_true, List.tail_cons]

theorem all_isDigit_false_iff (digits : List Char) :
    digits.all Char.isDigit = false ↔ ¬ ∀ ch ∈ digits, ch.isDigit = true := by
  rw [← List.all_eq_true]
  simp

/-- Atoi accepts exactly the decimal integers in the 64-bit range. -/
theorem atoi_iff (cs : List Char) (v : Int) :
    Atoi cs = some v ↔ decimalInteger cs v ∧ inInt64 v := by
  have key : ∀ (ds : List Char) (w : Int),
      ((if ds = [] ∨ ds.all Char.isDigit = false then none
        else if w < -(2 ^ 63) ∨ 2 ^ 63 - 1 < w then none else some w) = some v) ↔
      (ds ≠ [] ∧ (∀ ch ∈ ds, ch.isDigit = true) ∧ v = w ∧ inInt64 v) := by
    intro ds w
    unfold inInt64
    have hall := all_isDigit_false_iff ds
    constructor
    · intro h
      split_ifs at h with h1 h2
      simp only [Option.some.injEq] at h
      rw [hall] at h1
      simp only [not_or, not_not, not_lt] at h1 h2
      subst h
      exact ⟨h1.1, h1.2, rfl, h2.1, h2.2⟩
    · rintro ⟨h1, h2, h3, h4, h5⟩
      subst h3
      rw [if_neg (by rw [hall]; simp only [not_or, not_not]; exact ⟨h1, h2⟩),
        if_neg (by simp only [not_or, not_lt]; exact ⟨h4, h5⟩)]
  by_cases hm : cs.head? = some '-'
  · obtain ⟨r, rfl⟩ : ∃ r, cs = '-' :: r := by
      cases cs with
      | nil => simp at hm
      | cons c r => simp only [List.head?_cons, Option.some.injEq] at hm; exact ⟨r, by rw [hm]⟩
    rw [atoi_minus, key]
    unfold decimalInteger
    constructor
    · rintro ⟨h1, h2, h3, h4⟩
      exact ⟨⟨r, h1, h2, Or.inr (Or.inr ⟨rfl, h3⟩)⟩, h4⟩
    · rintro ⟨⟨ds, h1, h2, h3 | h3 | h3⟩, h4⟩
      · exfalso
        have := h2 '-' (by rw [← h3.1]; simp)
        exact absurd this (by decide)
      · exfalso
        have := h3.1
        simp only [List.cons.injEq] at this
        exact absurd this.1 (by decide)
      · have hr : r = ds := by
          have := h3.1
          simp only [List.cons.injEq, true_and] at this
          exact this
        subst hr
        exact ⟨h1, h2, h3.2, h4⟩
  by_cases hp : cs.head? = some '+'
  · obtain ⟨r, rfl⟩ : ∃ r, cs = '+' :: r := by
      cases cs with
      | nil => simp at hp
      | cons c r => simp only [List.head?_cons, Option.some.injEq] at hp; exact ⟨r, by rw [hp]⟩
    rw [atoi_plus, key]
    unfold decimalInteger
    constructor
    · rintro ⟨h1, h2, h3, h4⟩
      exact ⟨⟨r, h1, h2, Or.inr (Or.inl ⟨rfl, h3⟩)⟩, h4⟩
    · rintro ⟨⟨ds, h1, h2, h3 | h3 | h3⟩, h4⟩
      · exfalso
        have := h2 '+' (by rw [← h3.1]; simp)
        exact absurd this (by decide)
      · have hr : r = ds := by
          have := h3.1
          simp only [List.cons.injEq, true_and] at this
          exact this
        subst hr
        exact ⟨h1, h2, h3.2, h4⟩
      · exfalso
        have := h3.1
        simp only [List.cons.injEq] at this
        exact absurd this.1 (by decide)
  · rw [atoi_unsigned cs hm hp, key]
    unfold decimalInteger
    constructor
    · rintro ⟨h1, h2, h3, h4⟩
      exact ⟨⟨cs, h1, h2, Or.inl ⟨rfl, h3⟩⟩, h4⟩
    · rintro ⟨⟨ds, h1, h2, h3 | h3 | h3⟩, h4⟩
      · obtain ⟨rfl, h5⟩ := h3
        exact ⟨h1, h2, h5, h4⟩
      · exfalso; apply hp; rw [h3.1]; rfl
      · exfalso; apply hm; rw [h3.1]; rfl

/-- A decimal integer contains neither a colon nor a point. -/
theorem decimalInteger_not_mem {cs : List Char} {v : Int} (h : decimalInteger cs v)
    (x : Char) (hx : x.isDigit = false) (hplus : x ≠ '+') (hminus : x ≠ '-') : x ∉ cs := by
  obtain ⟨ds, _, hd, h3⟩ := h
  have hds : x ∉ ds := fun hmem => by
    have := hd x hmem
    rw [hx] at this
    exact Bool.noConfusion this
  rcases h3 with h3 | h3 | h3
  · rw [h3.1]; exact hds
  · rw [h3.1]; simp [hplus, hds]
  · rw [h3.1]; simp [hminus, hds]

/-- No part that `strings.Split` returns contains the separator. -/
theorem not_mem_of_mem_stringsSplit (sep : Char) :
    ∀ (s : List Char), ∀ p ∈ stringsSplit s sep, sep ∉ p := by
  intro s
  unfold stringsSplit List.splitOn
  induction s with
  | nil => simp
  | cons c cs ih =>
    rw [List.splitOnP_cons]
    by_cases hc : (c == sep) = true
    · rw [if_pos hc]
      intro p hp
      rcases List.mem_cons.1 hp with rfl | hp
      · simp
      · exact ih p hp
    · rw [if_neg hc]
      cases hsp : List.splitOnP (fun x => x == sep) cs with
      | nil => simp [List.modifyHead]
      | cons q qs =>
        rw [hsp] at ih
        intro p hp
        simp only [List.modifyHead, List.mem_cons] at hp
        rcases hp with rfl | hp
        · have hq := ih q (List.mem_cons_self _ _)
          have hne : sep ≠ c := fun h => hc (by rw [h]; simp)
          simp [hne, hq]
        · exact ih p (List.mem_cons_of_mem _ hp)

/-- A text splits in three parts exactly when it is made of three texts without
colon, separated by colons. -/
theorem stringsSplit_three (s p0 p1 p2 : List Char) :
    stringsSplit s ':' = [p0, p1, p2] ↔
      s = p0 ++ ':' :: (p1 ++ ':' :: p2) ∧ ':' ∉ p0 ∧ ':' ∉ p1 ∧ ':' ∉ p2 := by
  constructor
  · intro h
    have hparts := not_mem_of_mem_stringsSplit ':' s
    rw [h] at hparts
    refine ⟨?_, hparts p0 (by simp), hparts p1 (by simp), hparts p2 (by simp)⟩
    have hi := List.intercalate_splitOn s ':'
    unfold stringsSplit at h
    rw [h] at hi
    rw [← hi]
    simp [List.intercalate]
  · rintro ⟨hs, h0, h1, h2⟩
    have hi := List.splitOn_intercalate [p0, p1, p2] ':' (by
      intro l hl
      simp only [List.mem_cons, List.mem_singleton, List.not_mem_nil, or_false] at hl
      rcases hl with rfl | rfl | rfl
      · exact h0
      · exact h1
      · exact h2) (by simp)
    unfold stringsSplit
    rw [hs, ← hi]
    simp [List.intercalate]

/-- The first part that `strings.Split` returns: the text before the first
separator. -/
theorem head_stringsSplit (c rest : List Char) (sep : Char) (hc : sep ∉ c)
    (hrest : rest = [] ∨ rest.head? = some sep) :
    (stringsSplit (c ++ rest) sep).headD [] = c := by
  unfold stringsSplit List.splitOn
  rcases hrest with rfl | hrest
  · rw [List.append_nil, List.splitOnP_eq_single]
    · rfl
    · intro x hx hxs
      rw [beq_iff_eq] at hxs
      rw [hxs] at hx
      exact hc hx
  · obtain ⟨r, rfl⟩ : ∃ r, rest = sep :: r := by
      cases rest with
      | nil => simp at hrest
      | cons x r =>
        simp only [List.head?_cons, Option.some.injEq] at hrest
        exact ⟨r, by rw [hrest]⟩
    rw [List.splitOnP_first]
    · rfl
    · intro x hx hxs
      rw [beq_iff_eq] at hxs
      rw [hxs] at hx
      exact hc hx
    · simp

/-- The text before the first separator and what follows it. -/
theorem stringsSplit_head_decompose (p : List Char) (sep : Char) :
    ∃ rest, p = (stringsSplit p sep).headD [] ++ rest ∧ (rest = [] ∨ rest.head? = some sep) := by
  unfold stringsSplit List.splitOn
  induction p with
  | nil => exact ⟨[], by simp, Or.inl rfl⟩
  | cons c cs ih =>
    obtain ⟨rest, h1, h2⟩ := ih
    rw [List.splitOnP_cons]
    by_cases hc : (c == sep) = true
    · rw [if_pos hc]
      rw [beq_iff_eq] at hc
      exact ⟨c :: cs, by simp, Or.inr (by rw [hc]; rfl)⟩
    · rw [if_neg hc]
      cases hsp : List.splitOnP (fun x => x == sep) cs with
      | nil => exact absurd hsp (List.splitOnP_ne_nil _ _)
      | cons q qs =>
        rw [hsp] at h1
        simp only [List.headD_cons] at h1
        refine ⟨rest, ?_, h2⟩
        simp only [List.modifyHead, List.headD_cons, List.cons_append]
        rw [← h1]

/-- A sum of three terms computed in 64-bit arithmetic is the wrapped exact
sum. -/
theorem wrapInt64_sum_three (x y z : Int) :
    wrapInt64 (wrapInt64 (wrapInt64 x + wrapInt64 y) + wrapInt64 z) = wrapInt64 (x + y + z) := by
  unfold wrapInt64
  norm_num
  omega

/-- ParseDuration in terms of the three parts of the text. -/
theorem parseDuration_iff (s : String) (d : Duration) :
    ParseDuration s = some d ↔
      ∃ h m sec, durationText s.data h m sec ∧ inInt64 h ∧ inInt64 m ∧ inInt64 sec ∧
        d = wrapInt64 (h * (3600 * nsPerSecond) + m * (60 * nsPerSecond) + sec * nsPerSecond) := by
  have hwrap : ∀ h m sec : Int,
      wrapInt64 (wrapInt64 (wrapInt64 (h * (3600 * nsPerSecond)) +
        wrapInt64 (m * (60 * nsPerSecond))) + wrapInt64 (sec * nsPerSecond)) =
      wrapInt64 (h * (3600 * nsPerSecond) + m * (60 * nsPerSecond) + sec * nsPerSecond) := by
    intro h m sec
    exact wrapInt64_sum_three _ _ _
  constructor
  · intro hpd
    unfold ParseDuration at hpd
    cases hsplit : stringsSplit s.data ':' with
    | nil => rw [hsplit] at hpd; simp at hpd
    | cons p0 t0 =>
      cases t0 with
      | nil => rw [hsplit] at hpd; simp at hpd
      | cons p1 t1 =>
        cases t1 with
        | nil => rw [hsplit] at hpd; simp at hpd
        | cons p2 t2 =>
          cases t2 with
          | cons p3 t3 => rw [hsplit] at hpd; simp at hpd
          | nil =>
            rw [hsplit] at hpd
            dsimp only at hpd
            obtain ⟨hs, h0, h1, h2⟩ := (stringsSplit_three _ _ _ _).1 hsplit
            cases ha : Atoi p0 with
            | none => rw [ha] at hpd; simp at hpd
            | some h =>
              rw [ha] at hpd
              dsimp only at hpd
              cases hb : Atoi p1 with
              | none => rw [hb] at hpd; simp at hpd
              | some m =>
                rw [hb] at hpd
                dsimp only at hpd
                cases hc : Atoi ((stringsSplit p2 '.').headD []) with
                | none => rw [hc] at hpd; simp at hpd
                | some sec =>
                  rw [hc] at hpd
                  simp only [Option.some.injEq] at hpd
                  obtain ⟨rest, hrest1, hrest2⟩ := stringsSplit_head_decompose p2 '.'
                  have hda := (atoi_iff _ _).1 ha
                  have hdb := (atoi_iff _ _).1 hb
                  have hdc := (atoi_iff _ _).1 hc
                  refine ⟨h, m, sec, ⟨p0, p1, (stringsSplit p2 '.').headD [], rest, ?_, hda.1,
                    hdb.1, hdc.1, hrest2, ?_⟩, hda.2, hdb.2, hdc.2, ?_⟩
                  · rw [← hrest1]; exact hs
                  · intro hmem
                    apply h2
                    rw [hrest1]
                    exact List.mem_append_right _ hmem
                  · rw [← hpd, hwrap]
  · rintro ⟨h, m, sec, ⟨a, b, c, rest, hs, hda, hdb, hdc, hrest, hcolon⟩, hh, hm, hsec, hd⟩
    have hca : ':' ∉ a := decimalInteger_not_mem hda ':' (by decide) (by decide) (by decide)
    have hcb : ':' ∉ b := decimalInteger_not_mem hdb ':' (by decide) (by decide) (by decide)
    have hcc : ':' ∉ c := decimalInteger_not_mem hdc ':' (by decide) (by decide) (by decide)
    have hpc : '.' ∉ c := decimalInteger_not_mem hdc '.' (by decide) (by decide) (by decide)
    have hsplit : stringsSplit s.data ':' = [a, b, c ++ rest] :=
      (stringsSplit_three _ _ _ _).2 ⟨hs, hca, hcb, by
        intro hmem
        rcases List.mem_append.1 hmem with h1 | h1
        · exact hcc h1
        · exact hcolon h1⟩
    unfold ParseDuration
    rw [hsplit]
    dsimp only
    rw [(atoi_iff a h).2 ⟨hda, hh⟩]
    dsimp only
    rw [(atoi_iff b m).2 ⟨hdb, hm⟩]
    dsimp only
    rw [head_stringsSplit c rest '.' hpc hrest, (atoi_iff c sec).2 ⟨hdc, hsec⟩]
    dsimp only
    rw [hwrap, hd]

/-! ### Accuracy of the float64 operations -/

theorem roundHalfEven_err (x : ℚ) : |(roundHalfEven x : ℚ) - x| ≤ 1 / 2 := by
  have h1 : (⌊x⌋ : ℚ) ≤ x := Int.floor_le x
  have h2 : x < (⌊x⌋ : ℚ) + 1 := Int.lt_floor_add_one x
  unfold roundHalfEven
  split_ifs with ha hb hc
  · rw [abs_le]; constructor <;> linarith
  · rw [abs_le]; push_cast; constructor <;> linarith
  · rw [abs_le]; constructor <;> linarith
  · rw [abs_le]; push_cast; constructor <;> linarith

theorem log2Fuel_spec : ∀ (fuel n : Nat), n ≤ fuel → n ≠ 0 →
    2 ^ log2Fuel fuel n ≤ n ∧ n < 2 ^ (log2Fuel fuel n + 1) := by
  intro fuel
  induction fuel with
  | zero => intro n h h0; omega
  | succ fuel ih =>
    intro n h h0
    unfold log2Fuel
    by_cases h2 : n < 2
    · rw [if_pos h2]
      constructor
      · simp only [pow_zero]; omega
      · simp only [zero_add, pow_one]; exact h2
    · rw [if_neg h2]
      obtain ⟨i1, i2⟩ := ih (n / 2) (by omega) (by omega)
      rw [pow_succ, pow_succ]
      rw [pow_succ] at i2
      constructor <;> omega

theorem floorLog2_self_le {n : Nat} (h : n ≠ 0) : 2 ^ floorLog2 n ≤ n :=
  (log2Fuel_spec n n (le_refl n) h).1

theorem lt_floorLog2_self {n : Nat} (h : n ≠ 0) : n < 2 ^ (floorLog2 n + 1) :=
  (log2Fuel_spec n n (le_refl n) h).2

/-- The grid of the float64 values around `q` is fine enough: 2^(e+52) ≤ |q|. -/
theorem float64Exponent_le (q : ℚ) (hq : q ≠ 0) :
    (2 : ℚ) ^ (float64Exponent q + 52) ≤ |q| := by
  unfold float64Exponent
  dsimp only
  split_ifs with h
  · have e : ((floorLog2 q.num.natAbs : Int) - (floorLog2 q.den : Int) - 52 + 52) =
        (floorLog2 q.num.natAbs : Int) - (floorLog2 q.den : Int) := by ring
    rw [e]; exact h
  · have e : ((floorLog2 q.num.natAbs : Int) - (floorLog2 q.den : Int) - 53 + 52) =
        (floorLog2 q.num.natAbs : Int) - ((floorLog2 q.den : Int) + 1) := by ring
    rw [e]
    have hn0 : q.num.natAbs ≠ 0 := by
      intro h0
      apply hq
      have : q.num = 0 := Int.natAbs_eq_zero.1 h0
      exact Rat.num_eq_zero.1 this
    have hn : (2 : ℚ) ^ (floorLog2 q.num.natAbs) ≤ (q.num.natAbs : ℚ) := by
      exact_mod_cast floorLog2_self_le hn0
    have hd : (q.den : ℚ) < (2 : ℚ) ^ (floorLog2 q.den + 1) := by
      exact_mod_cast lt_floorLog2_self (Nat.pos_iff_ne_zero.1 q.den_pos)
    have hdpos : (0 : ℚ) < q.den := by exact_mod_cast q.den_pos
    have habs : |q| = (q.num.natAbs : ℚ) / q.den := by
      conv_lhs => rw [← Rat.num_div_den q]
      rw [abs_div, abs_of_pos hdpos]
      congr 1
      rw [← Int.cast_abs, Int.abs_eq_natAbs]
      rfl
    rw [habs, zpow_sub₀ (by norm_num : (2 : ℚ) ≠ 0)]
    have e1 : (2 : ℚ) ^ ((floorLog2 q.num.natAbs : Int)) = (2 : ℚ) ^ (floorLog2 q.num.natAbs) :=
      zpow_natCast _ _
    have e2 : (2 : ℚ) ^ ((floorLog2 q.den : Int) + 1) = (2 : ℚ) ^ (floorLog2 q.den + 1) := by
      rw [← zpow_natCast]; push_cast; rfl
    rw [e1, e2]
    have hpow : (0 : ℚ) < (2 : ℚ) ^ (floorLog2 q.den + 1) := by positivity
    rw [div_le_div_iff₀ hpow hdpos]
    have hnn : (0 : ℚ) ≤ (2 : ℚ) ^ (floorLog2 q.num.natAbs) := by positivity
    nlinarith [mul_le_mul hn hd.le hdpos.le (le_trans hnn hn)]

/-- The grid of the float64 values around `q` is no finer than that of a 53-bit
significand: |q| < 2^(e+53). -/
theorem float64Exponent_lt (q : ℚ) (hq : q ≠ 0) :
    |q| < (2 : ℚ) ^ (float64Exponent q + 53) := by
  unfold float64Exponent
  dsimp only
  split_ifs with h
  · have e : ((floorLog2 q.num.natAbs : Int) - (floorLog2 q.den : Int) - 52 + 53) =
        ((floorLog2 q.num.natAbs : Int) + 1) - (floorLog2 q.den : Int) := by ring
    rw [e]
    have hn0 : q.num.natAbs ≠ 0 := by
      intro h0
      apply hq
      have : q.num = 0 := Int.natAbs_eq_zero.1 h0
      exact Rat.num_eq_zero.1 this
    have hn : (q.num.natAbs : ℚ) < (2 : ℚ) ^ (floorLog2 q.num.natAbs + 1) := by
      exact_mod_cast lt_floorLog2_self hn0
    have hd : (2 : ℚ) ^ (floorLog2 q.den) ≤ (q.den : ℚ) := by
      exact_mod_cast floorLog2_self_le (Nat.pos_iff_ne_zero.1 q.den_pos)
    have hdpos : (0 : ℚ) < q.den := by exact_mod_cast q.den_pos
    have habs : |q| = (q.num.natAbs : ℚ) / q.den := by
      conv_lhs => rw [← Rat.num_div_den q]
      rw [abs_div, abs_of_pos hdpos]
      congr 1
      rw [← Int.cast_abs, Int.abs_eq_natAbs]
      rfl
    rw [habs, zpow_sub₀ (by norm_num : (2 : ℚ) ≠ 0)]
    have e1 : (2 : ℚ) ^ ((floorLog2 q.num.natAbs : Int) + 1) =
        (2 : ℚ) ^ (floorLog2 q.num.natAbs + 1) := by
      rw [← zpow_natCast]; push_cast; rfl
    have e2 : (2 : ℚ) ^ ((floorLog2 q.den : Int)) = (2 : ℚ) ^ (floorLog2 q.den) :=
      zpow_natCast _ _
    rw [e1, e2]
    have hpow : (0 : ℚ) < (2 : ℚ) ^ (floorLog2 q.den) := by positivity
    rw [div_lt_div_iff₀ hdpos hpow]
    have hnn : (0 : ℚ) ≤ (q.num.natAbs : ℚ) := by positivity
    nlinarith [mul_lt_mul hn hd hpow (le_of_lt (lt_of_le_of_lt hnn hn))]
  · have e : ((floorLog2 q.num.natAbs : Int) - (floorLog2 q.den : Int) - 53 + 53) =
        (floorLog2 q.num.natAbs : Int) - (floorLog2 q.den : Int) := by ring
    rw [e]
    exact lt_of_not_le h

/-- Rounding to float64 changes a number by at most 2^-53 of its magnitude. -/
theorem roundFloat64_err (q : ℚ) : |roundFloat64 q - q| ≤ 1 / 2 ^ 53 * |q| := by
  unfold roundFloat64
  split_ifs with h
  · rw [h]; simp
  · have hpos : (0 : ℚ) < 2 ^ float64Exponent q := by positivity
    have hr := roundHalfEven_err (q / 2 ^ float64Exponent q)
    have hle := float64Exponent_le q h
    rw [zpow_add₀ (by norm_num : (2 : ℚ) ≠ 0)] at hle
    have e : (roundHalfEven (q / 2 ^ float64Exponent q) : ℚ) * 2 ^ float64Exponent q - q =
        ((roundHalfEven (q / 2 ^ float64Exponent q) : ℚ) - q / 2 ^ float64Exponent q) *
          2 ^ float64Exponent q := by
      field_simp
    rw [e, abs_mul, abs_of_pos hpos]
    have h52 : ((2 : ℚ) ^ (52 : Int)) = 2 ^ 52 := by norm_num
    rw [h52] at hle
    calc |(roundHalfEven (q / 2 ^ float64Exponent q) : ℚ) - q / 2 ^ float64Exponent q| *
          2 ^ float64Exponent q
        ≤ 1 / 2 * 2 ^ float64Exponent q := by
          exact mul_le_mul_of_nonneg_right hr hpos.le
      _ = 1 / 2 ^ 53 * (2 ^ float64Exponent q * 2 ^ 52) := by ring
      _ ≤ 1 / 2 ^ 53 * |q| := by
          exact mul_le_mul_of_nonneg_left hle (by positivity)

/-- Rounding a number that is not negative keeps it between (1 - 2^-53) and
(1 + 2^-53) times itself. -/
theorem roundFloat64_band (q : ℚ) (hq : 0 ≤ q) :
    (1 - 1 / 2 ^ 53) * q ≤ roundFloat64 q ∧ roundFloat64 q ≤ (1 + 1 / 2 ^ 53) * q := by
  have h := roundFloat64_err q
  rw [abs_of_nonneg hq, abs_le] at h
  constructor <;> linarith [h.1, h.2]

/-- Go's `d.Seconds()` of a positive duration is d / 10^9 up to a relative
error of 4 * 2^-53. -/
theorem seconds_band (d : Duration) (hd : @LT.lt Int _ 0 d) :
    (1 - 4 / 2 ^ 53) * ((d : ℚ) / 1000000000) ≤ Duration.Seconds d ∧
      Duration.Seconds d ≤ (1 + 4 / 2 ^ 53) * ((d : ℚ) / 1000000000) := by
  unfold Duration.Seconds float64Add float64Div float64OfInt
  dsimp only
  have hsec : Int.tdiv d 1000000000 = d / 1000000000 :=
    Int.tdiv_eq_ediv (le_of_lt hd) (by norm_num)
  have hnsec : Int.tmod d 1000000000 = d % 1000000000 :=
    Int.tmod_eq_emod (le_of_lt hd) (by norm_num)
  rw [hsec, hnsec]
  have hs0 : (0 : ℚ) ≤ ((d / 1000000000 : Int) : ℚ) := by
    have : @LE.le Int _ 0 (d / 1000000000) := Int.ediv_nonneg (le_of_lt hd) (by norm_num)
    exact_mod_cast this
  have hn0 : (0 : ℚ) ≤ ((d % 1000000000 : Int) : ℚ) := by
    have : @LE.le Int _ 0 (d % 1000000000) := Int.emod_nonneg d (by norm_num)
    exact_mod_cast this
  have hsum : (d : ℚ) = ((d / 1000000000 : Int) : ℚ) * 1000000000 +
      ((d % 1000000000 : Int) : ℚ) := by
    have := Int.ediv_add_emod d 1000000000
    have h2 : ((1000000000 * (d / 1000000000) + d % 1000000000 : Int) : ℚ) = (d : ℚ) := by
      rw [this]
    push_cast at h2
    linarith
  obtain ⟨a1, a2⟩ := roundFloat64_band _ hs0
  obtain ⟨b1, b2⟩ := roundFloat64_band _ hn0
  have hb0 : (0 : ℚ) ≤ roundFloat64 ((d % 1000000000 : Int) : ℚ) / 1000000000 := by
    apply div_nonneg _ (by norm_num)
    have : (0 : ℚ) ≤ (1 - 1 / 2 ^ 53) * ((d % 1000000000 : Int) : ℚ) :=
      mul_nonneg (by norm_num) hn0
    linarith
  obtain ⟨c1, c2⟩ := roundFloat64_band _ hb0
  have ha0 : (0 : ℚ) ≤ roundFloat64 ((d / 1000000000 : Int) : ℚ) := by
    have : (0 : ℚ) ≤ (1 - 1 / 2 ^ 53) * ((d / 1000000000 : Int) : ℚ) :=
      mul_nonneg (by norm_num) hs0
    linarith
  have hc0 : (0 : ℚ) ≤
      roundFloat64 (roundFloat64 ((d % 1000000000 : Int) : ℚ) / 1000000000) := by
    have : (0 : ℚ) ≤ (1 - 1 / 2 ^ 53) *
        (roundFloat64 ((d % 1000000000 : Int) : ℚ) / 1000000000) :=
      mul_nonneg (by norm_num) hb0
    linarith
  obtain ⟨s1, s2⟩ := roundFloat64_band _ (add_nonneg ha0 hc0)
  rw [hsum]
  generalize ((d / 1000000000 : Int) : ℚ) = s at *
  generalize ((d % 1000000000 : Int) : ℚ) = n at *
  generalize roundFloat64 s = a at *
  generalize roundFloat64 n = b at *
  generalize roundFloat64 (b / 1000000000) = c at *
  generalize roundFloat64 (a + c) = S at *
  norm_num at *
  constructor <;> linarith

/-- A float64 quotient of a rounded numerator and a denominator that is
accurate to 4 * 2^-53 is accurate to 2^-50. -/
theorem speed_err (L : Int) (S T : ℚ) (hT : 0 < T)
    (h1 : (1 - 4 / 2 ^ 53) * T ≤ S) (h2 : S ≤ (1 + 4 / 2 ^ 53) * T) :
    |float64Div (float64OfInt L) S - (L : ℚ) / T| ≤ 1 / 2 ^ 50 * |(L : ℚ) / T| := by
  unfold float64Div float64OfInt
  have hS : 0 < S := by
    have : (0 : ℚ) < (1 - 4 / 2 ^ 53) * T := mul_pos (by norm_num) hT
    linarith
  have hx := roundFloat64_err (L : ℚ)
  have hq := roundFloat64_err (roundFloat64 (L : ℚ) / S)
  -- the two magnitudes |L| / T and |L| / S
  have hA : |(L : ℚ) / T| = |(L : ℚ)| / T := by rw [abs_div, abs_of_pos hT]
  have hBA : (1 - 4 / 2 ^ 53) * (|(L : ℚ)| / S) ≤ |(L : ℚ)| / T := by
    have key : (1 - 4 / 2 ^ 53) / S ≤ 1 / T := by
      rw [div_le_div_iff₀ hS hT]
      linarith
    calc (1 - 4 / 2 ^ 53) * (|(L : ℚ)| / S) = |(L : ℚ)| * ((1 - 4 / 2 ^ 53) / S) := by ring
      _ ≤ |(L : ℚ)| * (1 / T) := mul_le_mul_of_nonneg_left key (abs_nonneg _)
      _ = |(L : ℚ)| / T := by ring
  have hB0 : 0 ≤ |(L : ℚ)| / S := div_nonneg (abs_nonneg _) hS.le
  -- error of the quotient before the last rounding
  have hmid : |roundFloat64 (L : ℚ) / S - (L : ℚ) / T| ≤ 5 / 2 ^ 53 * (|(L : ℚ)| / S) := by
    have e : roundFloat64 (L : ℚ) / S - (L : ℚ) / T =
        (roundFloat64 (L : ℚ) - L) / S + (L : ℚ) / S * ((T - S) / T) := by
      field_simp
      ring
    rw [e]
    have t1 : |(roundFloat64 (L : ℚ) - L) / S| ≤ 1 / 2 ^ 53 * (|(L : ℚ)| / S) := by
      rw [abs_div, abs_of_pos hS, ← mul_div_assoc]
      exact div_le_div_of_nonneg_right hx hS.le
    have t2 : |(L : ℚ) / S * ((T - S) / T)| ≤ |(L : ℚ)| / S * (4 / 2 ^ 53) := by
      rw [abs_mul, abs_div, abs_of_pos hS]
      apply mul_le_mul_of_nonneg_left _ hB0
      rw [abs_div, abs_of_pos hT, div_le_iff₀ hT, abs_le]
      constructor <;> linarith
    calc |(roundFloat64 (L : ℚ) - L) / S + (L : ℚ) / S * ((T - S) / T)|
        ≤ |(roundFloat64 (L : ℚ) - L) / S| + |(L : ℚ) / S * ((T - S) / T)| := abs_add _ _
      _ ≤ 1 / 2 ^ 53 * (|(L : ℚ)| / S) + |(L : ℚ)| / S * (4 / 2 ^ 53) := add_le_add t1 t2
      _ = 5 / 2 ^ 53 * (|(L : ℚ)| / S) := by ring
  have hmag : |roundFloat64 (L : ℚ) / S| ≤ |(L : ℚ)| / T + 5 / 2 ^ 53 * (|(L : ℚ)| / S) := by
    have := abs_sub_abs_le_abs_sub (roundFloat64 (L : ℚ) / S) ((L : ℚ) / T)
    rw [hA] at this
    linarith
  have htri : |roundFloat64 (roundFloat64 (L : ℚ) / S) - (L : ℚ) / T| ≤
      |roundFloat64 (roundFloat64 (L : ℚ) / S) - roundFloat64 (L : ℚ) / S| +
        |roundFloat64 (L : ℚ) / S - (L : ℚ) / T| := abs_sub_le _ _ _
  rw [hA]
  have hA0 : 0 ≤ |(L : ℚ)| / T := div_nonneg (abs_nonneg _) hT.le
  generalize |(L : ℚ)| / T = A at *
  generalize |(L : ℚ)| / S = B at *
  generalize |roundFloat64 (roundFloat64 (L : ℚ) / S) - (L : ℚ) / T| = E at *
  generalize |roundFloat64 (roundFloat64 (L : ℚ) / S) - roundFloat64 (L : ℚ) / S| = E1 at *
  generalize |roundFloat64 (L : ℚ) / S - (L : ℚ) / T| = E2 at *
  generalize |roundFloat64 (L : ℚ) / S| = M at *
  norm_num at *
  linarith

/-! ## The claims -/

/-- C1: the events of competitor X, in processing order, are `before`, then
its only Started event `start` (at t0), then `after` and `finish`, where
`before` holds no Started and no LapCompleted event, `after` holds no Started
event, `finish` is a LapCompleted event, and `after` with `finish` holds
exactly n LapCompleted events (at t1 ≤ ... ≤ tn) for the lap count n (which
is then at least 1); the timestamps of X are clock times of the reference
date, as ParseTime builds them.  Then Run followed by FinalizeResults on a
fresh simulation do not abort and leave X with status Completed,
ActualStartTime t0, FinishTime tn and exactly n lap records, lap i having
StartTime t(i-1), EndTime t(i) and LapDuration t(i) - t(i-1). -/
theorem C1_full_race_is_completed (config : Config) (evs : List Event) (X : Int)
    (before after : List Event) (start finish : Event)
    (hclock : ∀ e ∈ evs, e.CompetitorID = X → Time.isClockTime e.Timestamp)
    (hsplit : eventsOf X evs = before ++ start :: (after ++ [finish]))
    (hbefore : ∀ e ∈ before, e.ID ≠ EventStarted ∧ e.ID ≠ EventEndedMainLap)
    (hstart : start.ID = EventStarted)
    (hafter : ∀ e ∈ after, e.ID ≠ EventStarted)
    (hfinish : finish.ID = EventEndedMainLap)
    (hcount : (((after ++ [finish]).filter (fun e => e.ID = EventEndedMainLap)).length : Int) =
      config.Laps) :
    ∃ s c, simulate config evs = some s ∧ s.Competitors X = some c ∧
      c.Status = .Completed ∧
      c.ActualStartTime = start.Timestamp ∧
      c.FinishTime = finish.Timestamp ∧
      (c.LapsData.length : Int) = config.Laps ∧
      c.LapsData.map (fun l => (l.StartTime, l.EndTime, l.LapDuration)) =
        (List.zip
          (start.Timestamp ::
            ((after ++ [finish]).filter (fun e => e.ID = EventEndedMainLap)).map
              (fun e => e.Timestamp))
          (((after ++ [finish]).filter (fun e => e.ID = EventEndedMainLap)).map
            (fun e => e.Timestamp))).map
          (fun p => (p.1, p.2, p.2 - p.1)) := by
  obtain ⟨s, c0, hsim, hc0, _, hs⟩ := simulate_competitor config evs X (by rw [hsplit]; simp)
  -- the three phases of the replay
  obtain ⟨cb, hcb, hib, hlb⟩ := replay_before_start config before X hbefore
  obtain ⟨r, hr, hri, _, hst, _⟩ := stepCompetitor_laps config cb start hib
  obtain ⟨hcur, hact, ht⟩ := hst hstart
  rw [if_pos hlb] at ht
  obtain ⟨c1, hc1, _, hstatus, hft, hact1, ht1⟩ :=
    replay_race config start.Timestamp finish hfinish (after ++ [finish]) r.1 [] start.Timestamp
      hri (by rw [ht]; rfl) (by rw [hcur]; rfl) hact
      (by
        intro e he
        rcases List.mem_append.1 he with h | h
        · exact hafter e h
        · rw [List.mem_singleton.1 h, hfinish]; decide)
      (by simp) (by simpa using hcount)
  rw [hsplit, replay_append, hcb, Option.some_bind,
    replay_cons_of_step config cb start _ r hr, hc1] at hc0
  simp only [Option.some.injEq] at hc0
  subst hc0
  rw [List.nil_append] at ht1
  -- the timestamps are clock times
  have hmemX : ∀ e ∈ eventsOf X evs, Time.isClockTime e.Timestamp :=
    fun e he => hclock e (mem_eventsOf.1 he).1 (mem_eventsOf.1 he).2
  have hstartc : Time.isClockTime start.Timestamp :=
    hmemX start (by rw [hsplit]; simp)
  have hendc : ∀ t ∈ ((after ++ [finish]).filter (fun e => e.ID = EventEndedMainLap)).map
      (fun e => e.Timestamp), Time.isClockTime t := by
    intro t ht
    obtain ⟨e, he, rfl⟩ := List.mem_map.1 ht
    exact hmemX e (by
      rw [hsplit]
      exact List.mem_append_right _ (List.mem_cons_of_mem _ (List.mem_filter.1 he).1))
  have hpairs : ∀ p ∈ c1.LapsData.map (fun l => (l.StartTime, l.EndTime)),
      Time.isClockTime p.1 ∧ Time.isClockTime p.2 := by
    intro p hp
    change p ∈ lapTimes c1 at hp
    rw [ht1] at hp
    obtain ⟨h1, h2⟩ := List.of_mem_zip hp
    refine ⟨?_, hendc _ h2⟩
    rcases List.mem_cons.1 h1 with h | h
    · rw [h]; exact hstartc
    · exact hendc _ h
  have hnz : Time.IsZero c1.ActualStartTime = false := by
    rw [hact1]; exact isClockTime_not_zero hstartc
  refine ⟨s, _, hsim, hs, ?_, ?_, ?_, ?_, ?_⟩
  · rw [finalRecord_eq, checkNotStarted_eq]
    simp [finalStatus, hstatus, hnz]
  · rw [finalRecord_eq]; exact hact1
  · rw [finalRecord_eq]; exact hft
  · rw [finalRecord_eq]
    show (((c1.LapsData.map (calculateLap config)).length : Nat) : Int) = config.Laps
    rw [List.length_map, ← length_lapTimes, ht1, ← hcount]
    simp
  · rw [finalRecord_eq]
    show (c1.LapsData.map (calculateLap config)).map
      (fun l => (l.StartTime, l.EndTime, l.LapDuration)) = _
    rw [map_calculateLap_times config c1.LapsData hpairs]
    change (lapTimes c1).map _ = _
    rw [ht1]


/-- Scenario A of the test suite: one lap from 10:00:00 to 10:10:00 with five
hits; the lap lasts ten minutes. -/
theorem C1_full_race_is_completed_witness :
    ∃ s c, simulate { Laps := 1, LapLen := 1000, PenaltyLen := 100, FiringLines := 1 }
        [{ Timestamp := projectEpoch + 32400 * nsPerSecond, ID := EventRegistered, CompetitorID := 1 },
         { Timestamp := projectEpoch + 32460 * nsPerSecond, ID := EventStartTimeSet,
           CompetitorID := 1, ScheduledStartTime := projectEpoch + 36000 * nsPerSecond },
         { Timestamp := projectEpoch + 35990 * nsPerSecond, ID := EventOnStartLine,
           CompetitorID := 1 },
         { Timestamp := projectEpoch + 36000 * nsPerSecond, ID := EventStarted, CompetitorID := 1 },
         { Timestamp := projectEpoch + 36300 * nsPerSecond, ID := EventOnFiringRange,
           CompetitorID := 1, FiringRange := 1 },
         { Timestamp := projectEpoch + 36301 * nsPerSecond, ID := EventTargetHit,
           CompetitorID := 1, Target := 1 },
         { Timestamp := projectEpoch + 36302 * nsPerSecond, ID := EventTargetHit,
           CompetitorID := 1, Target := 2 },
         { Timestamp := projectEpoch + 36303 * nsPerSecond, ID := EventTargetHit,
           CompetitorID := 1, Target := 3 },
         { Timestamp := projectEpoch + 36304 * nsPerSecond, ID := EventTargetHit,
           CompetitorID := 1, Target := 4 },
         { Timestamp := projectEpoch + 36305 * nsPerSecond, ID := EventTargetHit,
           CompetitorID := 1, Target := 5 },
         { Timestamp := projectEpoch + 36310 * nsPerSecond, ID := EventLeftFiringRange,
           CompetitorID := 1 },
         { Timestamp := projectEpoch + 36600 * nsPerSecond, ID := EventEndedMainLap,
           CompetitorID := 1 }] = some s ∧
      s.Competitors 1 = some c ∧
      c.Status = .Completed ∧
      c.ActualStartTime = projectEpoch + 36000 * nsPerSecond ∧
      c.FinishTime = projectEpoch + 36600 * nsPerSecond ∧
      (c.LapsData.length : Int) = 1 ∧
      c.LapsData.map (fun l => (l.StartTime, l.EndTime, l.LapDuration)) =
        [(projectEpoch + 36000 * nsPerSecond, projectEpoch + 36600 * nsPerSecond,
          600 * nsPerSecond)] := by
  refine C1_full_race_is_completed
    { Laps := 1, LapLen := 1000, PenaltyLen := 100, FiringLines := 1 } _ 1
    [{ Timestamp := projectEpoch + 32400 * nsPerSecond, ID := EventRegistered, CompetitorID := 1 },
     { Timestamp := projectEpoch + 32460 * nsPerSecond, ID := EventStartTimeSet,
       CompetitorID := 1, ScheduledStartTime := projectEpoch + 36000 * nsPerSecond },
     { Timestamp := projectEpoch + 35990 * nsPerSecond, ID := EventOnStartLine,
       CompetitorID := 1 }]
    [{ Timestamp := projectEpoch + 36300 * nsPerSecond, ID := EventOnFiringRange,
       CompetitorID := 1, FiringRange := 1 },
     { Timestamp := projectEpoch + 36301 * nsPerSecond, ID := EventTargetHit,
       CompetitorID := 1, Target := 1 },
     { Timestamp := projectEpoch + 36302 * nsPerSecond, ID := EventTargetHit,
       CompetitorID := 1, Target := 2 },
     { Timestamp := projectEpoch + 36303 * nsPerSecond, ID := EventTargetHit,
       CompetitorID := 1, Target := 3 },
     { Timestamp := projectEpoch + 36304 * nsPerSecond, ID := EventTargetHit,
       CompetitorID := 1, Target := 4 },
     { Timestamp := projectEpoch + 36305 * nsPerSecond, ID := EventTargetHit,
       CompetitorID := 1, Target := 5 },
     { Timestamp := projectEpoch + 36310 * nsPerSecond, ID := EventLeftFiringRange,
       CompetitorID := 1 }]
    { Timestamp := projectEpoch + 36000 * nsPerSecond, ID := EventStarted, CompetitorID := 1 }
    { Timestamp := projectEpoch + 36600 * nsPerSecond, ID := EventEndedMainLap,
      CompetitorID := 1 }
    ?_ ?_ ?_ rfl ?_ rfl ?_
  · decide
  · decide
  · decide
  · decide
  · decide

/-- C2: for a competitor that is reachable from a fresh simulation and is on
a lap (CurrentLapNumber at least 1), processing for it, consecutively among
its events, OnFiringRange, k TargetHit events, LeftFiringRange,
EnteredPenaltyLoop at time a and LeftPenaltyLoop at time b does not abort,
increases TotalPenaltiesServed by exactly 5 - k, sets the current lap's
PenaltiesServed to 5 - k and its penalty entry and exit times to a and b, and
leaves the queued penalty count at 0. -/
theorem C2_penalties_served_are_misses (config : Config) (evs0 : List Event) (s : Simulation)
    (X : Int) (c : Competitor)
    (hreach : processEvents (NewSimulation config) evs0 = some s)
    (hc : s.Competitors X = some c) (hlap : 1 ≤ c.CurrentLapNumber)
    (es hits : List Event) (onRange left entered exited : Event)
    (hes : es.filter (fun e => e.CompetitorID = X) = onRange :: hits ++ [left, entered, exited])
    (hOnRange : onRange.ID = EventOnFiringRange)
    (hHits : ∀ e ∈ hits, e.ID = EventTargetHit)
    (hLeft : left.ID = EventLeftFiringRange)
    (hEntered : entered.ID = EventEnteredPenaltyLaps)
    (hExited : exited.ID = EventLeftPenaltyLaps) :
    ∃ s1 c1 lap, processEvents s es = some s1 ∧ s1.Competitors X = some c1 ∧
      c1.TotalPenaltiesServed = c.TotalPenaltiesServed + (5 - (hits.length : Int)) ∧
      c1.CurrentLapNumber = c.CurrentLapNumber ∧
      c1.LapsData[(c1.CurrentLapNumber - 1).toNat]? = some lap ∧
      lap.PenaltiesServed = 5 - (hits.length : Int) ∧
      lap.PenaltyEntryTime = entered.Timestamp ∧
      lap.PenaltyExitTime = exited.Timestamp ∧
      c1.CurrentLapTempData.PenaltiesToServe = 0 := by
  -- the state is reachable, so its records satisfy the lap invariant
  obtain ⟨s', hs', hcfg, hinv, _⟩ := processEvents_fresh config evs0
  rw [hreach] at hs'
  simp only [Option.some.injEq] at hs'
  subst hs'
  obtain ⟨s1, hs1, _, _⟩ := processEvents_invariant config LapsInv lapsInv_new
    (stepCompetitor_lapsInv config) es s hcfg hinv
  have hne : es.filter (fun e => e.CompetitorID = X) ≠ [] := by rw [hes]; simp
  have hrep := (processEvents_competitor X es s s1 hs1).2 hne
  rw [hes, hcfg, currentRecord_of_some hc] at hrep
  have hlen : c.CurrentLapNumber ≤ (c.LapsData.length : Int) := (hinv X c hc).2.1
  -- OnFiringRange, then the TargetHit events
  obtain ⟨c2, hc2, h2cur, h2laps, h2tot, h2hits⟩ := replay_targetHits config hits
    (caseOnFiringRange { c with LastEventTime := onRange.Timestamp } onRange).1 hHits
  rw [List.cons_append,
    replay_cons_of_step config c onRange _ _ (stepCompetitor_onFiringRange config c onRange hOnRange),
    replay_append, hc2, Option.some_bind] at hrep
  -- LeftFiringRange, EnteredPenaltyLoop, LeftPenaltyLoop
  rw [replay_cons_of_step config c2 left _ _ (stepCompetitor_leftFiringRange config c2 left hLeft),
    replay_cons_of_step config _ entered _ _
      (stepCompetitor_enteredPenaltyLaps config _ entered hEntered),
    replay_cons_of_step config _ exited _ _
      (stepCompetitor_leftPenaltyLaps config _ exited hExited)] at hrep
  simp only [replay] at hrep
  rw [caseLeftPenaltyLaps_fst] at hrep
  simp only [caseEnteredPenaltyLaps] at hrep
  rw [caseLeftFiringRange_fst] at hrep
  simp only [caseOnFiringRange] at h2cur h2laps h2tot h2hits
  have hcur2 : 1 ≤ c2.CurrentLapNumber := by rw [h2cur]; exact hlap
  have hlen2 : c2.CurrentLapNumber ≤ (c2.LapsData.length : Int) := by
    rw [h2cur, h2laps]; exact hlen
  have hrange : 0 ≤ c2.CurrentLapNumber - 1 ∧
      c2.CurrentLapNumber - 1 < (c2.LapsData.length : Int) := ⟨by omega, by omega⟩
  simp only [hrange, and_self, if_true, List.length_modify] at hrep
  have hidx : (c2.CurrentLapNumber - 1).toNat < c2.LapsData.length := by omega
  obtain ⟨lap0, _, hlap0⟩ := getElem?_modify_self
    (fun lap : LapRecord => { lap with
      PenaltyEntryTime := entered.Timestamp
      PenaltyExitTime := exited.Timestamp
      PenaltiesServed := 5 - c2.CurrentLapTempData.HitsInSession })
    (c2.LapsData.modify
      (fun lap => { lap with ShootingData := lap.ShootingData ++
        [sessionRecord { c2 with LastEventTime := left.Timestamp } left] })
      (c2.CurrentLapNumber - 1).toNat)
    (c2.CurrentLapNumber - 1).toNat (by rw [List.length_modify]; exact hidx)
  have hk : 5 - c2.CurrentLapTempData.HitsInSession = 5 - (hits.length : Int) := by
    rw [h2hits]; ring
  refine ⟨s1, _, _, hs1, hrep, ?_, h2cur, hlap0, hk, rfl, rfl, rfl⟩
  show c2.TotalPenaltiesServed + (5 - c2.CurrentLapTempData.HitsInSession) = _
  rw [h2tot, hk]


/-- Scenario B of the test suite: one hit, four penalty loops between
10:05:15 and 10:07:15. -/
theorem C2_penalties_served_are_misses_witness :
    ∃ s, processEvents (NewSimulation { Laps := 1, LapLen := 1000, PenaltyLen := 100 })
        [{ Timestamp := projectEpoch + 32400 * nsPerSecond, ID := EventRegistered, CompetitorID := 2 },
         { Timestamp := projectEpoch + 36000 * nsPerSecond, ID := EventStarted,
           CompetitorID := 2 }] = some s ∧
      ∃ s1 c1 lap, processEvents s
        [{ Timestamp := projectEpoch + 36300 * nsPerSecond, ID := EventOnFiringRange,
           CompetitorID := 2, FiringRange := 1 },
         { Timestamp := projectEpoch + 36301 * nsPerSecond, ID := EventTargetHit,
           CompetitorID := 2, Target := 1 },
         { Timestamp := projectEpoch + 36310 * nsPerSecond, ID := EventLeftFiringRange,
           CompetitorID := 2 },
         { Timestamp := projectEpoch + 36315 * nsPerSecond, ID := EventEnteredPenaltyLaps,
           CompetitorID := 2 },
         { Timestamp := projectEpoch + 36435 * nsPerSecond, ID := EventLeftPenaltyLaps,
           CompetitorID := 2 }] = some s1 ∧
        s1.Competitors 2 = some c1 ∧
        c1.TotalPenaltiesServed = 4 ∧
        c1.CurrentLapNumber = 1 ∧
        c1.LapsData[(c1.CurrentLapNumber - 1).toNat]? = some lap ∧
        lap.PenaltiesServed = 4 ∧
        lap.PenaltyEntryTime = projectEpoch + 36315 * nsPerSecond ∧
        lap.PenaltyExitTime = projectEpoch + 36435 * nsPerSecond ∧
        c1.CurrentLapTempData.PenaltiesToServe = 0 := by
  refine ⟨_, rfl, ?_⟩
  refine C2_penalties_served_are_misses
    { Laps := 1, LapLen := 1000, PenaltyLen := 100 }
    [{ Timestamp := projectEpoch + 32400 * nsPerSecond, ID := EventRegistered, CompetitorID := 2 },
     { Timestamp := projectEpoch + 36000 * nsPerSecond, ID := EventStarted, CompetitorID := 2 }]
    _ 2 _ rfl rfl ?_ _
    [{ Timestamp := projectEpoch + 36301 * nsPerSecond, ID := EventTargetHit,
       CompetitorID := 2, Target := 1 }]
    { Timestamp := projectEpoch + 36300 * nsPerSecond, ID := EventOnFiringRange,
      CompetitorID := 2, FiringRange := 1 }
    { Timestamp := projectEpoch + 36310 * nsPerSecond, ID := EventLeftFiringRange,
      CompetitorID := 2 }
    { Timestamp := projectEpoch + 36315 * nsPerSecond, ID := EventEnteredPenaltyLaps,
      CompetitorID := 2 }
    { Timestamp := projectEpoch + 36435 * nsPerSecond, ID := EventLeftPenaltyLaps,
      CompetitorID := 2 }
    ?_ rfl ?_ rfl rfl rfl
  · decide
  · decide
  · decide

/-- C3: a competitor all of whose events are of kind Registered,
StartTimeAssigned or OnStartLine has status NotStarted after Run on a fresh
simulation, and still has it after FinalizeResults. -/
theorem C3_unstarted_competitor_is_NotStarted (config : Config) (evs : List Event) (X : Int)
    (hX : ∃ e ∈ evs, e.CompetitorID = X)
    (hkinds : ∀ e ∈ evs, e.CompetitorID = X →
      e.ID = EventRegistered ∨ e.ID = EventStartTimeSet ∨ e.ID = EventOnStartLine) :
    ∃ s c, Run (NewSimulation config) evs = some s ∧ s.Competitors X = some c ∧
      c.Status = .NotStarted ∧
      ∃ c1, (FinalizeResults s).Competitors X = some c1 ∧ c1.Status = .NotStarted := by
  obtain ⟨s0, _, hcfg, hrun, _, _, hrep⟩ := run_fresh config evs
  have hne : eventsOf X evs ≠ [] := by
    obtain ⟨e, he, hid⟩ := hX
    exact List.ne_nil_of_mem (mem_eventsOf.2 ⟨he, hid⟩)
  obtain ⟨c0, hc0, hst, hact⟩ := replay_invariant config
    (fun c => (c.Status = .Registered ∨ c.Status = .Scheduled) ∧ c.ActualStartTime = 0)
    (eventsOf X evs)
    (fun c e he hc => stepCompetitor_prestart config c e
      (hkinds e (mem_eventsOf.1 he).1 (mem_eventsOf.1 he).2) hc)
    (NewCompetitor X) ⟨Or.inl rfl, rfl⟩
  have hs0 : s0.Competitors X = some c0 := by rw [(hrep X).2 hne, hc0]
  have hz : Time.IsZero c0.ActualStartTime = true := by simp [Time.IsZero, hact]
  have hchk : (checkNotStarted c0).Status = .NotStarted := by
    rw [checkNotStarted_eq]; simp [hz, hst]
  refine ⟨_, checkNotStarted c0, hrun, by simp [checkForNotStarted, hs0], hchk,
    finalizeCompetitor config (checkNotStarted c0), by simp [FinalizeResults, checkForNotStarted, hs0, hcfg], ?_⟩
  rw [finalizeCompetitor_eq]
  simp [finalStatus, hchk]

/-- Scenario C of the test suite: Registered and StartTimeAssigned only. -/
theorem C3_unstarted_competitor_is_NotStarted_witness :
    ∃ s c, Run (NewSimulation { Laps := 1, LapLen := 1000, PenaltyLen := 100, FiringLines := 1 })
        [{ Timestamp := projectEpoch + 32400 * nsPerSecond, ID := EventRegistered, CompetitorID := 3 },
         { Timestamp := projectEpoch + 32460 * nsPerSecond, ID := EventStartTimeSet,
           CompetitorID := 3, ScheduledStartTime := projectEpoch + 36000 * nsPerSecond }] = some s ∧
      s.Competitors 3 = some c ∧ c.Status = .NotStarted ∧
      ∃ c1, (FinalizeResults s).Competitors 3 = some c1 ∧ c1.Status = .NotStarted :=
  C3_unstarted_competitor_is_NotStarted _ _ 3 ⟨_, List.mem_cons_self _ _, rfl⟩ (by
    intro e he _
    simp only [List.mem_cons, List.mem_singleton, List.not_mem_nil, or_false] at he
    rcases he with rfl | rfl
    · exact Or.inl rfl
    · exact Or.inr (Or.inl rfl))

/-- C4: a competitor whose last event in processing order is CannotContinue
with comment c has, after Run and FinalizeResults on a fresh simulation,
status NotFinished and DNFComment c. -/
theorem C4_cannot_continue_last_is_NotFinished (config : Config) (evs : List Event) (X : Int)
    (earlier : List Event) (last : Event)
    (hsplit : eventsOf X evs = earlier ++ [last])
    (hlast : last.ID = EventCannotContinue) :
    ∃ s c, simulate config evs = some s ∧ s.Competitors X = some c ∧
      c.Status = .NotFinished ∧ c.DNFComment = last.Comment := by
  obtain ⟨s, c0, hsim, hc0, _, hs⟩ := simulate_competitor config evs X
    (by rw [hsplit]; simp)
  obtain ⟨c1, hc1, _⟩ := replay_lapsInv config earlier (NewCompetitor X) (lapsInv_new X)
  rw [hsplit, replay_concat config earlier last _ c1 hc1,
    stepCompetitor_cannotContinue config c1 last hlast] at hc0
  simp only [Option.map_some', Option.some.injEq] at hc0
  subst hc0
  refine ⟨s, _, hsim, hs, ?_, ?_⟩
  · rw [finalRecord_eq, checkNotStarted_eq]
    simp [finalStatus, caseCannotContinue]
  · rw [finalRecord_eq]
    rfl

/-- Scenario D of the test suite: Started, then CannotContinue("Injured"). -/
theorem C4_cannot_continue_last_is_NotFinished_witness :
    ∃ s c, simulate { Laps := 1, LapLen := 1000, PenaltyLen := 100, FiringLines := 1 }
        [{ Timestamp := projectEpoch + 32400 * nsPerSecond, ID := EventRegistered, CompetitorID := 4 },
         { Timestamp := projectEpoch + 32460 * nsPerSecond, ID := EventStartTimeSet,
           CompetitorID := 4, ScheduledStartTime := projectEpoch + 36000 * nsPerSecond },
         { Timestamp := projectEpoch + 36000 * nsPerSecond, ID := EventStarted, CompetitorID := 4 },
         { Timestamp := projectEpoch + 36300 * nsPerSecond, ID := EventCannotContinue,
           CompetitorID := 4, Comment := "Injured" }] = some s ∧
      s.Competitors 4 = some c ∧ c.Status = .NotFinished ∧ c.DNFComment = "Injured" :=
  C4_cannot_continue_last_is_NotFinished _ _ 4
    [{ Timestamp := projectEpoch + 32400 * nsPerSecond, ID := EventRegistered, CompetitorID := 4 },
     { Timestamp := projectEpoch + 32460 * nsPerSecond, ID := EventStartTimeSet,
       CompetitorID := 4, ScheduledStartTime := projectEpoch + 36000 * nsPerSecond },
     { Timestamp := projectEpoch + 36000 * nsPerSecond, ID := EventStarted, CompetitorID := 4 }]
    { Timestamp := projectEpoch + 36300 * nsPerSecond, ID := EventCannotContinue,
      CompetitorID := 4, Comment := "Injured" }
    (by decide) rfl

/-- C5: processEvent has no `case EventDisqualified`.  A competitor that is
Racing, OnRange or InPenalty keeps that status when a Disqualified event
addressed to it is processed; the status does not become Disqualified. -/
theorem C5_disqualified_event_keeps_status (s : Simulation) (e : Event)
    (c : Competitor) (hs : s.Competitors e.CompetitorID = some c)
    (hst : c.Status = .Racing ∨ c.Status = .OnRange ∨ c.Status = .InPenalty)
    (he : e.ID = EventDisqualified) :
    ∃ s1 c1, processEvent s e = some s1 ∧ s1.Competitors e.CompetitorID = some c1 ∧
      c1.Status = c.Status ∧ c1.Status ≠ .Disqualified := by
  have hstep := stepCompetitor_no_case s.Config c e (by rw [he]; decide) (by rw [he]; decide)
    (by rw [he]; decide) (by rw [he]; decide) (by rw [he]; decide) (by rw [he]; decide)
    (by rw [he]; decide) (by rw [he]; decide) (by rw [he]; decide) (by rw [he]; decide)
  rw [processEvent_eq, currentRecord_of_some hs, hstep]
  refine ⟨_, { c with LastEventTime := e.Timestamp }, rfl, by simp, rfl, ?_⟩
  show c.Status ≠ .Disqualified
  rcases hst with h | h | h <;> rw [h] <;> decide

/-- A competitor that started at 10:00:00 and is disqualified at 10:05:00 is
still Racing after the Disqualified event. -/
theorem C5_disqualified_event_keeps_status_witness :
    ∃ s1 c1,
      processEvent
        { Config := { Laps := 1 }
          Competitors := fun k => if k = 1 then
            some { NewCompetitor 1 with
              Status := .Racing, ActualStartTime := projectEpoch + 36000 * nsPerSecond,
              CurrentLapNumber := 1,
              LapsData := [{ LapNumber := 1, StartTime := projectEpoch + 36000 * nsPerSecond }] }
            else none
          OutputLog := [] }
        { Timestamp := projectEpoch + 36300 * nsPerSecond, ID := EventDisqualified,
          CompetitorID := 1 } = some s1 ∧
      s1.Competitors 1 = some c1 ∧ c1.Status = .Racing ∧ c1.Status ≠ .Disqualified :=
  C5_disqualified_event_keeps_status
    { Config := { Laps := 1 }
      Competitors := fun k => if k = 1 then
        some { NewCompetitor 1 with
          Status := .Racing, ActualStartTime := projectEpoch + 36000 * nsPerSecond,
          CurrentLapNumber := 1,
          LapsData := [{ LapNumber := 1, StartTime := projectEpoch + 36000 * nsPerSecond }] }
        else none
      OutputLog := [] }
    { Timestamp := projectEpoch + 36300 * nsPerSecond, ID := EventDisqualified, CompetitorID := 1 }
    { NewCompetitor 1 with
      Status := .Racing, ActualStartTime := projectEpoch + 36000 * nsPerSecond,
      CurrentLapNumber := 1,
      LapsData := [{ LapNumber := 1, StartTime := projectEpoch + 36000 * nsPerSecond }] }
    rfl (Or.inl rfl) rfl

/-- C6: with a lap count of at least 1, after processing any number k of the
sorted events on a fresh simulation (which never aborts), every competitor
has 0 ≤ CurrentLapNumber ≤ lap count. -/
theorem C6_current_lap_within_lap_count (config : Config) (evs : List Event) (k : Nat)
    (hn : 1 ≤ config.Laps) :
    ∃ s, processEvents (NewSimulation config) ((sortEvents evs).take k) = some s ∧
      ∀ id c, s.Competitors id = some c →
        0 ≤ c.CurrentLapNumber ∧ c.CurrentLapNumber ≤ config.Laps := by
  obtain ⟨s, hs, _, hP⟩ := processEvents_invariant config
    (fun c => LapsInv c ∧ c.CurrentLapNumber ≤ config.Laps)
    (fun id => ⟨lapsInv_new id, by simp only [NewCompetitor]; omega⟩)
    (stepCompetitor_lapNumber_le config hn) ((sortEvents evs).take k) (NewSimulation config) rfl
    (by intro k c h; simp [NewSimulation] at h)
  exact ⟨s, hs, fun id c h => ⟨(hP id c h).1.1, (hP id c h).2⟩⟩

/-- Two laps, a competitor that starts and completes one lap: after all three
events it is on lap 2 of 2. -/
theorem C6_current_lap_within_lap_count_witness :
    ∃ s, processEvents (NewSimulation { Laps := 2 })
        ((sortEvents
          [{ Timestamp := projectEpoch + 36600 * nsPerSecond, ID := EventEndedMainLap,
             CompetitorID := 1 },
           { Timestamp := projectEpoch + 36000 * nsPerSecond, ID := EventStarted,
             CompetitorID := 1 },
           { Timestamp := projectEpoch + 32400 * nsPerSecond, ID := EventRegistered,
             CompetitorID := 1 }]).take 3) = some s ∧
      ∀ id c, s.Competitors id = some c →
        0 ≤ c.CurrentLapNumber ∧ c.CurrentLapNumber ≤ ({ Laps := 2 } : Config).Laps :=
  C6_current_lap_within_lap_count { Laps := 2 } _ 3 (by decide)

/-- C7 (as stated, refuted): with two laps, a competitor that starts at
10:00:00, completes a lap at 10:10:00 and is started again at 10:20:00 has,
after these three events, CurrentLapNumber 1 and two lap records. -/
theorem C7_counterexample_restart_after_lap :
    ∃ s c, processEvents (NewSimulation { Laps := 2, LapLen := 1000, PenaltyLen := 100 })
        ((sortEvents
          [{ Timestamp := projectEpoch + 36000 * nsPerSecond, ID := EventStarted, CompetitorID := 1 },
           { Timestamp := projectEpoch + 36600 * nsPerSecond, ID := EventEndedMainLap,
             CompetitorID := 1 },
           { Timestamp := projectEpoch + 37200 * nsPerSecond, ID := EventStarted,
             CompetitorID := 1 }]).take 3) = some s ∧
      s.Competitors 1 = some c ∧ c.CurrentLapNumber = 1 ∧ c.LapsData.length = 2 ∧
      ¬ ((c.LapsData.length : Int) ≤ c.CurrentLapNumber) :=
  ⟨_, _, rfl, rfl, rfl, rfl, by decide⟩

/-- C7 (amended): for a competitor X none of whose Started events is processed
after one of its LapCompleted events, after processing any number k of the
sorted events on a fresh simulation (which never aborts) the list of lap
records of X has at most CurrentLapNumber entries. -/
theorem C7_lap_records_at_most_current_lap (config : Config) (evs : List Event) (k : Nat)
    (X : Int)
    (h : (eventsOf X evs).Pairwise
      (fun a b => ¬ (a.ID = EventEndedMainLap ∧ b.ID = EventStarted))) :
    ∃ s, processEvents (NewSimulation config) ((sortEvents evs).take k) = some s ∧
      ∀ c, s.Competitors X = some c → (c.LapsData.length : Int) ≤ c.CurrentLapNumber := by
  obtain ⟨s, hs, _, _, hrep⟩ := processEvents_fresh config ((sortEvents evs).take k)
  refine ⟨s, hs, ?_⟩
  intro c hc
  have hne : ((sortEvents evs).take k).filter (fun e => e.CompetitorID = X) ≠ [] := by
    intro hnil
    rw [(hrep X).1 hnil] at hc
    simp at hc
  obtain ⟨c1, hc1, hle⟩ := replay_lap_count config
    (((sortEvents evs).take k).filter (fun e => e.CompetitorID = X)) (NewCompetitor X)
    (loopInv_new X) (by simp [NewCompetitor]) (Or.inl (by simp [NewCompetitor]))
    (h.sublist (filter_take_isPrefix evs k X).sublist)
  rw [(hrep X).2 hne, hc1] at hc
  simp only [Option.some.injEq] at hc
  rw [← hc]; exact hle

/-- Two laps, started once: on lap 2 after the first lap, with two lap records. -/
theorem C7_lap_records_at_most_current_lap_witness :
    ∃ s, processEvents (NewSimulation { Laps := 2, LapLen := 1000, PenaltyLen := 100 })
        ((sortEvents
          [{ Timestamp := projectEpoch + 32400 * nsPerSecond, ID := EventRegistered,
             CompetitorID := 1 },
           { Timestamp := projectEpoch + 36000 * nsPerSecond, ID := EventStarted, CompetitorID := 1 },
           { Timestamp := projectEpoch + 36600 * nsPerSecond, ID := EventEndedMainLap,
             CompetitorID := 1 }]).take 3) = some s ∧
      ∀ c, s.Competitors 1 = some c → (c.LapsData.length : Int) ≤ c.CurrentLapNumber :=
  C7_lap_records_at_most_current_lap _ _ 3 1 (by decide)

/-- C8: after processing any number k of the sorted events on a fresh
simulation (which never aborts), the lap records of every competitor are
numbered contiguously from 1: the record at 0-based position i has
LapNumber i + 1. -/
theorem C8_lap_records_numbered_from_one (config : Config) (evs : List Event) (k : Nat) :
    ∃ s, processEvents (NewSimulation config) ((sortEvents evs).take k) = some s ∧
      ∀ id c, s.Competitors id = some c →
        ∀ (i : Nat) (lap : LapRecord), c.LapsData[i]? = some lap →
          lap.LapNumber = (i : Int) + 1 := by
  obtain ⟨s, hs, _, hinv, _⟩ := processEvents_fresh config ((sortEvents evs).take k)
  exact ⟨s, hs, fun id c h => (hinv id c h).2.2⟩

/-- C9 (as stated, refuted): a competitor that starts at 10:00:00 and for
which a Registered event is processed at 10:05:00 has status Registered after
Run and FinalizeResults. -/
theorem C9_counterexample_registered_after_start :
    ∃ s c, simulate { Laps := 1, LapLen := 1000, PenaltyLen := 100, FiringLines := 1 }
        [{ Timestamp := projectEpoch + 36000 * nsPerSecond, ID := EventStarted, CompetitorID := 1 },
         { Timestamp := projectEpoch + 36300 * nsPerSecond, ID := EventRegistered,
           CompetitorID := 1 }] = some s ∧
      s.Competitors 1 = some c ∧ c.Status = .Registered :=
  ⟨_, _, rfl, rfl, rfl⟩

/-- C9 (amended): after Run and FinalizeResults on a fresh simulation (which
never abort), a competitor has status Registered or Scheduled only if its
ActualStartTime is set and the event list holds a Started event addressed to
it; no competitor without a Started event is left Registered or Scheduled. -/
theorem C9_initial_status_only_after_start (config : Config) (evs : List Event) :
    ∃ s, simulate config evs = some s ∧
      ∀ id c, s.Competitors id = some c → (c.Status = .Registered ∨ c.Status = .Scheduled) →
        c.ActualStartTime ≠ 0 ∧ ∃ e ∈ evs, e.CompetitorID = id ∧ e.ID = EventStarted := by
  obtain ⟨s0, _, hcfg, _, hsim, _, hrep⟩ := run_fresh config evs
  refine ⟨_, hsim, ?_⟩
  intro id c hc hst
  rw [finalize_check_competitors, hcfg] at hc
  cases hc0 : s0.Competitors id with
  | none => rw [hc0] at hc; simp at hc
  | some c0 =>
    rw [hc0] at hc
    simp only [Option.map_some', Option.some.injEq] at hc
    subst hc
    have hnz := finalRecord_initial_status config c0 hst
    refine ⟨by rw [finalRecord_actualStart]; exact hnz, ?_⟩
    by_contra hno
    have hne : eventsOf id evs ≠ [] := by
      intro hnil
      rw [(hrep id).1 hnil] at hc0
      simp at hc0
    obtain ⟨c1, hc1, hz⟩ := replay_no_start config (eventsOf id evs) id (by
      intro e he hs
      exact hno ⟨e, (mem_eventsOf.1 he).1, (mem_eventsOf.1 he).2, hs⟩)
    rw [(hrep id).2 hne, hc1] at hc0
    simp only [Option.some.injEq] at hc0
    rw [hc0] at hz
    exact hnz hz

/-- C10 (as stated, refuted): a competitor that is registered at 09:00:00 and
for which a LeftFiringRange event is processed at 09:30:00, before any start,
has TotalShots 5 and no stored session after Run. -/
theorem C10_counterexample_range_exit_before_start :
    ∃ s c, Run (NewSimulation { Laps := 1, LapLen := 1000, PenaltyLen := 100, FiringLines := 1 })
        [{ Timestamp := projectEpoch + 32400 * nsPerSecond, ID := EventRegistered, CompetitorID := 1 },
         { Timestamp := projectEpoch + 34200 * nsPerSecond, ID := EventLeftFiringRange,
           CompetitorID := 1 }] = some s ∧
      s.Competitors 1 = some c ∧ c.TotalShots = 5 ∧ sessionCount c = 0 ∧
      c.TotalShots ≠ 5 * sessionCount c :=
  ⟨_, _, rfl, rfl, rfl, rfl, by decide⟩

/-- C10 (amended): for a competitor X none of whose LeftFiringRange events is
processed before its first Started event, Run on a fresh simulation (which
never aborts) leaves TotalShots = 5 * (number of shooting-session records
stored across all laps of X). -/
theorem C10_shots_are_five_per_session (config : Config) (evs : List Event) (X : Int)
    (h : ∀ e ∈ (eventsOf X evs).takeWhile (fun e => e.ID ≠ EventStarted),
      e.ID ≠ EventLeftFiringRange) :
    ∃ s, Run (NewSimulation config) evs = some s ∧
      ∀ c, s.Competitors X = some c → c.TotalShots = 5 * sessionCount c := by
  obtain ⟨s0, _, _, hrun, _, _, hrep⟩ := run_fresh config evs
  refine ⟨_, hrun, ?_⟩
  intro c hc
  simp only [checkForNotStarted] at hc
  cases hc0 : s0.Competitors X with
  | none => rw [hc0] at hc; simp at hc
  | some c0 =>
    rw [hc0] at hc
    simp only [Option.map_some', Option.some.injEq] at hc
    subst hc
    have hne : eventsOf X evs ≠ [] := by
      intro hnil
      rw [(hrep X).1 hnil] at hc0
      simp at hc0
    obtain ⟨c1, hc1, hS⟩ := replay_shotsInv config (eventsOf X evs) (NewCompetitor X)
      (shotsInv_new X) (Or.inr h)
    rw [(hrep X).2 hne, hc1] at hc0
    simp only [Option.some.injEq] at hc0
    subst hc0
    rw [(checkNotStarted_shots c1).1, (checkNotStarted_shots c1).2]
    exact hS.2

/-- Scenario A of the test suite with one hit: the competitor shoots after its
start, and its 5 shots are one stored session. -/
theorem C10_shots_are_five_per_session_witness :
    ∃ s, Run (NewSimulation { Laps := 1, LapLen := 1000, PenaltyLen := 100, FiringLines := 1 })
        [{ Timestamp := projectEpoch + 32400 * nsPerSecond, ID := EventRegistered, CompetitorID := 1 },
         { Timestamp := projectEpoch + 36000 * nsPerSecond, ID := EventStarted, CompetitorID := 1 },
         { Timestamp := projectEpoch + 36300 * nsPerSecond, ID := EventOnFiringRange,
           CompetitorID := 1, FiringRange := 1 },
         { Timestamp := projectEpoch + 36301 * nsPerSecond, ID := EventTargetHit,
           CompetitorID := 1, Target := 1 },
         { Timestamp := projectEpoch + 36310 * nsPerSecond, ID := EventLeftFiringRange,
           CompetitorID := 1 },
         { Timestamp := projectEpoch + 36600 * nsPerSecond, ID := EventEndedMainLap,
           CompetitorID := 1 }] = some s ∧
      ∀ c, s.Competitors 1 = some c → c.TotalShots = 5 * sessionCount c :=
  C10_shots_are_five_per_session _ _ 1 (by decide)

/-- C11: after Run on a fresh simulation (which never aborts), every
shooting-session record stored in a lap of any competitor has Shots = 5 and
PenaltiesIncurred = Shots - Hits. -/
theorem C11_sessions_have_five_shots (config : Config) (evs : List Event) :
    ∃ s, Run (NewSimulation config) evs = some s ∧
      ∀ id c, s.Competitors id = some c →
        ∀ lap ∈ c.LapsData, ∀ sr ∈ lap.ShootingData,
          sr.Shots = 5 ∧ sr.PenaltiesIncurred = sr.Shots - sr.Hits := by
  obtain ⟨s, hs, _, hP⟩ := run_invariant config (fun c => LapsInv c ∧ SessionsInv c)
    (fun id => ⟨lapsInv_new id, by intro lap hl; simp [NewCompetitor] at hl⟩)
    (stepCompetitor_sessionsInv config)
    (fun c hc => ⟨checkNotStarted_lapsInv c hc.1, by
      unfold SessionsInv; rw [checkNotStarted_lapsData]; exact hc.2⟩) evs
  exact ⟨s, hs, fun id c hc => (hP id c hc).2⟩

/-- C12 (as stated, refuted): a competitor that starts at 10:00:00, enters
the firing range at 10:05:00, is credited six TargetHit events and leaves the
range at 10:05:10 has a stored session record with PenaltiesIncurred = -1
after Run. -/
theorem C12_counterexample_six_hits :
    ∃ s c lap sr,
      Run (NewSimulation { Laps := 1, LapLen := 1000, PenaltyLen := 100, FiringLines := 1 })
        [{ Timestamp := projectEpoch + 36000 * nsPerSecond, ID := EventStarted, CompetitorID := 1 },
         { Timestamp := projectEpoch + 36300 * nsPerSecond, ID := EventOnFiringRange,
           CompetitorID := 1, FiringRange := 1 },
         { Timestamp := projectEpoch + 36301 * nsPerSecond, ID := EventTargetHit,
           CompetitorID := 1, Target := 1 },
         { Timestamp := projectEpoch + 36302 * nsPerSecond, ID := EventTargetHit,
           CompetitorID := 1, Target := 2 },
         { Timestamp := projectEpoch + 36303 * nsPerSecond, ID := EventTargetHit,
           CompetitorID := 1, Target := 3 },
         { Timestamp := projectEpoch + 36304 * nsPerSecond, ID := EventTargetHit,
           CompetitorID := 1, Target := 4 },
         { Timestamp := projectEpoch + 36305 * nsPerSecond, ID := EventTargetHit,
           CompetitorID := 1, Target := 5 },
         { Timestamp := projectEpoch + 36306 * nsPerSecond, ID := EventTargetHit,
           CompetitorID := 1, Target := 5 },
         { Timestamp := projectEpoch + 36310 * nsPerSecond, ID := EventLeftFiringRange,
           CompetitorID := 1 }] = some s ∧
      s.Competitors 1 = some c ∧ lap ∈ c.LapsData ∧ sr ∈ lap.ShootingData ∧
      sr.Hits = 6 ∧ sr.PenaltiesIncurred = -1 ∧ ¬ (0 ≤ sr.PenaltiesIncurred) :=
  ⟨_, _, _, _, rfl, rfl, List.mem_cons_self _ _, List.mem_cons_self _ _, rfl, rfl, by decide⟩

/-- C12 (amended): after Run on a fresh simulation (which never aborts),
every stored shooting-session record has Hits ≥ 0 and PenaltiesIncurred =
5 - Hits, so that PenaltiesIncurred is at most 5 and is non-negative exactly
when at most five hits were counted for the session. -/
theorem C12_penalties_nonneg_iff_at_most_five_hits (config : Config) (evs : List Event) :
    ∃ s, Run (NewSimulation config) evs = some s ∧
      ∀ id c, s.Competitors id = some c →
        ∀ lap ∈ c.LapsData, ∀ sr ∈ lap.ShootingData,
          0 ≤ sr.Hits ∧ sr.PenaltiesIncurred = 5 - sr.Hits ∧ sr.PenaltiesIncurred ≤ 5 ∧
            (0 ≤ sr.PenaltiesIncurred ↔ sr.Hits ≤ 5) := by
  obtain ⟨s, hs, _, hP⟩ := run_invariant config HitsInv
    (fun id => ⟨lapsInv_new id, by simp [NewCompetitor],
      by intro lap hl; simp [NewCompetitor] at hl⟩)
    (stepCompetitor_hitsInv config)
    (fun c hc => by
      unfold HitsInv
      rw [checkNotStarted_eq]
      exact hc) evs
  refine ⟨s, hs, ?_⟩
  intro id c hc lap hl sr hsr
  obtain ⟨h0, hp⟩ := (hP id c hc).2.2 lap hl sr hsr
  exact ⟨h0, hp, by omega, by omega⟩

/-- C13: the list that Run hands to processEvent one event at a time is a
permutation of the input, ascending by timestamp, and stable: the events
with any one timestamp come in the order of the input, so two events with
equal timestamps keep their relative order. -/
theorem C13_run_processes_stably_sorted (s : Simulation) (evs : List Event) :
    Run s evs = (processEvents s (sortEvents evs)).map checkForNotStarted ∧
    (sortEvents evs).Perm evs ∧
    (sortEvents evs).Sorted (fun a b => @LE.le Int _ a.Timestamp b.Timestamp) ∧
    (∀ t : Time, (sortEvents evs).filter (fun e => e.Timestamp = t) =
      evs.filter (fun e => e.Timestamp = t)) ∧
    (∀ a b : Event, a.Timestamp = b.Timestamp →
      List.Sublist [a, b] evs → List.Sublist [a, b] (sortEvents evs)) := by
  refine ⟨rfl, perm_sortEvents evs, ?_, ?_, ?_⟩
  · exact (sorted_sortEvents evs).imp (fun {a b} h => (timeLE_iff a b).1 h)
  · intro t
    rw [sortEvents_filter]
    apply sortEvents_of_same_time t
    intro e he
    simpa using (List.mem_filter.1 he).2
  · intro a b hab h
    exact List.pair_sublist_insertionSort ((timeLE_iff a b).2 (le_of_eq hab)) h

/-- C14: for two event lists that are permutations of each other and whose
timestamps are pairwise distinct, Run followed by FinalizeResults on fresh
simulations do not abort and yield the same state: the same narration log
and the same competitor records. -/
theorem C14_result_independent_of_input_order (config : Config) (evs1 evs2 : List Event)
    (hperm : evs1.Perm evs2)
    (hdistinct : (evs1.map (fun e => e.Timestamp)).Nodup) :
    ∃ s, simulate config evs1 = some s ∧ simulate config evs2 = some s := by
  obtain ⟨s0, _, _, _, hsim, _⟩ := run_fresh config evs1
  refine ⟨_, hsim, ?_⟩
  rw [← hsim]
  simp only [simulate, Run, sortEvents_eq_of_perm evs1 evs2 hperm hdistinct]

/-- Scenario D of the test suite, supplied in file order and in reverse. -/
theorem C14_result_independent_of_input_order_witness :
    ∃ s,
      simulate { Laps := 1, LapLen := 1000, PenaltyLen := 100, FiringLines := 1 }
        [{ Timestamp := projectEpoch + 32400 * nsPerSecond, ID := EventRegistered, CompetitorID := 4 },
         { Timestamp := projectEpoch + 36000 * nsPerSecond, ID := EventStarted, CompetitorID := 4 },
         { Timestamp := projectEpoch + 36300 * nsPerSecond, ID := EventCannotContinue,
           CompetitorID := 4, Comment := "Injured" }] = some s ∧
      simulate { Laps := 1, LapLen := 1000, PenaltyLen := 100, FiringLines := 1 }
        [{ Timestamp := projectEpoch + 36300 * nsPerSecond, ID := EventCannotContinue,
           CompetitorID := 4, Comment := "Injured" },
         { Timestamp := projectEpoch + 36000 * nsPerSecond, ID := EventStarted, CompetitorID := 4 },
         { Timestamp := projectEpoch + 32400 * nsPerSecond, ID := EventRegistered,
           CompetitorID := 4 }] = some s :=
  C14_result_independent_of_input_order _ _ _ (List.reverse_perm _).symm (by decide)

/-- C15: for a competitor X that occurs in the event list, Run followed by
FinalizeResults on a fresh simulation leave the same record of X whether they
are given the full list or only the events addressed to X. -/
theorem C15_other_competitors_do_not_interfere (config : Config) (evs : List Event) (X : Int)
    (hX : ∃ e ∈ evs, e.CompetitorID = X) :
    ∃ s s1 c, simulate config evs = some s ∧
      simulate config (evs.filter (fun e => e.CompetitorID = X)) = some s1 ∧
      s.Competitors X = some c ∧ s1.Competitors X = some c := by
  have hsame : eventsOf X (evs.filter (fun e => e.CompetitorID = X)) = eventsOf X evs := by
    unfold eventsOf
    rw [sortEvents_filter, sortEvents_filter, List.filter_filter]
    simp
  have hne : eventsOf X evs ≠ [] := by
    obtain ⟨e, he, hid⟩ := hX
    exact List.ne_nil_of_mem (mem_eventsOf.2 ⟨he, hid⟩)
  obtain ⟨s, c0, hsim, hc0, _, hs⟩ := simulate_competitor config evs X hne
  obtain ⟨s1, c1, hsim1, hc1, _, hs1⟩ := simulate_competitor config
    (evs.filter (fun e => e.CompetitorID = X)) X (by rw [hsame]; exact hne)
  rw [hsame, hc0] at hc1
  simp only [Option.some.injEq] at hc1
  subst hc1
  exact ⟨s, s1, _, hsim, hsim1, hs, hs1⟩

/-- Competitor 1 finishes a one-lap race while competitor 2 registers and
starts in between. -/
theorem C15_other_competitors_do_not_interfere_witness :
    ∃ s s1 c,
      simulate { Laps := 1, LapLen := 1000, PenaltyLen := 100, FiringLines := 1 }
        [{ Timestamp := projectEpoch + 32400 * nsPerSecond, ID := EventRegistered, CompetitorID := 1 },
         { Timestamp := projectEpoch + 32401 * nsPerSecond, ID := EventRegistered, CompetitorID := 2 },
         { Timestamp := projectEpoch + 36000 * nsPerSecond, ID := EventStarted, CompetitorID := 1 },
         { Timestamp := projectEpoch + 36060 * nsPerSecond, ID := EventStarted, CompetitorID := 2 },
         { Timestamp := projectEpoch + 36600 * nsPerSecond, ID := EventEndedMainLap,
           CompetitorID := 1 }] = some s ∧
      simulate { Laps := 1, LapLen := 1000, PenaltyLen := 100, FiringLines := 1 }
        ([{ Timestamp := projectEpoch + 32400 * nsPerSecond, ID := EventRegistered, CompetitorID := 1 },
          { Timestamp := projectEpoch + 32401 * nsPerSecond, ID := EventRegistered, CompetitorID := 2 },
          { Timestamp := projectEpoch + 36000 * nsPerSecond, ID := EventStarted, CompetitorID := 1 },
          { Timestamp := projectEpoch + 36060 * nsPerSecond, ID := EventStarted, CompetitorID := 2 },
          { Timestamp := projectEpoch + 36600 * nsPerSecond, ID := EventEndedMainLap,
            CompetitorID := 1 }].filter (fun e => e.CompetitorID = 1)) = some s1 ∧
      s.Competitors 1 = some c ∧ s1.Competitors 1 = some c :=
  C15_other_competitors_do_not_interfere _ _ 1 ⟨_, List.mem_cons_self _ _, rfl⟩

/-- C16: for every simulation state, FinalizeResults applied twice gives the
same state, hence the same competitor records in every field, as
FinalizeResults applied once. -/
theorem C16_finalize_is_idempotent (s : Simulation) :
    FinalizeResults (FinalizeResults s) = FinalizeResults s ∧
    ∀ id, (FinalizeResults (FinalizeResults s)).Competitors id =
      (FinalizeResults s).Competitors id := by
  have h : FinalizeResults (FinalizeResults s) = FinalizeResults s := by
    unfold FinalizeResults
    dsimp only
    congr 1
    funext k
    cases s.Competitors k with
    | none => rfl
    | some c => simp only [Option.map_some', finalizeCompetitor_idem]
  exact ⟨h, fun id => by rw [h]⟩

/-- C17 (as stated, refuted): a competitor whose start time is assigned at
09:01:00 (scheduled start 10:00:00) and that enters the firing range at
10:05:00 without a Started event is OnRange after Run, and FinalizeResults
changes its status to NotStarted. -/
theorem C17_counterexample_on_range_without_start :
    ∃ s c c1,
      Run (NewSimulation { Laps := 1, LapLen := 1000, PenaltyLen := 100, FiringLines := 1 })
        [{ Timestamp := projectEpoch + 32460 * nsPerSecond, ID := EventStartTimeSet,
           CompetitorID := 1, ScheduledStartTime := projectEpoch + 36000 * nsPerSecond },
         { Timestamp := projectEpoch + 36300 * nsPerSecond, ID := EventOnFiringRange,
           CompetitorID := 1, FiringRange := 1 }] = some s ∧
      s.Competitors 1 = some c ∧ c.Status = .OnRange ∧
      (FinalizeResults s).Competitors 1 = some c1 ∧ c1.Status = .NotStarted ∧
      c1.Status ≠ c.Status :=
  ⟨_, _, _, rfl, rfl, rfl, rfl, rfl, by decide⟩

/-- C17 (amended): FinalizeResults applied to the state that Run produces
from a fresh simulation changes the status only of competitors that have a
scheduled start time, no actual start time and status Racing, OnRange,
InPenalty or Completed, and it changes it to NotStarted.  The status of
every competitor that is Registered, Scheduled, NotFinished, NotStarted or
Disqualified, and of every competitor whose actual start time is set, is
left unchanged. -/
theorem C17_finalize_status_frame (config : Config) (evs : List Event) :
    ∃ s, Run (NewSimulation config) evs = some s ∧
      ∀ id c, s.Competitors id = some c →
        ∃ c1, (FinalizeResults s).Competitors id = some c1 ∧
          (c1.Status ≠ c.Status →
            c1.Status = .NotStarted ∧
            Time.IsZero c.ScheduledStartTime = false ∧ Time.IsZero c.ActualStartTime = true ∧
            (c.Status = .Racing ∨ c.Status = .OnRange ∨ c.Status = .InPenalty ∨
              c.Status = .Completed)) := by
  obtain ⟨s0, _, hcfg, hrun, _, _, _⟩ := run_fresh config evs
  refine ⟨_, hrun, ?_⟩
  intro id c hc
  simp only [checkForNotStarted] at hc
  cases hc0 : s0.Competitors id with
  | none => rw [hc0] at hc; simp at hc
  | some c0 =>
    rw [hc0] at hc
    simp only [Option.map_some', Option.some.injEq] at hc
    subst hc
    refine ⟨finalizeCompetitor config (checkNotStarted c0), ?_, ?_⟩
    · simp [FinalizeResults, checkForNotStarted, hc0, hcfg]
    · rw [finalizeCompetitor_eq]
      exact finalStatus_after_check c0

/-- C18 (as stated, refuted): in Scenario A of the test suite (one lap of
1000 m from 10:00:00 to 10:10:00) the lap has LapDuration 600 s and the exact
quotient 1000 / 600 = 5/3 is not a float64; AverageSpeed is the float64 nearest
to it, 7505999378950827 / 2^52. -/
theorem C18_counterexample_speed_is_rounded :
    ∃ s c lap,
      simulate { Laps := 1, LapLen := 1000, PenaltyLen := 100, FiringLines := 1 }
        [{ Timestamp := projectEpoch + 36000 * nsPerSecond, ID := EventStarted, CompetitorID := 1 },
         { Timestamp := projectEpoch + 36600 * nsPerSecond, ID := EventEndedMainLap,
           CompetitorID := 1 }] = some s ∧
      s.Competitors 1 = some c ∧ c.LapsData = [lap] ∧
      lap.LapDuration = 600 * nsPerSecond ∧
      lap.AverageSpeed = 7505999378950827 / 4503599627370496 ∧
      lap.AverageSpeed ≠ (1000 : ℚ) / (((600 * nsPerSecond : Int) : ℚ) / 1000000000) := by
  refine ⟨_, _, _, rfl, rfl, rfl, by decide, by decide!, by decide!⟩

/-- C18 (amended): after Run followed by one FinalizeResults on a fresh
simulation (which never abort), every lap record with both start and end time
set has LapDuration = EndTime.Sub(StartTime), which is EndTime - StartTime
whenever that difference is in the range of Duration.  When LapDuration > 0
its AverageSpeed is the float64 quotient of float64(lapLength) by
LapDuration.Seconds(), and it differs from the exact quotient lapLength /
(LapDuration / 10^9 s) by at most 2^-50 of the magnitude of that quotient,
which is within the tolerance 10^-6; otherwise AverageSpeed is 0. -/
theorem C18_lap_speed_within_float_tolerance (config : Config) (evs : List Event) :
    ∃ s, simulate config evs = some s ∧
      ∀ id c, s.Competitors id = some c → ∀ lap ∈ c.LapsData,
        Time.IsZero lap.StartTime = false → Time.IsZero lap.EndTime = false →
          lap.LapDuration = Time.Sub lap.EndTime lap.StartTime ∧
          (@LE.le Int _ minDuration (lap.EndTime - lap.StartTime) ∧
            @LE.le Int _ (lap.EndTime - lap.StartTime) maxDuration →
              lap.LapDuration = lap.EndTime - lap.StartTime) ∧
          (0 < lap.LapDuration →
            lap.AverageSpeed =
              float64Div (float64OfInt config.LapLen) (Duration.Seconds lap.LapDuration) ∧
            |lap.AverageSpeed - (config.LapLen : ℚ) / ((lap.LapDuration : ℚ) / 1000000000)| ≤
              1 / 2 ^ 50 * |(config.LapLen : ℚ) / ((lap.LapDuration : ℚ) / 1000000000)| ∧
            |lap.AverageSpeed - (config.LapLen : ℚ) / ((lap.LapDuration : ℚ) / 1000000000)| ≤
              1 / 1000000 * |(config.LapLen : ℚ) / ((lap.LapDuration : ℚ) / 1000000000)|) ∧
          (¬ 0 < lap.LapDuration → lap.AverageSpeed = 0) := by
  obtain ⟨s, hs, hcfg, hQ⟩ := run_forall_laps
    (fun lap => lap.LapDuration = 0 ∧ lap.AverageSpeed = 0) config evs
    (fun _ _ => ⟨rfl, rfl⟩) (fun _ _ h => h) (fun _ _ h => h) (fun _ _ h => h)
    (fun _ _ _ _ h => h)
  refine ⟨FinalizeResults s, by simp [simulate, hs], ?_⟩
  intro id c hc lap hl hst hen
  simp only [FinalizeResults] at hc
  cases hc0 : s.Competitors id with
  | none => rw [hc0] at hc; simp at hc
  | some c0 =>
    rw [hc0] at hc
    simp only [Option.map_some', Option.some.injEq] at hc
    subst hc
    rw [finalizeCompetitor_eq] at hl
    obtain ⟨lap0, hl0, rfl⟩ := List.mem_map.1 hl
    rw [hcfg] at hst hen ⊢
    obtain ⟨h1, h2, h3⟩ := calculateLap_fresh config lap0 ((hQ id c0 hc0).2 lap0 hl0) hst hen
    refine ⟨h1, fun hr => by rw [h1, sub_of_in_range _ _ hr], fun hpos => ?_, h3⟩
    have hd : @LT.lt Int _ 0 (calculateLap config lap0).LapDuration := hpos
    have hT : (0 : ℚ) < (((calculateLap config lap0).LapDuration : Int) : ℚ) / 1000000000 := by
      apply div_pos _ (by norm_num)
      exact_mod_cast hd
    obtain ⟨b1, b2⟩ := seconds_band _ hd
    have herr := speed_err config.LapLen _ _ hT b1 b2
    rw [← h2 hpos] at herr
    refine ⟨h2 hpos, herr, le_trans herr ?_⟩
    apply mul_le_mul_of_nonneg_right _ (abs_nonneg _)
    norm_num

/-- C19 (as stated, refuted): a competitor that starts at 10:00:00, enters
the firing range at 10:05:00, leaves it at 10:05:10 without a hit and is
reported as leaving the penalty loop at 10:07:00 without an EnteredPenaltyLaps
event has, after Run, one lap record with PenaltiesServed = 5, while
CalculatePenaltyStats returns TotalLaps = 0. -/
theorem C19_counterexample_left_without_entry :
    ∃ s c,
      Run (NewSimulation { Laps := 1, LapLen := 1000, PenaltyLen := 100, FiringLines := 1 })
        [{ Timestamp := projectEpoch + 36000 * nsPerSecond, ID := EventStarted, CompetitorID := 1 },
         { Timestamp := projectEpoch + 36300 * nsPerSecond, ID := EventOnFiringRange,
           CompetitorID := 1, FiringRange := 1 },
         { Timestamp := projectEpoch + 36310 * nsPerSecond, ID := EventLeftFiringRange,
           CompetitorID := 1 },
         { Timestamp := projectEpoch + 36420 * nsPerSecond, ID := EventLeftPenaltyLaps,
           CompetitorID := 1 }] = some s ∧
      s.Competitors 1 = some c ∧
      (c.LapsData.map (fun lap => lap.PenaltiesServed)).sum = 5 ∧
      (CalculatePenaltyStats c s.Config).TotalLaps = 0 ∧
      (CalculatePenaltyStats c s.Config).TotalLaps ≠
        (c.LapsData.map (fun lap => lap.PenaltiesServed)).sum :=
  ⟨_, _, rfl, rfl, by decide, by decide, by decide⟩

/-- C19 (amended): Run on a fresh simulation never aborts, and for a
competitor X whose EnteredPenaltyLaps and LeftPenaltyLaps events carry a
non-zero timestamp and who has no LeftPenaltyLaps event before their first
EnteredPenaltyLaps event (in processing order), the TotalLaps value returned
by CalculatePenaltyStats equals the sum of PenaltiesServed over all of the
competitor's lap records. -/
theorem C19_penalty_count_is_sum_of_served (config : Config) (evs : List Event) (X : Int)
    (htime : ∀ e ∈ evs, e.CompetitorID = X →
      e.ID = EventEnteredPenaltyLaps ∨ e.ID = EventLeftPenaltyLaps →
        Time.IsZero e.Timestamp = false)
    (horder : ∀ e ∈ (eventsOf X evs).takeWhile (fun e => e.ID ≠ EventEnteredPenaltyLaps),
      e.ID ≠ EventLeftPenaltyLaps) :
    ∃ s, Run (NewSimulation config) evs = some s ∧
      ∀ c, s.Competitors X = some c →
        (CalculatePenaltyStats c config).TotalLaps =
          (c.LapsData.map (fun lap => lap.PenaltiesServed)).sum := by
  obtain ⟨s0, _, _, hrun, _, _, hrep⟩ := run_fresh config evs
  refine ⟨_, hrun, ?_⟩
  intro c hc
  simp only [checkForNotStarted] at hc
  by_cases hev : eventsOf X evs = []
  · rw [(hrep X).1 hev] at hc
    simp at hc
  · obtain ⟨c0, hc0, hinv⟩ := replay_penaltyInv config (eventsOf X evs) (NewCompetitor X)
      ⟨lapsInv_new X, by intro lap hl; simp [NewCompetitor] at hl⟩
      (fun e he => htime e (mem_eventsOf.1 he).1 (mem_eventsOf.1 he).2)
      (Or.inr horder)
    rw [(hrep X).2 hev, hc0] at hc
    simp only [Option.map_some', Option.some.injEq] at hc
    subst hc
    unfold CalculatePenaltyStats
    dsimp only
    rw [checkNotStarted_lapsData, foldl_penaltyStep_snd _ _ hinv.2]
    simp

theorem C19_penalty_count_is_sum_of_served_witness :
    ∃ s, Run (NewSimulation { Laps := 1, LapLen := 1000, PenaltyLen := 100, FiringLines := 1 })
        [{ Timestamp := projectEpoch + 36000 * nsPerSecond, ID := EventStarted, CompetitorID := 1 },
         { Timestamp := projectEpoch + 36300 * nsPerSecond, ID := EventOnFiringRange,
           CompetitorID := 1, FiringRange := 1 },
         { Timestamp := projectEpoch + 36310 * nsPerSecond, ID := EventLeftFiringRange,
           CompetitorID := 1 },
         { Timestamp := projectEpoch + 36320 * nsPerSecond, ID := EventEnteredPenaltyLaps,
           CompetitorID := 1 },
         { Timestamp := projectEpoch + 36420 * nsPerSecond, ID := EventLeftPenaltyLaps,
           CompetitorID := 1 }] = some s ∧
      ∀ c, s.Competitors 1 = some c →
        (CalculatePenaltyStats c
            { Laps := 1, LapLen := 1000, PenaltyLen := 100, FiringLines := 1 }).TotalLaps =
          (c.LapsData.map (fun lap => lap.PenaltiesServed)).sum := by
  refine C19_penalty_count_is_sum_of_served _ _ 1 ?_ ?_
  · decide
  · decide

/-- C20 (as stated, refuted): for a single TargetHit event of a competitor
that is not on the firing range, the log that Run produces has two lines, the
line of the event and a warning line, while there is one input event and no
generated Finished event. -/
theorem C20_counterexample_warning_line :
    ∃ s,
      Run (NewSimulation { Laps := 1, LapLen := 1000, PenaltyLen := 100, FiringLines := 1 })
        [{ Timestamp := projectEpoch + 36000 * nsPerSecond, ID := EventTargetHit,
           CompetitorID := 1, Target := 1 }] = some s ∧
      s.OutputLog.length = 2 ∧
      totalGenerated s
        [{ Timestamp := projectEpoch + 36000 * nsPerSecond, ID := EventTargetHit,
           CompetitorID := 1, Target := 1 }] = 0 ∧
      s.OutputLog.length ≠ 1 + totalGenerated s
        [{ Timestamp := projectEpoch + 36000 * nsPerSecond, ID := EventTargetHit,
           CompetitorID := 1, Target := 1 }] :=
  ⟨_, rfl, by decide, by decide, by decide⟩

/-- C20 (amended): Run on a fresh simulation never aborts, and the length of
the narration log that it produces equals the number of input events plus the
total number of generated Finished events plus the number of warning lines in
the log; every line of the log is either a warning line or starts with the
opening bracket of an event line. -/
theorem C20_log_length_counts_warnings (config : Config) (evs : List Event) :
    ∃ s, Run (NewSimulation config) evs = some s ∧
      s.OutputLog.length =
        evs.length + totalGenerated s evs + (s.OutputLog.filter isWarningLine).length ∧
      ∀ line ∈ s.OutputLog, isWarningLine line = true ∨ line.data.head? = some '[' := by
  obtain ⟨s0, hs0, hcount, hlog⟩ := processEvents_log config
    ((evs.map (fun e => e.CompetitorID)).dedup) (List.nodup_dedup _)
    (sortEvents evs) (NewSimulation config) rfl
    (by intro k c h; simp [NewSimulation] at h)
    (by
      intro e he
      rw [List.mem_dedup]
      exact List.mem_map_of_mem _ ((perm_sortEvents evs).mem_iff.1 he))
    (by intro line hl; simp [NewSimulation] at hl)
  refine ⟨checkForNotStarted s0, by simp [Run, hs0], ?_, hlog⟩
  have hzero : (((evs.map (fun e => e.CompetitorID)).dedup).map
      (generatedCount (NewSimulation config))).sum = 0 := by
    apply List.sum_eq_zero
    intro x hx
    obtain ⟨id, _, hid⟩ := List.mem_map.1 hx
    rw [← hid]
    rfl
  have hlen : (sortEvents evs).length = evs.length := (perm_sortEvents evs).length_eq
  have hgen : totalGenerated (checkForNotStarted s0) evs =
      (((evs.map (fun e => e.CompetitorID)).dedup).map (generatedCount s0)).sum := by
    unfold totalGenerated
    congr 1
    apply List.map_congr_left
    intro id _
    exact generatedCount_checkForNotStarted s0 id
  rw [hgen]
  rw [hzero, hlen] at hcount
  have hnil : (NewSimulation config).OutputLog = [] := rfl
  rw [hnil] at hcount
  simp only [List.filter_nil, List.length_nil] at hcount
  have hout : (checkForNotStarted s0).OutputLog = s0.OutputLog := rfl
  rw [hout]
  omega

/-- C21: Run on a fresh simulation never aborts, and an identifier has a
record in the resulting competitor map exactly when an event of the list
carries it.  A competitor without a record that receives an event of a kind
that changes no state gets the record that NewCompetitor builds, with
LastEventTime set to the time of the event; and a competitor all of whose
events are of such kinds has, after the event loop and before the finishing
passes, the new record with only LastEventTime set: status Registered, lap
number 0, no lap records, zero totals. -/
theorem C21_competitors_are_those_of_the_events (config : Config) (evs : List Event) :
    ∃ s0 s, processEvents (NewSimulation config) (sortEvents evs) = some s0 ∧
      Run (NewSimulation config) evs = some s ∧ s = checkForNotStarted s0 ∧
      (∀ id, (s.Competitors id).isSome = true ↔ ∃ e ∈ evs, e.CompetitorID = id) ∧
      (∀ (s1 : Simulation) (e : Event), s1.Competitors e.CompetitorID = none →
        changesNoState e →
        ∃ s2, processEvent s1 e = some s2 ∧ s2.Competitors e.CompetitorID =
          some { NewCompetitor e.CompetitorID with LastEventTime := e.Timestamp }) ∧
      ∀ X, (∃ e ∈ evs, e.CompetitorID = X) →
        (∀ e ∈ evs, e.CompetitorID = X → changesNoState e) →
        ∃ c, s0.Competitors X = some c ∧
          c = { NewCompetitor X with LastEventTime := c.LastEventTime } ∧
          c.Status = .Registered ∧ c.CurrentLapNumber = 0 ∧ c.LapsData = [] ∧
          c.TotalHits = 0 ∧ c.TotalShots = 0 ∧ c.TotalPenaltiesServed = 0 := by
  obtain ⟨s0, h0, _, hrun, _, _, hrep⟩ := run_fresh config evs
  refine ⟨s0, _, h0, hrun, rfl, ?_, ?_, ?_⟩
  · intro id
    have hk := processEvents_keys id _ _ _ h0
    have hmap : ((checkForNotStarted s0).Competitors id).isSome = (s0.Competitors id).isSome := by
      simp [checkForNotStarted]
    rw [hmap, hk]
    simp only [NewSimulation, Option.isSome_none, Bool.false_eq_true, false_or]
    constructor
    · rintro ⟨e, he, hid⟩
      exact ⟨e, ((perm_sortEvents evs).mem_iff).1 he, hid⟩
    · rintro ⟨e, he, hid⟩
      exact ⟨e, ((perm_sortEvents evs).mem_iff).2 he, hid⟩
  · intro s1 e hnone hkind
    have hpe := processEvent_eq s1 e
    rw [currentRecord_of_none hnone] at hpe
    have hstep := stepCompetitor_changesNoState s1.Config e.CompetitorID 0 e hkind
    have hnew : ({ NewCompetitor e.CompetitorID with LastEventTime := 0 } : Competitor) =
        NewCompetitor e.CompetitorID := rfl
    rw [hnew] at hstep
    rw [hstep] at hpe
    exact ⟨_, hpe, by simp⟩
  · intro X hX hkinds
    have hne : eventsOf X evs ≠ [] := by
      obtain ⟨e, he, hid⟩ := hX
      exact List.ne_nil_of_mem (mem_eventsOf.2 ⟨he, hid⟩)
    obtain ⟨c, hc, hP⟩ := replay_invariant config
      (fun c => c = { NewCompetitor X with LastEventTime := c.LastEventTime })
      (eventsOf X evs)
      (fun c e he hc => by
        have hk := hkinds e (mem_eventsOf.1 he).1 (mem_eventsOf.1 he).2
        rw [hc, stepCompetitor_changesNoState config X _ e hk]
        exact ⟨_, rfl, rfl⟩)
      (NewCompetitor X) rfl
    refine ⟨c, by rw [(hrep X).2 hne, hc], hP, ?_⟩
    rw [hP]
    exact ⟨rfl, rfl, rfl, rfl, rfl, rfl⟩

/-- C22 (as stated, refuted): an event of the unknown kind 99 for competitor 7,
processed on a fresh simulation, appends one line to the log and adds a record
for competitor 7 to the competitor map, which had none; processed on a state
where competitor 7 has a record, it changes LastEventTime of that record. -/
theorem C22_counterexample_unknown_event_creates_record :
    ∃ s1 c s2 c2,
      processEvent (NewSimulation { Laps := 1, LapLen := 1000, PenaltyLen := 100, FiringLines := 1 })
        { Timestamp := projectEpoch + 36000 * nsPerSecond, ID := 99, CompetitorID := 7 } = some s1 ∧
      (99 : EventID) ∉ recognisedKinds ∧
      s1.OutputLog = ["[10:00:00.000] Unknown event 99 for competitor 7 with params ''"] ∧
      (NewSimulation { Laps := 1, LapLen := 1000, PenaltyLen := 100, FiringLines := 1 }).Competitors 7
        = none ∧
      s1.Competitors 7 = some c ∧ c.LastEventTime = projectEpoch + 36000 * nsPerSecond ∧
      processEvent s1
        { Timestamp := projectEpoch + 36060 * nsPerSecond, ID := 99, CompetitorID := 7 } = some s2 ∧
      s2.Competitors 7 = some c2 ∧ c2 ≠ c :=
  ⟨_, _, _, _, rfl, by decide, by decide, rfl, rfl, by decide, rfl, rfl, by decide⟩

/-- C22 (amended): for every simulation state and every event whose kind is
none of the thirteen recognised kinds, processEvent does not abort, appends
exactly one line to the log (the event's line, with the description "Unknown
event ..."), keeps the configuration and the record of every other competitor,
and stores for the event's competitor the record it had, or a new one if it
had none, with only LastEventTime changed, to the time of the event. -/
theorem C22_unknown_event_sets_last_event_time (s : Simulation) (e : Event)
    (hkind : e.ID ∉ recognisedKinds) :
    ∃ s1, processEvent s e = some s1 ∧
      s1.OutputLog = s.OutputLog ++ ["[" ++ FormatTime e.Timestamp ++ "] " ++
        ("Unknown event " ++ toString e.ID ++ " for competitor " ++ toString e.CompetitorID ++
          " with params '" ++ e.ExtraParamsStr ++ "'")] ∧
      s1.Config = s.Config ∧
      (∀ k, k ≠ e.CompetitorID → s1.Competitors k = s.Competitors k) ∧
      s1.Competitors e.CompetitorID =
        some { (match s.Competitors e.CompetitorID with
                | some c => c
                | none => NewCompetitor e.CompetitorID) with LastEventTime := e.Timestamp } := by
  simp only [recognisedKinds, List.mem_cons, List.mem_singleton, List.not_mem_nil, or_false,
    not_or] at hkind
  obtain ⟨h1, h2, h3, h4, h5, h6, h7, h8, h9, h10, h11, h32, h33⟩ := hkind
  have hpe := processEvent_eq s e
  rw [stepCompetitor_no_case s.Config _ e h1 h2 h4 h5 h6 h7 h8 h9 h10 h11] at hpe
  simp only [Option.map_some'] at hpe
  refine ⟨_, hpe, ?_, rfl, ?_, ?_⟩
  · simp only [List.append_nil, eventLine, GetEventDescription, h1, h2, h3, h4, h5, h6, h7, h8,
      h9, h10, h11, h32, h33, if_false]
  · intro k hk; simp [hk]
  · simp only [if_true]
    cases hc : s.Competitors e.CompetitorID with
    | none => rw [currentRecord_of_none hc]
    | some c => rw [currentRecord_of_some hc]

theorem C22_unknown_event_sets_last_event_time_witness :
    ∃ s1, processEvent (NewSimulation { Laps := 1, LapLen := 1000, PenaltyLen := 100, FiringLines := 1 })
        { Timestamp := projectEpoch + 36000 * nsPerSecond, ID := 99, CompetitorID := 7 } = some s1 ∧
      s1.OutputLog = [] ++ ["[" ++ FormatTime (projectEpoch + 36000 * nsPerSecond) ++ "] " ++
        ("Unknown event " ++ toString (99 : EventID) ++ " for competitor " ++ toString (7 : Int) ++
          " with params '" ++ "" ++ "'")] ∧
      s1.Config = { Laps := 1, LapLen := 1000, PenaltyLen := 100, FiringLines := 1 } ∧
      (∀ k, k ≠ (7 : Int) → s1.Competitors k = none) ∧
      s1.Competitors 7 =
        some { NewCompetitor 7 with LastEventTime := projectEpoch + 36000 * nsPerSecond } :=
  C22_unknown_event_sets_last_event_time
    (NewSimulation { Laps := 1, LapLen := 1000, PenaltyLen := 100, FiringLines := 1 })
    { Timestamp := projectEpoch + 36000 * nsPerSecond, ID := 99, CompetitorID := 7 } (by decide)

/-- C23: for every configuration, every sequence of events processed on a
fresh simulation (in any order) and every further event, the sequence is
processed to the end and processEvent on the resulting state returns a state:
it does not abort.  The record it works on has a current lap number between 0
and the number of lap records, so that the index `CurrentLapNumber-1` used
without a guard in the last branch of the lap-completed case, after the
increment of the lap number and when no lap record is appended, is in
bounds. -/
theorem C23_processEvent_never_aborts (config : Config) (evs : List Event) (e : Event) :
    ∃ s s1, processEvents (NewSimulation config) evs = some s ∧
      processEvent s e = some s1 ∧
      (0 ≤ (currentRecord s e.CompetitorID).CurrentLapNumber ∧
        (currentRecord s e.CompetitorID).CurrentLapNumber ≤
          ((currentRecord s e.CompetitorID).LapsData.length : Int)) ∧
      (e.ID = EventEndedMainLap →
        (currentRecord s e.CompetitorID).CurrentLapNumber ≠ s.Config.Laps →
        ¬ (((currentRecord s e.CompetitorID).LapsData.length : Int) <
            (currentRecord s e.CompetitorID).CurrentLapNumber + 1) →
        0 ≤ (currentRecord s e.CompetitorID).CurrentLapNumber + 1 - 1 ∧
          (currentRecord s e.CompetitorID).CurrentLapNumber + 1 - 1 <
            ((currentRecord s e.CompetitorID).LapsData.length : Int)) := by
  obtain ⟨s, hs, _, hinv, _⟩ := processEvents_fresh config evs
  have hcur : LapsInv (currentRecord s e.CompetitorID) := by
    cases hk : s.Competitors e.CompetitorID with
    | none => rw [currentRecord_of_none hk]; exact lapsInv_new _
    | some c => rw [currentRecord_of_some hk]; exact hinv _ _ hk
  obtain ⟨r, hr, _⟩ := stepCompetitor_lapsInv s.Config _ e hcur
  have hpe := processEvent_eq s e
  rw [hr] at hpe
  refine ⟨s, _, hs, hpe, ⟨hcur.1, hcur.2.1⟩, ?_⟩
  intro _ _ hlen
  have h0 := hcur.1
  constructor
  · omega
  · omega

/-- C24 (as stated, refuted): the text 9223372036854775808:00:00 is made of
three decimal integers separated by colons, and ParseDuration fails on it (the
first is out of the range of int); on the text 2562048:00:00 ParseDuration
succeeds and returns a negative duration, not 2562048 hours (the product
overflows 64 bits). -/
theorem C24_counterexample_out_of_range_fields :
    durationText "9223372036854775808:00:00".data 9223372036854775808 0 0 ∧
      ParseDuration "9223372036854775808:00:00" = none ∧
      durationText "2562048:00:00".data 2562048 0 0 ∧
      ParseDuration "2562048:00:00" = some (-9223371273709551616) ∧
      (2562048 : Int) * (3600 * nsPerSecond) + 0 * (60 * nsPerSecond) + 0 * nsPerSecond ≠
        -9223371273709551616 := by
  refine ⟨⟨"9223372036854775808".data, "00".data, "00".data, [], by decide,
    ⟨"9223372036854775808".data, by decide, by decide, Or.inl ⟨rfl, by decide⟩⟩,
    ⟨"00".data, by decide, by decide, Or.inl ⟨rfl, by decide⟩⟩,
    ⟨"00".data, by decide, by decide, Or.inl ⟨rfl, by decide⟩⟩, Or.inl rfl, by decide⟩,
    by decide,
    ⟨"2562048".data, "00".data, "00".data, [], by decide,
    ⟨"2562048".data, by decide, by decide, Or.inl ⟨rfl, by decide⟩⟩,
    ⟨"00".data, by decide, by decide, Or.inl ⟨rfl, by decide⟩⟩,
    ⟨"00".data, by decide, by decide, Or.inl ⟨rfl, by decide⟩⟩, Or.inl rfl, by decide⟩,
    by decide, by decide⟩

/-- C24 (amended): for every text s, ParseDuration fails exactly when s is not
made of three colon-separated decimal integers that each fit in 64 bits, the
third followed by nothing or by a point and a suffix without colon; it
succeeds with result d exactly when s is such a text with fields h, m, sec and
d is h hours + m minutes + sec seconds reduced to 64 bits, which is the exact
sum whenever that fits in 64 bits; appending a point and any suffix without
colon to an accepted text does not change the result; and the four cases of
the test suite come out as expected. -/
theorem C24_parseDuration_spec (s : String) :
    (ParseDuration s = none ↔
      ¬ ∃ h m sec, durationText s.data h m sec ∧ inInt64 h ∧ inInt64 m ∧ inInt64 sec) ∧
    (∀ d, ParseDuration s = some d ↔
      ∃ h m sec, durationText s.data h m sec ∧ inInt64 h ∧ inInt64 m ∧ inInt64 sec ∧
        d = wrapInt64 (h * (3600 * nsPerSecond) + m * (60 * nsPerSecond) + sec * nsPerSecond)) ∧
    (∀ h m sec, durationText s.data h m sec → inInt64 h → inInt64 m → inInt64 sec →
      inInt64 (h * (3600 * nsPerSecond) + m * (60 * nsPerSecond) + sec * nsPerSecond) →
      ParseDuration s =
        some (h * (3600 * nsPerSecond) + m * (60 * nsPerSecond) + sec * nsPerSecond)) ∧
    (∀ (d : Duration) (suffix : String), ParseDuration s = some d → ':' ∉ suffix.data →
      ParseDuration (s ++ "." ++ suffix) = some d) ∧
    ParseDuration "00:00:30" = some (30 * nsPerSecond) ∧
    ParseDuration "01:10:05" = some (3600 * nsPerSecond + 10 * (60 * nsPerSecond) +
      5 * nsPerSecond) ∧
    ParseDuration "00:30" = none ∧ ParseDuration "00:AA:30" = none := by
  refine ⟨?_, fun d => parseDuration_iff s d, ?_, ?_, by decide, by decide, by decide,
    by decide⟩
  · constructor
    · rintro hnone ⟨h, m, sec, ht, hh, hm, hsec⟩
      have := (parseDuration_iff s _).2 ⟨h, m, sec, ht, hh, hm, hsec, rfl⟩
      rw [hnone] at this
      exact Option.noConfusion this
    · intro hno
      cases hpd : ParseDuration s with
      | none => rfl
      | some d =>
        obtain ⟨h, m, sec, ht, hh, hm, hsec, _⟩ := (parseDuration_iff s d).1 hpd
        exact absurd ⟨h, m, sec, ht, hh, hm, hsec⟩ hno
  · intro h m sec ht hh hm hsec hsum
    rw [(parseDuration_iff s _).2 ⟨h, m, sec, ht, hh, hm, hsec, rfl⟩]
    unfold inInt64 at hsum
    rw [wrapInt64_of_range _ hsum.1 (by have := hsum.2; omega)]
  · intro d suffix hpd hsuf
    obtain ⟨h, m, sec, ⟨a, b, c, rest, hs, hda, hdb, hdc, hrest, hcolon⟩, hh, hm, hsec, hd⟩ :=
      (parseDuration_iff s d).1 hpd
    refine (parseDuration_iff _ d).2 ⟨h, m, sec,
      ⟨a, b, c, rest ++ '.' :: suffix.data, ?_, hda, hdb, hdc, ?_, ?_⟩, hh, hm, hsec, hd⟩
    · simp only [String.data_append, hs, List.append_assoc, List.cons_append]
      rfl
    · right
      rcases hrest with rfl | hrest
      · rfl
      · cases rest with
        | nil => simp at hrest
        | cons x r => simpa using hrest
    · intro hmem
      rcases List.mem_append.1 hmem with h1 | h1
      · exact hcolon h1
      · rcases List.mem_cons.1 h1 with h2 | h2
        · exact absurd h2 (by decide)
        · exact hsuf h2

/-- C25 (as stated, refuted): ParseTime accepts texts that are of neither of
the two shapes: an hour of one digit, and a fraction after a comma. -/
theorem C25_counterexample_other_shapes_accepted :
    ParseTime "9:05:06" = some (projectEpoch + 32706 * nsPerSecond) ∧
      "9:05:06".data.length = 7 ∧
      ParseTime "10:20:30,123" = some (projectEpoch + 37230 * nsPerSecond + 123 * 1000000) ∧
      "10:20:30,123".data.length = 12 ∧ "10:20:30,123".data[8]? = some ',' := by
  refine ⟨by decide, by decide, by decide, by decide, by decide⟩

/-- C25 (amended): for digits a to i, ParseTime on the text ab:cd:ef, and on
the text ab:cd:ef.ghi, succeeds exactly when the hour ab is below 24, the
minute cd below 60 and the second ef below 60, and the result is the instant
of the reference date (a clock time) with that hour, minute and second and
with ghi milliseconds.  Every text that ParseTime accepts starts with an hour
of one or two digits, a colon, a two-digit minute, a colon and a two-digit
second, and what follows is empty or starts with a point or a comma; the text
10-20-30 is not accepted. -/
theorem C25_parseTime_on_clock_shapes (a b c d e f g h i : Char)
    (hdigits : ∀ ch ∈ [a, b, c, d, e, f, g, h, i], ch.isDigit = true) :
    (ParseTime (String.mk [a, b, ':', c, d, ':', e, f]) =
      if digitVal a * 10 + digitVal b < 24 ∧ digitVal c * 10 + digitVal d < 60 ∧
          digitVal e * 10 + digitVal f < 60 then
        some (projectEpoch + ((digitVal a * 10 + digitVal b : Nat) : Int) * (3600 * nsPerSecond) +
          ((digitVal c * 10 + digitVal d : Nat) : Int) * (60 * nsPerSecond) +
          ((digitVal e * 10 + digitVal f : Nat) : Int) * nsPerSecond)
      else none) ∧
    (ParseTime (String.mk [a, b, ':', c, d, ':', e, f, '.', g, h, i]) =
      if digitVal a * 10 + digitVal b < 24 ∧ digitVal c * 10 + digitVal d < 60 ∧
          digitVal e * 10 + digitVal f < 60 then
        some (projectEpoch + ((digitVal a * 10 + digitVal b : Nat) : Int) * (3600 * nsPerSecond) +
          ((digitVal c * 10 + digitVal d : Nat) : Int) * (60 * nsPerSecond) +
          ((digitVal e * 10 + digitVal f : Nat) : Int) * nsPerSecond +
          ((digitVal g * 100 + digitVal h * 10 + digitVal i : Nat) : Int) * 1000000)
      else none) ∧
    (∀ t, ParseTime (String.mk [a, b, ':', c, d, ':', e, f]) = some t ∨
        ParseTime (String.mk [a, b, ':', c, d, ':', e, f, '.', g, h, i]) = some t →
      Time.isClockTime t) ∧
    (∀ (s : String) (t : Time), ParseTime s = some t →
      ∃ hourDigits c d e f rest, s.data = hourDigits ++ [':', c, d, ':', e, f] ++ rest ∧
        (hourDigits.length = 1 ∨ hourDigits.length = 2) ∧
        (∀ ch ∈ hourDigits, ch.isDigit = true) ∧
        c.isDigit = true ∧ d.isDigit = true ∧ e.isDigit = true ∧ f.isDigit = true ∧
        (rest = [] ∨ rest.head? = some '.' ∨ rest.head? = some ',')) ∧
    ParseTime "10-20-30" = none := by
  have ha := hdigits a (by simp)
  have hb := hdigits b (by simp)
  have hc := hdigits c (by simp)
  have hd := hdigits d (by simp)
  have he := hdigits e (by simp)
  have hf := hdigits f (by simp)
  have hg := hdigits g (by simp)
  have hh := hdigits h (by simp)
  have hi := hdigits i (by simp)
  have h1 := parseTime_seconds (String.mk [a, b, ':', c, d, ':', e, f]) a b c d e f rfl
    ha hb hc hd he hf
  have h2 := parseTime_millis (String.mk [a, b, ':', c, d, ':', e, f, '.', g, h, i])
    a b c d e f g h i rfl ha hb hc hd he hf hg hh hi
  refine ⟨h1, h2, ?_, ?_, by decide⟩
  · intro t ht
    rcases ht with ht | ht
    · rw [h1] at ht
      split_ifs at ht with hr
      simp only [Option.some.injEq] at ht
      rw [← ht]
      have := isClockTime_of_fields _ _ _ 0 hr.1 hr.2.1 hr.2.2 (by decide)
      simpa using this
    · rw [h2] at ht
      split_ifs at ht with hr
      simp only [Option.some.injEq] at ht
      rw [← ht]
      have hms : (digitVal g * 100 + digitVal h * 10 + digitVal i) * 1000000 < 1000000000 := by
        have := digitVal_le hg
        have := digitVal_le hh
        have := digitVal_le hi
        omega
      have := isClockTime_of_fields _ _ _ _ hr.1 hr.2.1 hr.2.2 hms
      simpa using this
  · intro s t ht
    unfold ParseTime at ht
    cases hp : timeParse (stringsContains s.data '.') s.data with
    | none => rw [hp] at ht; simp at ht
    | some r => exact timeParse_some hp

theorem C25_parseTime_on_clock_shapes_witness :
    (ParseTime (String.mk ['1', '0', ':', '2', '0', ':', '3', '0']) =
      if digitVal '1' * 10 + digitVal '0' < 24 ∧ digitVal '2' * 10 + digitVal '0' < 60 ∧
          digitVal '3' * 10 + digitVal '0' < 60 then
        some (projectEpoch + ((digitVal '1' * 10 + digitVal '0' : Nat) : Int) * (3600 * nsPerSecond) +
          ((digitVal '2' * 10 + digitVal '0' : Nat) : Int) * (60 * nsPerSecond) +
          ((digitVal '3' * 10 + digitVal '0' : Nat) : Int) * nsPerSecond)
      else none) ∧
    (ParseTime (String.mk ['1', '0', ':', '2', '0', ':', '3', '0', '.', '1', '2', '3']) =
      if digitVal '1' * 10 + digitVal '0' < 24 ∧ digitVal '2' * 10 + digitVal '0' < 60 ∧
          digitVal '3' * 10 + digitVal '0' < 60 then
        some (projectEpoch + ((digitVal '1' * 10 + digitVal '0' : Nat) : Int) * (3600 * nsPerSecond) +
          ((digitVal '2' * 10 + digitVal '0' : Nat) : Int) * (60 * nsPerSecond) +
          ((digitVal '3' * 10 + digitVal '0' : Nat) : Int) * nsPerSecond +
          ((digitVal '1' * 100 + digitVal '2' * 10 + digitVal '3' : Nat) : Int) * 1000000)
      else none) ∧
    (∀ t, ParseTime (String.mk ['1', '0', ':', '2', '0', ':', '3', '0']) = some t ∨
        ParseTime (String.mk ['1', '0', ':', '2', '0', ':', '3', '0', '.', '1', '2', '3']) =
          some t →
      Time.isClockTime t) ∧
    (∀ (s : String) (t : Time), ParseTime s = some t →
      ∃ hourDigits c d e f rest, s.data = hourDigits ++ [':', c, d, ':', e, f] ++ rest ∧
        (hourDigits.length = 1 ∨ hourDigits.length = 2) ∧
        (∀ ch ∈ hourDigits, ch.isDigit = true) ∧
        c.isDigit = true ∧ d.isDigit = true ∧ e.isDigit = true ∧ f.isDigit = true ∧
        (rest = [] ∨ rest.head? = some '.' ∨ rest.head? = some ',')) ∧
    ParseTime "10-20-30" = none :=
  C25_parseTime_on_clock_shapes '1' '0' '2' '0' '3' '0' '1' '2' '3' (by decide)

/-- C26 (as stated, refuted): the least 64-bit duration is its own negation in
64-bit arithmetic, so FormatDuration works on a negative value: the result is
not the string built from the absolute value and every field is negative. -/
theorem C26_counterexample_least_duration :
    minDuration = -(2 ^ 63) ∧ minDuration.natAbs / 1000000 = 9223372036854 ∧
      FormatDuration minDuration = "-2562047:-47:-16.-854" ∧
      padZero 2 (9223372036854 / 3600000) ++ ":" ++
        padZero 2 (9223372036854 % 3600000 / 60000) ++ ":" ++
        padZero 2 (9223372036854 % 60000 / 1000) ++ "." ++ padZero 3 (9223372036854 % 1000) =
        "2562047:47:16.854" ∧
      FormatDuration minDuration ≠ "2562047:47:16.854" := by
  refine ⟨rfl, by decide, by decide, by decide, by decide⟩

/-- C26 (amended): for every 64-bit duration d other than the least one, with
T the whole milliseconds of the absolute value of d (truncated, not rounded),
FormatDuration d is T / 3600000 padded with zeros to at least two digits, a
colon, T mod 3600000 / 60000 as two digits, a colon, T mod 60000 / 1000 as two
digits, a point and T mod 1000 as three digits; and FormatDuration of -d is
the same string. -/
theorem C26_formatDuration_fields (d : Duration) (hmin : minDuration < d)
    (hmax : d ≤ maxDuration) :
    FormatDuration d =
      padZero 2 (d.natAbs / 1000000 / 3600000) ++ ":" ++
        padZero 2 (d.natAbs / 1000000 % 3600000 / 60000) ++ ":" ++
        padZero 2 (d.natAbs / 1000000 % 60000 / 1000) ++ "." ++
        padZero 3 (d.natAbs / 1000000 % 1000) ∧
      2 ≤ (padZero 2 (d.natAbs / 1000000 / 3600000)).length ∧
      (padZero 2 (d.natAbs / 1000000 % 3600000 / 60000)).length = 2 ∧
      (padZero 2 (d.natAbs / 1000000 % 60000 / 1000)).length = 2 ∧
      (padZero 3 (d.natAbs / 1000000 % 1000)).length = 3 ∧
      d.natAbs / 1000000 % 3600000 / 60000 < 60 ∧ d.natAbs / 1000000 % 60000 / 1000 < 60 ∧
      FormatDuration (-d) = FormatDuration d := by
  refine ⟨formatDuration_eq d hmin, ?_, length_padZero_two _ (by omega),
    length_padZero_two _ (by omega), length_padZero_three _ (by omega), by omega, by omega, ?_⟩
  · unfold padZero
    rw [String.length_append]
    simp only [String.length, List.length_replicate]
    omega
  · have hneg : minDuration < -d := by
      have h : @LE.le Int _ d (2 ^ 63 - 1) := hmax
      show @LT.lt Int _ (-(2 ^ 63)) (-d)
      norm_num at h ⊢
      omega
    rw [formatDuration_eq d hmin, formatDuration_eq (-d) hneg, Int.natAbs_neg]

theorem C26_formatDuration_fields_witness :
    FormatDuration (-3723456789012) =
      padZero 2 ((-3723456789012 : Int).natAbs / 1000000 / 3600000) ++ ":" ++
        padZero 2 ((-3723456789012 : Int).natAbs / 1000000 % 3600000 / 60000) ++ ":" ++
        padZero 2 ((-3723456789012 : Int).natAbs / 1000000 % 60000 / 1000) ++ "." ++
        padZero 3 ((-3723456789012 : Int).natAbs / 1000000 % 1000) ∧
      2 ≤ (padZero 2 ((-3723456789012 : Int).natAbs / 1000000 / 3600000)).length ∧
      (padZero 2 ((-3723456789012 : Int).natAbs / 1000000 % 3600000 / 60000)).length = 2 ∧
      (padZero 2 ((-3723456789012 : Int).natAbs / 1000000 % 60000 / 1000)).length = 2 ∧
      (padZero 3 ((-3723456789012 : Int).natAbs / 1000000 % 1000)).length = 3 ∧
      (-3723456789012 : Int).natAbs / 1000000 % 3600000 / 60000 < 60 ∧
      (-3723456789012 : Int).natAbs / 1000000 % 60000 / 1000 < 60 ∧
      FormatDuration (-(-3723456789012)) = FormatDuration (-3723456789012) :=
  C26_formatDuration_fields (-3723456789012) (by decide) (by decide)

/-- C27: for every hour h below 24, minute m and second s below 60 and
millisecond count ms below 1000, with d the duration of h hours, m minutes,
s seconds and ms milliseconds: FormatDuration d is the text of h, m, s as two
digits and ms as three digits; ParseTime of that text succeeds and is the
instant of the reference date at d after midnight; FormatTime of that instant
is the same text again, so that ParseTime after FormatTime gives the instant
back. -/
theorem C27_format_parse_round_trip (h m s ms : Nat) (hh : h < 24) (hm : m < 60) (hs : s < 60)
    (hms : ms < 1000) :
    FormatDuration ((h : Int) * (3600 * nsPerSecond) + (m : Int) * (60 * nsPerSecond) +
        (s : Int) * nsPerSecond + (ms : Int) * 1000000) =
      padZero 2 h ++ ":" ++ padZero 2 m ++ ":" ++ padZero 2 s ++ "." ++ padZero 3 ms ∧
    ParseTime (FormatDuration ((h : Int) * (3600 * nsPerSecond) + (m : Int) * (60 * nsPerSecond) +
        (s : Int) * nsPerSecond + (ms : Int) * 1000000)) =
      some (projectEpoch + ((h : Int) * (3600 * nsPerSecond) + (m : Int) * (60 * nsPerSecond) +
        (s : Int) * nsPerSecond + (ms : Int) * 1000000)) ∧
    Time.isClockTime (projectEpoch + ((h : Int) * (3600 * nsPerSecond) +
      (m : Int) * (60 * nsPerSecond) + (s : Int) * nsPerSecond + (ms : Int) * 1000000)) ∧
    FormatTime (projectEpoch + ((h : Int) * (3600 * nsPerSecond) + (m : Int) * (60 * nsPerSecond) +
        (s : Int) * nsPerSecond + (ms : Int) * 1000000)) =
      FormatDuration ((h : Int) * (3600 * nsPerSecond) + (m : Int) * (60 * nsPerSecond) +
        (s : Int) * nsPerSecond + (ms : Int) * 1000000) ∧
    ParseTime (FormatTime (projectEpoch + ((h : Int) * (3600 * nsPerSecond) +
        (m : Int) * (60 * nsPerSecond) + (s : Int) * nsPerSecond + (ms : Int) * 1000000))) =
      some (projectEpoch + ((h : Int) * (3600 * nsPerSecond) + (m : Int) * (60 * nsPerSecond) +
        (s : Int) * nsPerSecond + (ms : Int) * 1000000)) := by
  have hd : (h : Int) * (3600 * nsPerSecond) + (m : Int) * (60 * nsPerSecond) +
      (s : Int) * nsPerSecond + (ms : Int) * 1000000 =
      ((h * 3600000000000 + m * 60000000000 + s * 1000000000 + ms * 1000000 : Nat) : Int) := by
    unfold nsPerSecond
    push_cast
    ring
  rw [hd]
  have hfd := formatDuration_of_fields h m s ms hm hs hms
  have hft := formatTime_of_fields h m s ms hh hm hs hms
  have hdata : (padZero 2 h ++ ":" ++ padZero 2 m ++ ":" ++ padZero 2 s ++ "." ++
      padZero 3 ms).data =
      [Nat.digitChar (h / 10), Nat.digitChar (h % 10), ':',
       Nat.digitChar (m / 10), Nat.digitChar (m % 10), ':',
       Nat.digitChar (s / 10), Nat.digitChar (s % 10), '.',
       Nat.digitChar (ms / 100), Nat.digitChar (ms / 10 % 10), Nat.digitChar (ms % 10)] := by
    simp only [String.data_append, padZero_two_data h (by omega), padZero_two_data m (by omega),
      padZero_two_data s (by omega), padZero_three_data ms hms]
    rfl
  have hparse : ParseTime (padZero 2 h ++ ":" ++ padZero 2 m ++ ":" ++ padZero 2 s ++ "." ++
      padZero 3 ms) =
      some (projectEpoch + ((h * 3600000000000 + m * 60000000000 + s * 1000000000 +
        ms * 1000000 : Nat) : Int)) := by
    rw [parseTime_millis _ _ _ _ _ _ _ _ _ _ hdata
      (digitChar_isDigit _ (by omega)) (digitChar_isDigit _ (by omega))
      (digitChar_isDigit _ (by omega)) (digitChar_isDigit _ (by omega))
      (digitChar_isDigit _ (by omega)) (digitChar_isDigit _ (by omega))
      (digitChar_isDigit _ (by omega)) (digitChar_isDigit _ (by omega))
      (digitChar_isDigit _ (by omega))]
    simp only [digitVal_digitChar (h / 10) (by omega), digitVal_digitChar (h % 10) (by omega),
      digitVal_digitChar (m / 10) (by omega), digitVal_digitChar (m % 10) (by omega),
      digitVal_digitChar (s / 10) (by omega), digitVal_digitChar (s % 10) (by omega),
      digitVal_digitChar (ms / 100) (by omega), digitVal_digitChar (ms / 10 % 10) (by omega),
      digitVal_digitChar (ms % 10) (by omega)]
    have f1 : h / 10 * 10 + h % 10 = h := by omega
    have f2 : m / 10 * 10 + m % 10 = m := by omega
    have f3 : s / 10 * 10 + s % 10 = s := by omega
    have f4 : ms / 100 * 100 + ms / 10 % 10 * 10 + ms % 10 = ms := by omega
    rw [f1, f2, f3, f4, if_pos ⟨hh, hm, hs⟩, Option.some.injEq]
    unfold nsPerSecond
    push_cast
    ring
  refine ⟨hfd, ?_, ?_, ?_, ?_⟩
  · rw [hfd]; exact hparse
  · have := isClockTime_of_fields h m s (ms * 1000000) hh hm hs (by omega)
    have e : projectEpoch + ((h * 3600000000000 + m * 60000000000 + s * 1000000000 +
        ms * 1000000 : Nat) : Int) =
        projectEpoch + (h : Int) * (3600 * nsPerSecond) + (m : Int) * (60 * nsPerSecond) +
          (s : Int) * nsPerSecond + ((ms * 1000000 : Nat) : Int) := by
      unfold nsPerSecond
      push_cast
      ring
    rw [e]; exact this
  · rw [hft, hfd]
  · rw [hft]; exact hparse

theorem C27_format_parse_round_trip_witness :
    FormatDuration (((10 : Nat) : Int) * (3600 * nsPerSecond) +
        ((20 : Nat) : Int) * (60 * nsPerSecond) +
        ((30 : Nat) : Int) * nsPerSecond + ((123 : Nat) : Int) * 1000000) =
      padZero 2 10 ++ ":" ++ padZero 2 20 ++ ":" ++ padZero 2 30 ++ "." ++ padZero 3 123 ∧
    ParseTime (FormatDuration (((10 : Nat) : Int) * (3600 * nsPerSecond) +
        ((20 : Nat) : Int) * (60 * nsPerSecond) +
        ((30 : Nat) : Int) * nsPerSecond + ((123 : Nat) : Int) * 1000000)) =
      some (projectEpoch + (((10 : Nat) : Int) * (3600 * nsPerSecond) +
        ((20 : Nat) : Int) * (60 * nsPerSecond) +
        ((30 : Nat) : Int) * nsPerSecond + ((123 : Nat) : Int) * 1000000)) ∧
    Time.isClockTime (projectEpoch + (((10 : Nat) : Int) * (3600 * nsPerSecond) +
      ((20 : Nat) : Int) * (60 * nsPerSecond) + ((30 : Nat) : Int) * nsPerSecond +
      ((123 : Nat) : Int) * 1000000)) ∧
    FormatTime (projectEpoch + (((10 : Nat) : Int) * (3600 * nsPerSecond) +
        ((20 : Nat) : Int) * (60 * nsPerSecond) +
        ((30 : Nat) : Int) * nsPerSecond + ((123 : Nat) : Int) * 1000000)) =
      FormatDuration (((10 : Nat) : Int) * (3600 * nsPerSecond) +
        ((20 : Nat) : Int) * (60 * nsPerSecond) +
        ((30 : Nat) : Int) * nsPerSecond + ((123 : Nat) : Int) * 1000000) ∧
    ParseTime (FormatTime (projectEpoch + (((10 : Nat) : Int) * (3600 * nsPerSecond) +
        ((20 : Nat) : Int) * (60 * nsPerSecond) + ((30 : Nat) : Int) * nsPerSecond +
        ((123 : Nat) : Int) * 1000000))) =
      some (projectEpoch + (((10 : Nat) : Int) * (3600 * nsPerSecond) +
        ((20 : Nat) : Int) * (60 * nsPerSecond) +
        ((30 : Nat) : Int) * nsPerSecond + ((123 : Nat) : Int) * 1000000)) :=
  C27_format_parse_round_trip 10 20 30 123 (by decide) (by decide) (by decide) (by decide)

/-- C28: for an event of each of the thirteen recognised kinds,
GetEventDescription is the fixed template of the kind with the competitor id
and the payload of the kind filled in (the scheduled start time as FormatTime
renders it, the firing-range index, the target index, the comment); the two
descriptions checked by the test suite come out as expected; and in every
state reached from a fresh simulation processEvent returns a state whose log
is the old log, then the line made of an opening bracket, FormatTime of the
event's time, a closing bracket, a blank and the description of the event,
then whatever else the event makes it append. -/
theorem C28_event_description_templates (e : Event) :
    (e.ID = EventRegistered → GetEventDescription e =
      "The competitor(" ++ toString e.CompetitorID ++ ") registered") ∧
    (e.ID = EventStartTimeSet → GetEventDescription e =
      "The start time for the competitor(" ++ toString e.CompetitorID ++
        ") was set by a draw to " ++ FormatTime e.ScheduledStartTime) ∧
    (e.ID = EventOnStartLine → GetEventDescription e =
      "The competitor(" ++ toString e.CompetitorID ++ ") is on the start line") ∧
    (e.ID = EventStarted → GetEventDescription e =
      "The competitor(" ++ toString e.CompetitorID ++ ") has started") ∧
    (e.ID = EventOnFiringRange → GetEventDescription e =
      "The competitor(" ++ toString e.CompetitorID ++ ") is on the firing range(" ++
        toString e.FiringRange ++ ")") ∧
    (e.ID = EventTargetHit → GetEventDescription e =
      "The target(" ++ toString e.Target ++ ") has been hit by competitor(" ++
        toString e.CompetitorID ++ ")") ∧
    (e.ID = EventLeftFiringRange → GetEventDescription e =
      "The competitor(" ++ toString e.CompetitorID ++ ") left the firing range") ∧
    (e.ID = EventEnteredPenaltyLaps → GetEventDescription e =
      "The competitor(" ++ toString e.CompetitorID ++ ") entered the penalty laps") ∧
    (e.ID = EventLeftPenaltyLaps → GetEventDescription e =
      "The competitor(" ++ toString e.CompetitorID ++ ") left the penalty laps") ∧
    (e.ID = EventEndedMainLap → GetEventDescription e =
      "The competitor(" ++ toString e.CompetitorID ++ ") ended the main lap") ∧
    (e.ID = EventCannotContinue → GetEventDescription e =
      "The competitor(" ++ toString e.CompetitorID ++ ") can't continue: " ++ e.Comment) ∧
    (e.ID = EventDisqualified → GetEventDescription e =
      "The competitor(" ++ toString e.CompetitorID ++ ") is disqualified") ∧
    (e.ID = EventFinished → GetEventDescription e =
      "The competitor(" ++ toString e.CompetitorID ++ ") has finished") ∧
    GetEventDescription
      { Timestamp := projectEpoch + 36000 * nsPerSecond, ID := EventRegistered,
        CompetitorID := 101 } = "The competitor(101) registered" ∧
    GetEventDescription
      { Timestamp := projectEpoch + 36300 * nsPerSecond, ID := EventStartTimeSet,
        CompetitorID := 102, ScheduledStartTime := projectEpoch + 37800 * nsPerSecond } =
      "The start time for the competitor(102) was set by a draw to 10:30:00.000" ∧
    (∀ s s1, processEvent s e = some s1 → ∃ extra, s1.OutputLog =
      s.OutputLog ++ ["[" ++ FormatTime e.Timestamp ++ "] " ++ GetEventDescription e] ++ extra) ∧
    ∀ (config : Config) (evs : List Event),
      ∃ s s1 extra, processEvents (NewSimulation config) evs = some s ∧
        processEvent s e = some s1 ∧ s1.OutputLog =
          s.OutputLog ++ ["[" ++ FormatTime e.Timestamp ++ "] " ++ GetEventDescription e] ++
            extra := by
  refine ⟨?_, ?_, ?_, ?_, ?_, ?_, ?_, ?_, ?_, ?_, ?_, ?_, ?_, by decide, by decide, ?_, ?_⟩
  · intro h; unfold GetEventDescription; rw [if_pos h]
  · intro h; unfold GetEventDescription; rw [if_neg (by rw [h]; decide), if_pos h]
  · intro h; unfold GetEventDescription
    rw [if_neg (by rw [h]; decide), if_neg (by rw [h]; decide), if_pos h]
  · intro h; unfold GetEventDescription
    rw [if_neg (by rw [h]; decide), if_neg (by rw [h]; decide), if_neg (by rw [h]; decide),
      if_pos h]
  · intro h; unfold GetEventDescription
    rw [if_neg (by rw [h]; decide), if_neg (by rw [h]; decide), if_neg (by rw [h]; decide),
      if_neg (by rw [h]; decide), if_pos h]
  · intro h; unfold GetEventDescription
    rw [if_neg (by rw [h]; decide), if_neg (by rw [h]; decide), if_neg (by rw [h]; decide),
      if_neg (by rw [h]; decide), if_neg (by rw [h]; decide), if_pos h]
  · intro h; unfold GetEventDescription
    rw [if_neg (by rw [h]; decide), if_neg (by rw [h]; decide), if_neg (by rw [h]; decide),
      if_neg (by rw [h]; decide), if_neg (by rw [h]; decide), if_neg (by rw [h]; decide),
      if_pos h]
  · intro h; unfold GetEventDescription
    rw [if_neg (by rw [h]; decide), if_neg (by rw [h]; decide), if_neg (by rw [h]; decide),
      if_neg (by rw [h]; decide), if_neg (by rw [h]; decide), if_neg (by rw [h]; decide),
      if_neg (by rw [h]; decide), if_pos h]
  · intro h; unfold GetEventDescription
    rw [if_neg (by rw [h]; decide), if_neg (by rw [h]; decide), if_neg (by rw [h]; decide),
      if_neg (by rw [h]; decide), if_neg (by rw [h]; decide), if_neg (by rw [h]; decide),
      if_neg (by rw [h]; decide), if_neg (by rw [h]; decide), if_pos h]
  · intro h; unfold GetEventDescription
    rw [if_neg (by rw [h]; decide), if_neg (by rw [h]; decide), if_neg (by rw [h]; decide),
      if_neg (by rw [h]; decide), if_neg (by rw [h]; decide), if_neg (by rw [h]; decide),
      if_neg (by rw [h]; decide), if_neg (by rw [h]; decide), if_neg (by rw [h]; decide),
      if_pos h]
  · intro h; unfold GetEventDescription
    rw [if_neg (by rw [h]; decide), if_neg (by rw [h]; decide), if_neg (by rw [h]; decide),
      if_neg (by rw [h]; decide), if_neg (by rw [h]; decide), if_neg (by rw [h]; decide),
      if_neg (by rw [h]; decide), if_neg (by rw [h]; decide), if_neg (by rw [h]; decide),
      if_neg (by rw [h]; decide), if_pos h]
  · intro h; unfold GetEventDescription
    rw [if_neg (by rw [h]; decide), if_neg (by rw [h]; decide), if_neg (by rw [h]; decide),
      if_neg (by rw [h]; decide), if_neg (by rw [h]; decide), if_neg (by rw [h]; decide),
      if_neg (by rw [h]; decide), if_neg (by rw [h]; decide), if_neg (by rw [h]; decide),
      if_neg (by rw [h]; decide), if_neg (by rw [h]; decide), if_pos h]
  · intro h; unfold GetEventDescription
    rw [if_neg (by rw [h]; decide), if_neg (by rw [h]; decide), if_neg (by rw [h]; decide),
      if_neg (by rw [h]; decide), if_neg (by rw [h]; decide), if_neg (by rw [h]; decide),
      if_neg (by rw [h]; decide), if_neg (by rw [h]; decide), if_neg (by rw [h]; decide),
      if_neg (by rw [h]; decide), if_neg (by rw [h]; decide), if_neg (by rw [h]; decide),
      if_pos h]
  · intro s s1 h
    obtain ⟨r, _, _, _, _, hlog⟩ := processEvent_some h
    exact ⟨r.2, hlog⟩
  · intro config evs
    obtain ⟨s, hs, _, hinv, _⟩ := processEvents_fresh config evs
    have hcur : LapsInv (currentRecord s e.CompetitorID) := by
      cases hk : s.Competitors e.CompetitorID with
      | none => rw [currentRecord_of_none hk]; exact lapsInv_new _
      | some c => rw [currentRecord_of_some hk]; exact hinv _ _ hk
    obtain ⟨r, hr, _⟩ := stepCompetitor_lapsInv s.Config _ e hcur
    have hpe := processEvent_eq s e
    rw [hr] at hpe
    exact ⟨s, _, r.2, hs, hpe, rfl⟩

/-- C29 (divergence): a competitor starts at 10:00:00, enters firing range 1
at 10:05:00, hits one target and leaves the range at 10:05:10.  The session
record stored in lap 1 has range id 0, the FiringRange field of the
LeftFiringRange event, and not 1, the range of the OnFiringRange event. -/
theorem C29_divergence_range_id_of_exit_event :
    ∃ s c lap sr,
      Run (NewSimulation { Laps := 1, LapLen := 1000, PenaltyLen := 100, FiringLines := 1 })
        [{ Timestamp := projectEpoch + 36000 * nsPerSecond, ID := EventStarted, CompetitorID := 1 },
         { Timestamp := projectEpoch + 36300 * nsPerSecond, ID := EventOnFiringRange,
           CompetitorID := 1, FiringRange := 1 },
         { Timestamp := projectEpoch + 36301 * nsPerSecond, ID := EventTargetHit,
           CompetitorID := 1, Target := 1 },
         { Timestamp := projectEpoch + 36310 * nsPerSecond, ID := EventLeftFiringRange,
           CompetitorID := 1 }] = some s ∧
      s.Competitors 1 = some c ∧ c.LapsData = [lap] ∧ lap.ShootingData = [sr] ∧
      sr.EntryTime = projectEpoch + 36300 * nsPerSecond ∧
      sr.ExitTime = projectEpoch + 36310 * nsPerSecond ∧ sr.Hits = 1 ∧
      sr.RangeID = 0 ∧ sr.RangeID ≠ 1 :=
  ⟨_, _, _, _, rfl, rfl, rfl, rfl, rfl, rfl, rfl, rfl, by decide⟩

/-- C29 (what the code does): for a competitor that is reachable from a fresh
simulation and is on a lap (CurrentLapNumber at least 1), processing for it,
consecutively among its events, OnFiringRange, k TargetHit events and
LeftFiringRange does not abort and appends one session record to the current
lap: its entry time is the time of the OnFiringRange event, its exit time the
time of the LeftFiringRange event, its hit count k, its shot count 5, and its
range id the FiringRange field of the LeftFiringRange event. -/
theorem C29_session_record_of_range_visit (config : Config) (evs0 : List Event)
    (s : Simulation) (X : Int) (c : Competitor)
    (hreach : processEvents (NewSimulation config) evs0 = some s)
    (hc : s.Competitors X = some c) (hlap : 1 ≤ c.CurrentLapNumber)
    (es hits : List Event) (onRange left : Event)
    (hes : es.filter (fun e => e.CompetitorID = X) = onRange :: hits ++ [left])
    (hOnRange : onRange.ID = EventOnFiringRange)
    (hHits : ∀ e ∈ hits, e.ID = EventTargetHit)
    (hLeft : left.ID = EventLeftFiringRange) :
    ∃ s1 c1 lap lap1, processEvents s es = some s1 ∧ s1.Competitors X = some c1 ∧
      c1.CurrentLapNumber = c.CurrentLapNumber ∧
      c.LapsData[(c.CurrentLapNumber - 1).toNat]? = some lap ∧
      c1.LapsData[(c.CurrentLapNumber - 1).toNat]? = some lap1 ∧
      lap1.ShootingData = lap.ShootingData ++
        [{ RangeID := left.FiringRange
           EntryTime := onRange.Timestamp
           ExitTime := left.Timestamp
           Hits := (hits.length : Int)
           Shots := 5
           PenaltiesIncurred := 5 - (hits.length : Int) }] := by
  -- the state is reachable, so its records satisfy the lap invariant
  obtain ⟨s', hs', hcfg, hinv, _⟩ := processEvents_fresh config evs0
  rw [hreach] at hs'
  simp only [Option.some.injEq] at hs'
  subst hs'
  obtain ⟨s1, hs1, _, _⟩ := processEvents_invariant config LapsInv lapsInv_new
    (stepCompetitor_lapsInv config) es s hcfg hinv
  have hne : es.filter (fun e => e.CompetitorID = X) ≠ [] := by rw [hes]; simp
  have hrep := (processEvents_competitor X es s s1 hs1).2 hne
  rw [hes, hcfg, currentRecord_of_some hc] at hrep
  have hlen : c.CurrentLapNumber ≤ (c.LapsData.length : Int) := (hinv X c hc).2.1
  -- OnFiringRange, then the TargetHit events
  obtain ⟨c2, hc2, h2cur, h2laps, _, h2hits⟩ := replay_targetHits config hits
    (caseOnFiringRange { c with LastEventTime := onRange.Timestamp } onRange).1 hHits
  rw [List.cons_append,
    replay_cons_of_step config c onRange _ _ (stepCompetitor_onFiringRange config c onRange hOnRange),
    replay_append, hc2, Option.some_bind] at hrep
  -- LeftFiringRange
  rw [replay_cons_of_step config c2 left _ _ (stepCompetitor_leftFiringRange config c2 left hLeft)]
    at hrep
  simp only [replay] at hrep
  rw [caseLeftFiringRange_fst] at hrep
  simp only [caseOnFiringRange] at h2cur h2laps h2hits
  have hrange : 0 ≤ c2.CurrentLapNumber - 1 ∧
      c2.CurrentLapNumber - 1 < (c2.LapsData.length : Int) := by
    rw [h2cur, h2laps]; constructor <;> omega
  simp only [hrange, and_self, if_true] at hrep
  have hidx : (c.CurrentLapNumber - 1).toNat < c.LapsData.length := by omega
  have hentry : c2.CurrentLapTempData.RangeEntryTime = onRange.Timestamp := by
    obtain ⟨c3, hc3, hP⟩ := replay_invariant config
      (fun c0 => c0.CurrentLapTempData.RangeEntryTime = onRange.Timestamp) hits
      (fun c0 e he h0 => by
        rw [stepCompetitor_targetHit config c0 e (hHits e he)]
        exact ⟨_, rfl, h0⟩)
      (caseOnFiringRange { c with LastEventTime := onRange.Timestamp } onRange).1 rfl
    rw [hc2] at hc3
    simp only [Option.some.injEq] at hc3
    rw [hc3]; exact hP
  refine ⟨s1, _, c.LapsData[(c.CurrentLapNumber - 1).toNat],
    { c.LapsData[(c.CurrentLapNumber - 1).toNat] with
      ShootingData := c.LapsData[(c.CurrentLapNumber - 1).toNat].ShootingData ++
        [{ RangeID := left.FiringRange
           EntryTime := onRange.Timestamp
           ExitTime := left.Timestamp
           Hits := (hits.length : Int)
           Shots := 5
           PenaltiesIncurred := 5 - (hits.length : Int) }] },
    hs1, hrep, h2cur, List.getElem?_eq_getElem hidx, ?_, rfl⟩
  show (c2.LapsData.modify _ (c2.CurrentLapNumber - 1).toNat)[(c.CurrentLapNumber - 1).toNat]? = _
  rw [h2cur, h2laps, List.getElem?_modify_eq, List.getElem?_eq_getElem hidx]
  simp only [Option.map_some', sessionRecord, hentry, h2hits, zero_add]
  rfl

/-- Scenario A of the test suite up to the range exit: five hits between
10:05:00 and 10:05:10. -/
theorem C29_session_record_of_range_visit_witness :
    ∃ s, processEvents (NewSimulation { Laps := 1, LapLen := 1000, PenaltyLen := 100 })
        [{ Timestamp := projectEpoch + 32400 * nsPerSecond, ID := EventRegistered, CompetitorID := 1 },
         { Timestamp := projectEpoch + 36000 * nsPerSecond, ID := EventStarted,
           CompetitorID := 1 }] = some s ∧
      ∃ s1 c1 lap lap1, processEvents s
        [{ Timestamp := projectEpoch + 36300 * nsPerSecond, ID := EventOnFiringRange,
           CompetitorID := 1, FiringRange := 1 },
         { Timestamp := projectEpoch + 36301 * nsPerSecond, ID := EventTargetHit,
           CompetitorID := 1, Target := 1 },
         { Timestamp := projectEpoch + 36302 * nsPerSecond, ID := EventTargetHit,
           CompetitorID := 1, Target := 2 },
         { Timestamp := projectEpoch + 36310 * nsPerSecond, ID := EventLeftFiringRange,
           CompetitorID := 1 }] = some s1 ∧
        s1.Competitors 1 = some c1 ∧
        c1.CurrentLapNumber = 1 ∧
        [({ LapNumber := 1, StartTime := projectEpoch + 36000 * nsPerSecond } : LapRecord)][0]? =
          some lap ∧
        c1.LapsData[0]? = some lap1 ∧
        lap1.ShootingData = lap.ShootingData ++
          [{ RangeID := 0
             EntryTime := projectEpoch + 36300 * nsPerSecond
             ExitTime := projectEpoch + 36310 * nsPerSecond
             Hits := 2
             Shots := 5
             PenaltiesIncurred := 5 - 2 }] := by
  refine ⟨_, rfl, ?_⟩
  exact C29_session_record_of_range_visit
    { Laps := 1, LapLen := 1000, PenaltyLen := 100 }
    [{ Timestamp := projectEpoch + 32400 * nsPerSecond, ID := EventRegistered, CompetitorID := 1 },
     { Timestamp := projectEpoch + 36000 * nsPerSecond, ID := EventStarted, CompetitorID := 1 }]
    _ 1 _ rfl rfl (by decide) _
    [{ Timestamp := projectEpoch + 36301 * nsPerSecond, ID := EventTargetHit,
       CompetitorID := 1, Target := 1 },
     { Timestamp := projectEpoch + 36302 * nsPerSecond, ID := EventTargetHit,
       CompetitorID := 1, Target := 2 }]
    { Timestamp := projectEpoch + 36300 * nsPerSecond, ID := EventOnFiringRange,
      CompetitorID := 1, FiringRange := 1 }
    { Timestamp := projectEpoch + 36310 * nsPerSecond, ID := EventLeftFiringRange,
      CompetitorID := 1 }
    (by decide) rfl (by decide) rfl

/-- C30: for every configuration, whatever its lap count, and every event
list, any number k of the sorted events is processed on a fresh simulation
without aborting, and every competitor record then has a current lap number
that is at least 0 and at most the number of its lap records, and at least 1
once a Started event of the competitor has been processed.  When the current
lap number is at least 1 the record of the current lap exists, and the next
event of the competitor is processed and stored in it: a range exit appends
its session record to that lap, a penalty-loop exit stores the penalty-loop
times, the served count and adds the count to the total, a lap completion
stores the end time. -/
theorem C30_current_lap_index_is_valid (config : Config) (evs : List Event) (k : Nat) :
    ∃ s, processEvents (NewSimulation config) ((sortEvents evs).take k) = some s ∧
      ∀ id c, s.Competitors id = some c →
        0 ≤ c.CurrentLapNumber ∧ c.CurrentLapNumber ≤ (c.LapsData.length : Int) ∧
        ((∃ e ∈ (sortEvents evs).take k, e.CompetitorID = id ∧ e.ID = EventStarted) →
          1 ≤ c.CurrentLapNumber) ∧
        (1 ≤ c.CurrentLapNumber →
          ∃ lap, c.LapsData[(c.CurrentLapNumber - 1).toNat]? = some lap ∧
            ∀ e, e.CompetitorID = id →
              ∃ s1 c1, processEvent s e = some s1 ∧ s1.Competitors id = some c1 ∧
                (e.ID = EventLeftFiringRange →
                  ∃ lap1, c1.LapsData[(c.CurrentLapNumber - 1).toNat]? = some lap1 ∧
                    lap1.ShootingData = lap.ShootingData ++ [sessionRecord c e]) ∧
                (e.ID = EventLeftPenaltyLaps →
                  ∃ lap1, c1.LapsData[(c.CurrentLapNumber - 1).toNat]? = some lap1 ∧
                    lap1.PenaltyEntryTime = c.CurrentLapTempData.PenaltyEntryTime ∧
                    lap1.PenaltyExitTime = e.Timestamp ∧
                    lap1.PenaltiesServed = c.CurrentLapTempData.PenaltiesToServe ∧
                    c1.TotalPenaltiesServed =
                      c.TotalPenaltiesServed + c.CurrentLapTempData.PenaltiesToServe) ∧
                (e.ID = EventEndedMainLap →
                  ∃ lap1, c1.LapsData[(c.CurrentLapNumber - 1).toNat]? = some lap1 ∧
                    lap1.EndTime = e.Timestamp)) := by
  obtain ⟨s, hs, hcfg, hinv, hrep⟩ := processEvents_fresh config ((sortEvents evs).take k)
  refine ⟨s, hs, fun id c hc => ⟨(hinv id c hc).1, (hinv id c hc).2.1, ?_, ?_⟩⟩
  · rintro ⟨e, he, hid, hkind⟩
    have hmem : e ∈ ((sortEvents evs).take k).filter (fun e => e.CompetitorID = id) := by
      simp [List.mem_filter, he, hid]
    obtain ⟨c1, hc1, _, hlap⟩ := replay_onLap config _ (NewCompetitor id) (loopInv_new id)
      (Or.inr ⟨e, hmem, hkind⟩)
    rw [(hrep id).2 (List.ne_nil_of_mem hmem), hc1] at hc
    simp only [Option.some.injEq] at hc
    rw [← hc]; exact hlap
  · intro hlap
    have h0 := (hinv id c hc).1
    have hlen := (hinv id c hc).2.1
    have hguard : 0 ≤ c.CurrentLapNumber - 1 ∧
        c.CurrentLapNumber - 1 < (c.LapsData.length : Int) := by omega
    have hidx : (c.CurrentLapNumber - 1).toNat < c.LapsData.length := by omega
    refine ⟨c.LapsData[(c.CurrentLapNumber - 1).toNat], List.getElem?_eq_getElem hidx, ?_⟩
    intro e he
    have hcur : currentRecord s e.CompetitorID = c := by
      rw [he]; exact currentRecord_of_some hc
    obtain ⟨r, hr, _⟩ := stepCompetitor_lapsInv s.Config c e (hinv id c hc)
    have hpe := processEvent_eq s e
    rw [hcur, hr] at hpe
    simp only [Option.map_some'] at hpe
    refine ⟨_, r.1, hpe, by simp [he], ?_, ?_, ?_⟩
    · intro hkind
      rw [stepCompetitor_leftFiringRange s.Config c e hkind] at hr
      simp only [Option.some.injEq] at hr
      rw [← hr, caseLeftFiringRange_fst]
      have hg : 0 ≤ ({ c with LastEventTime := e.Timestamp } : Competitor).CurrentLapNumber - 1 ∧
          ({ c with LastEventTime := e.Timestamp } : Competitor).CurrentLapNumber - 1 <
            (({ c with LastEventTime := e.Timestamp } : Competitor).LapsData.length : Int) := hguard
      simp only [if_pos hg]
      refine ⟨{ c.LapsData[(c.CurrentLapNumber - 1).toNat] with
        ShootingData := c.LapsData[(c.CurrentLapNumber - 1).toNat].ShootingData ++
          [sessionRecord c e] }, ?_, rfl⟩
      show (c.LapsData.modify _ (c.CurrentLapNumber - 1).toNat)[(c.CurrentLapNumber - 1).toNat]? = _
      rw [List.getElem?_modify_eq, List.getElem?_eq_getElem hidx]
      rfl
    · intro hkind
      rw [stepCompetitor_leftPenaltyLaps s.Config c e hkind] at hr
      simp only [Option.some.injEq] at hr
      rw [← hr, caseLeftPenaltyLaps_fst]
      have hg : 0 ≤ ({ c with LastEventTime := e.Timestamp } : Competitor).CurrentLapNumber - 1 ∧
          ({ c with LastEventTime := e.Timestamp } : Competitor).CurrentLapNumber - 1 <
            (({ c with LastEventTime := e.Timestamp } : Competitor).LapsData.length : Int) := hguard
      simp only [if_pos hg]
      refine ⟨{ c.LapsData[(c.CurrentLapNumber - 1).toNat] with
        PenaltyEntryTime := c.CurrentLapTempData.PenaltyEntryTime
        PenaltyExitTime := e.Timestamp
        PenaltiesServed := c.CurrentLapTempData.PenaltiesToServe }, ?_, rfl, rfl, rfl, trivial⟩
      show (c.LapsData.modify _ (c.CurrentLapNumber - 1).toNat)[(c.CurrentLapNumber - 1).toNat]? = _
      rw [List.getElem?_modify_eq, List.getElem?_eq_getElem hidx]
      rfl
    · intro hkind
      have hstep : stepCompetitor s.Config c e =
          caseEndedMainLap s.Config { c with LastEventTime := e.Timestamp } e := by
        unfold stepCompetitor applyEvent
        simp only [hkind]
        rfl
      rw [hstep] at hr
      have hclose : (closeLap { c with LastEventTime := e.Timestamp } e)[(c.CurrentLapNumber - 1).toNat]? =
          some { c.LapsData[(c.CurrentLapNumber - 1).toNat] with EndTime := e.Timestamp } := by
        unfold closeLap
        have hg : 0 ≤ ({ c with LastEventTime := e.Timestamp } : Competitor).CurrentLapNumber - 1 ∧
            ({ c with LastEventTime := e.Timestamp } : Competitor).CurrentLapNumber - 1 <
              (({ c with LastEventTime := e.Timestamp } : Competitor).LapsData.length : Int) := hguard
        rw [if_pos hg]
        show (c.LapsData.modify _ (c.CurrentLapNumber - 1).toNat)[(c.CurrentLapNumber - 1).toNat]? = _
        rw [List.getElem?_modify_eq, List.getElem?_eq_getElem hidx]
        rfl
      by_cases hl : c.CurrentLapNumber = s.Config.Laps
      · rw [caseEndedMainLap_last s.Config { c with LastEventTime := e.Timestamp } e hl] at hr
        simp only [Option.some.injEq] at hr
        rw [← hr]
        exact ⟨_, hclose, rfl⟩
      · rw [caseEndedMainLap_next s.Config { c with LastEventTime := e.Timestamp } e hl h0 hlen] at hr
        simp only [Option.some.injEq] at hr
        rw [← hr]
        dsimp only
        split_ifs with hlt
        · refine ⟨{ c.LapsData[(c.CurrentLapNumber - 1).toNat] with EndTime := e.Timestamp },
            ?_, rfl⟩
          rw [List.getElem?_append_left (by rw [length_closeLap]; exact hidx)]
          exact hclose
        · refine ⟨{ c.LapsData[(c.CurrentLapNumber - 1).toNat] with EndTime := e.Timestamp },
            ?_, rfl⟩
          rw [List.getElem?_modify, hclose]
          have hne : (c.CurrentLapNumber + 1 - 1).toNat ≠ (c.CurrentLapNumber - 1).toNat := by
            omega
          simp only [Option.map_some', if_neg hne]
          rfl

end BiathlonSim
